import Mathlib

/-! # Classification tree over student profiles

A shallow embedding of `src/main.cpp`: the profile builder (`cargarPerfiles`),
the key derivation (`valorClasificacion` and its bracket functions), the
classification tree builder (`construirArbolClasificacion`) with the leaf
collector (`recolectarHojas`), the queries and the menu options of the class
`Aplicacion`, and the binary encoding of the student records, followed by the
properties proved about them.

Modelling conventions.
* `std::string` is `String`; `std::less<std::string>` is `cadenaMenor`, the
  lexicographic comparison, which is shown to be the order `<` of `String`.
* `std::vector<T>` is `List T`; `push_back` appends at the end.
* `int` fields are `Int`, `size_t` values are `Nat` (no arithmetic that could
  overflow is performed on them in the modelled code).
* `double` is an abstract type `F` with the operations of the class `Doble`;
  nothing is assumed about rounding, so every general result holds for any
  interpretation of the arithmetic. The instance on `ℚ` is exact arithmetic
  and is used for worked examples with values that a double holds exactly.
  The instance on `Binario64` is the arithmetic of IEEE 754 binary64 with
  rounding to nearest, ties to even.
* A call that can throw (`vector::at`) returns `Option`.
* A `std::vector` that has been moved from is empty.
* What is written to the console is a list of values of `Salida`; a query
  returns `none` when an exception escapes from it.
* A stream is the list of its `char`s, a `char` being a byte. A repository
  is the list of the records written to its file; the student file is read
  back through its bytes, record by record, so that `cargarTodos` and
  `existe` throw what `leerCadena` throws. Whether a file can be opened is an
  input of each operation that opens it.
* A run of `ejecutar` is the list of the options chosen, each with what is
  typed at its prompts; an exception that escapes from an option ends it.
-/

namespace Clasificacion

/-! ## Data model -/

/-- The operations on `double` used by the program. `deNat n` is
`static_cast<double>(n)`, also used for the literals `0.0`, `70.0`, ...;
`menor`, `menorIgual`, `mayorIgual` and `igual` are `<`, `<=`, `>=` and `==`. -/
class Doble (F : Type) where
  deNat : Nat → F
  suma : F → F → F
  producto : F → F → F
  cociente : F → F → F
  menor : F → F → Bool
  menorIgual : F → F → Bool
  mayorIgual : F → F → Bool
  igual : F → F → Bool

instance : Doble ℚ where
  deNat n := (n : ℚ)
  suma a b := a + b
  producto a b := a * b
  cociente a b := a / b
  menor a b := decide (a < b)
  menorIgual a b := decide (a ≤ b)
  mayorIgual a b := decide (a ≥ b)
  igual a b := decide (a = b)

/-- Record `Estudiante` of the source. -/
structure Estudiante where
  carne : String
  genero : String
  residencia : String
  edad : Int
  colegioProcedencia : String
  tipoColegio : String
  trabaja : Bool
  estadoCivil : String
  deriving DecidableEq

/-- Record `RegistroHistorial` of the source. -/
structure RegistroHistorial (F : Type) where
  carneEstudiante : String
  semestre : Int
  materia : String
  nota : F
  deriving DecidableEq

/-- Record `PerfilEstudiante` of the source; the two `optional<double>` fields
are `Option F`. -/
structure PerfilEstudiante (F : Type) where
  estudiante : Estudiante
  historial : List (RegistroHistorial F)
  promedio : Option F
  tasaAprobacion : Option F
  deriving DecidableEq

/-- The enumeration `VariableClasificacion`. -/
inductive VariableClasificacion where
  | Genero
  | Residencia
  | TipoColegio
  | RangoEdad
  | RangoPromedio
  | RangoAprobacion
  | Trabaja
  | EstadoCivil
  | ColegioProcedencia
  deriving DecidableEq

/-- The struct `NodoArbolClasificacion`. The children are owned by the node.
The non-owning `padre` pointer is not a field: a node's parent is determined
by its position in the tree. -/
inductive NodoArbolClasificacion where
  | mk (etiqueta : String) (variable_ : Option VariableClasificacion)
      (indicesEstudiantes : List Nat) (hijos : List NodoArbolClasificacion) (nivel : Nat)

namespace NodoArbolClasificacion

/-- Field `etiqueta`. -/
def etiqueta : NodoArbolClasificacion → String
  | mk e _ _ _ _ => e

/-- Field `variable` (a reserved word in Lean, hence the underscore). -/
def variable_ : NodoArbolClasificacion → Option VariableClasificacion
  | mk _ v _ _ _ => v

/-- Field `indicesEstudiantes`. -/
def indicesEstudiantes : NodoArbolClasificacion → List Nat
  | mk _ _ i _ _ => i

/-- Field `hijos`. -/
def hijos : NodoArbolClasificacion → List NodoArbolClasificacion
  | mk _ _ _ h _ => h

/-- Field `nivel`. -/
def nivel : NodoArbolClasificacion → Nat
  | mk _ _ _ _ n => n

end NodoArbolClasificacion

/-! ## Profile builder (`cargarPerfiles`) -/

section Perfiles

variable {F : Type} [Doble F]

/-- The type `unordered_map<string, vector<RegistroHistorial>>`, as an
association list with at most one entry per key (only `operator[]` and `find`
are used on it, never its iteration order). -/
abbrev MapaRegistros (F : Type) := List (String × List (RegistroHistorial F))

/-- The statement `mapa[clave].push_back(registro)`: the entry of `clave` is
created empty when absent, then the record is appended to it. -/
def anexarRegistro (clave : String) (registro : RegistroHistorial F) :
    MapaRegistros F → MapaRegistros F
  | [] => [(clave, [registro])]
  | (k, v) :: resto =>
    if k = clave then (k, v ++ [registro]) :: resto
    else (k, v) :: anexarRegistro clave registro resto

/-- The call `mapa.find(clave)`: the vector stored under the key, if any. -/
def buscarRegistros (clave : String) : MapaRegistros F → Option (List (RegistroHistorial F))
  | [] => none
  | (k, v) :: resto => if k = clave then some v else buscarRegistros clave resto

/-- The effect of `move(it->second)` on the map: the vector stored under the
key is left empty (the moved-from state of a `std::vector`). -/
def vaciarRegistros (clave : String) : MapaRegistros F → MapaRegistros F
  | [] => []
  | (k, v) :: resto =>
    if k = clave then (k, []) :: resto else (k, v) :: vaciarRegistros clave resto

/-- The first loop of `cargarPerfiles`: group the grade entries by
`carneEstudiante`. -/
def agruparRegistros (registrosHistorial : List (RegistroHistorial F)) : MapaRegistros F :=
  registrosHistorial.foldl
    (fun mapa registro => anexarRegistro registro.carneEstudiante registro mapa) []

/-- The inner loop of `cargarPerfiles`: one pass over the history that
accumulates `suma` and `aprobadas`, starting from `0.0` and `0`. -/
def acumularNotas (historial : List (RegistroHistorial F)) : F × Nat :=
  historial.foldl
    (fun acc entrada =>
      (Doble.suma acc.1 entrada.nota,
        if Doble.mayorIgual entrada.nota (Doble.deNat 70 : F) then acc.2 + 1 else acc.2))
    ((Doble.deNat 0 : F), 0)

/-- The body of the second loop of `cargarPerfiles` for one student, given
the result of `find`: builds the profile. -/
def armarPerfil (estudiante : Estudiante) (hallado : Option (List (RegistroHistorial F))) :
    PerfilEstudiante F :=
  match hallado with
  | none => { estudiante := estudiante, historial := [], promedio := none, tasaAprobacion := none }
  | some historial =>
    if historial.isEmpty then
      { estudiante := estudiante, historial := historial, promedio := none,
        tasaAprobacion := none }
    else
      let acc := acumularNotas historial
      { estudiante := estudiante, historial := historial,
        promedio := some (Doble.cociente acc.1 (Doble.deNat historial.length)),
        tasaAprobacion :=
          some (Doble.cociente (Doble.deNat acc.2 : F) (Doble.deNat historial.length)) }

/-- One iteration of the second loop of `cargarPerfiles`: the state is the
map (whose vectors are moved out as they are used) and the profiles so far. -/
def pasoPerfil (estado : MapaRegistros F × List (PerfilEstudiante F)) (estudiante : Estudiante) :
    MapaRegistros F × List (PerfilEstudiante F) :=
  match buscarRegistros estudiante.carne estado.1 with
  | none => (estado.1, estado.2 ++ [armarPerfil estudiante none])
  | some historial =>
    (vaciarRegistros estudiante.carne estado.1,
      estado.2 ++ [armarPerfil estudiante (some historial)])

/-- The function `cargarPerfiles`, applied to the contents of the two
repositories (`cargarTodos` of each). -/
def cargarPerfiles (estudiantes : List Estudiante)
    (registrosHistorial : List (RegistroHistorial F)) : List (PerfilEstudiante F) :=
  (estudiantes.foldl pasoPerfil (agruparRegistros registrosHistorial, [])).2

end Perfiles

/-! ## Key derivation (`valorClasificacion`) -/

section Claves

variable {F : Type} [Doble F]

/-- The function `rangoEdad`. -/
def rangoEdad (edad : Int) : String :=
  if edad ≤ 0 then "Edad desconocida"
  else if edad < 18 then "Menor a 18"
  else if edad ≤ 30 then "18-30"
  else if edad ≤ 64 then "31-64"
  else "65+"

/-- The function `std::clamp(v, lo, hi)` on `double`:
`(v < lo) ? lo : (hi < v) ? hi : v`. -/
def clamp (v lo hi : F) : F :=
  if Doble.menor v lo then lo else if Doble.menor hi v then hi else v

/-- The function `rangoPromedio`. -/
def rangoPromedio (promedio : Option F) : String :=
  match promedio with
  | none => "Sin historial"
  | some p =>
    let valor := clamp p (Doble.deNat 0) (Doble.deNat 100)
    if Doble.menor valor (Doble.deNat 60 : F) then "0-59"
    else if Doble.menor valor (Doble.deNat 80 : F) then "60-79"
    else "80-100"

/-- The function `rangoAprobacion`. -/
def rangoAprobacion (tasaAprobacion : Option F) : String :=
  match tasaAprobacion with
  | none => "Sin historial"
  | some t =>
    let porcentaje := clamp (Doble.producto t (Doble.deNat 100)) (Doble.deNat 0) (Doble.deNat 100)
    if Doble.menorIgual porcentaje (Doble.deNat 50 : F) then "0-50 %"
    else if Doble.menorIgual porcentaje (Doble.deNat 75 : F) then "51-75 %"
    else "76-100 %"

/-- The function `valorClasificacion` (the `default` branch of the source's
switch is unreachable for the nine enumerators). -/
def valorClasificacion (var : VariableClasificacion) (perfil : PerfilEstudiante F) : String :=
  match var with
  | .Genero => if perfil.estudiante.genero.isEmpty then "Sin registro" else perfil.estudiante.genero
  | .Residencia =>
    if perfil.estudiante.residencia.isEmpty then "Sin registro" else perfil.estudiante.residencia
  | .TipoColegio =>
    if perfil.estudiante.tipoColegio.isEmpty then "Sin registro"
    else perfil.estudiante.tipoColegio
  | .RangoEdad => rangoEdad perfil.estudiante.edad
  | .RangoPromedio => rangoPromedio perfil.promedio
  | .RangoAprobacion => rangoAprobacion perfil.tasaAprobacion
  | .Trabaja => if perfil.estudiante.trabaja then "Si" else "No"
  | .EstadoCivil =>
    if perfil.estudiante.estadoCivil.isEmpty then "Sin registro"
    else perfil.estudiante.estadoCivil
  | .ColegioProcedencia =>
    if perfil.estudiante.colegioProcedencia.isEmpty then "Sin registro"
    else perfil.estudiante.colegioProcedencia

end Claves

/-! ## Classification tree builder -/

section Arbol

variable {F : Type} [Doble F]

/-- Lexicographic comparison of two character sequences, as done by
`std::string::compare`: the first position where they differ decides, by the
unsigned values of the characters, and a proper prefix is smaller. -/
def menorLex : List Char → List Char → Bool
  | _, [] => false
  | [], _ :: _ => true
  | a :: as, b :: bs =>
    if a.toNat < b.toNat then true
    else if b.toNat < a.toNat then false
    else menorLex as bs

/-- The comparison `a < b` of two `std::string` (the `std::less<string>` that
orders a `std::map<string, ...>`). -/
def cadenaMenor (a b : String) : Bool :=
  menorLex a.toList b.toList

/-- The type `map<string, vector<size_t>>`: an association list kept in
strictly increasing key order, which is the order of iteration. -/
abbrev MapaGrupos := List (String × List Nat)

/-- The statement `grupos[etiqueta].push_back(indice)` on the ordered map:
the key is located with `<` only; a missing key gets a fresh vector at its
sorted position. -/
def anexarIndice (etiqueta : String) (indice : Nat) : MapaGrupos → MapaGrupos
  | [] => [(etiqueta, [indice])]
  | (k, v) :: resto =>
    if cadenaMenor etiqueta k then (etiqueta, [indice]) :: (k, v) :: resto
    else if cadenaMenor k etiqueta then (k, v) :: anexarIndice etiqueta indice resto
    else (k, v ++ [indice]) :: resto

/-- The grouping loop of `construirArbolRecursivo`, started from the map
`grupos`. `perfiles.at(indice)` throws for an index out of range: `none`. -/
def agruparDesde (perfiles : List (PerfilEstudiante F)) (var : VariableClasificacion) :
    List Nat → MapaGrupos → Option MapaGrupos
  | [], grupos => some grupos
  | indice :: resto, grupos =>
    match perfiles[indice]? with
    | none => none
    | some perfil =>
      agruparDesde perfiles var resto
        (anexarIndice (valorClasificacion var perfil) indice grupos)

/-- The grouping loop of `construirArbolRecursivo` from the empty map. -/
def agrupar (perfiles : List (PerfilEstudiante F)) (var : VariableClasificacion)
    (indices : List Nat) : Option MapaGrupos :=
  agruparDesde perfiles var indices []

/-- All the results of a list of computations, or `none` if one of them threw. -/
def todos {α : Type} : List (Option α) → Option (List α)
  | [] => some []
  | none :: _ => none
  | some a :: resto =>
    match todos resto with
    | none => none
    | some r => some (a :: r)

/-- The child created in the second loop of `construirArbolRecursivo` for one
entry of the map, before the recursive call populates it. -/
def nuevoHijo (var : VariableClasificacion) (nivelPadre : Nat) (grupo : String × List Nat) :
    NodoArbolClasificacion :=
  .mk grupo.1 (some var) grupo.2 [] (nivelPadre + 1)

/-- The body of `construirArbolRecursivo`, with the number of levels that can
still be applied below the node as the measure of the recursion: for a node
at level `nivel` it is `orden.size() - nivel`. Returns the node with its
children populated. -/
def construirArbolRecursivoDesde (perfiles : List (PerfilEstudiante F))
    (orden : List VariableClasificacion) :
    Nat → NodoArbolClasificacion → Option NodoArbolClasificacion
  | 0, nodo => some nodo
  | pendientes + 1, nodo =>
    match orden[nodo.nivel]? with
    | none => some nodo
    | some var =>
      match agrupar perfiles var nodo.indicesEstudiantes with
      | none => none
      | some grupos =>
        match todos (grupos.map fun grupo =>
            construirArbolRecursivoDesde perfiles orden pendientes
              (nuevoHijo var nodo.nivel grupo)) with
        | none => none
        | some nuevos =>
          some (.mk nodo.etiqueta nodo.variable_ nodo.indicesEstudiantes (nodo.hijos ++ nuevos)
            nodo.nivel)

/-- The function `construirArbolRecursivo`. -/
def construirArbolRecursivo (perfiles : List (PerfilEstudiante F))
    (orden : List VariableClasificacion) (nodo : NodoArbolClasificacion) :
    Option NodoArbolClasificacion :=
  construirArbolRecursivoDesde perfiles orden (orden.length - nodo.nivel) nodo

/-- The function `construirArbolClasificacion`. -/
def construirArbolClasificacion (perfiles : List (PerfilEstudiante F))
    (orden : List VariableClasificacion) : Option NodoArbolClasificacion :=
  construirArbolRecursivo perfiles orden
    (.mk "Poblacion total" none (List.range perfiles.length) [] 0)

end Arbol

/-! ## Tree traversals -/

mutual
/-- The function `recolectarHojas`: the leaves below a node, depth first,
left to right. -/
def recolectarHojas : NodoArbolClasificacion → List NodoArbolClasificacion
  | .mk e v i [] n => [.mk e v i [] n]
  | .mk _ _ _ (h :: hs) _ => recolectarHojasLista (h :: hs)
/-- The loop of `recolectarHojas` over the children of a node. -/
def recolectarHojasLista : List NodoArbolClasificacion → List NodoArbolClasificacion
  | [] => []
  | h :: hs => recolectarHojas h ++ recolectarHojasLista hs
end

mutual
/-- Every node of the tree rooted at a node, the node itself first (preorder). -/
def nodos : NodoArbolClasificacion → List NodoArbolClasificacion
  | .mk e v i hs n => .mk e v i hs n :: nodosLista hs
/-- The nodes of the trees rooted at the nodes of a list. -/
def nodosLista : List NodoArbolClasificacion → List NodoArbolClasificacion
  | [] => []
  | h :: hs => nodos h ++ nodosLista hs
end

mutual
/-- Every path that starts at a node and follows child links, as the list of
the nodes visited: the path to the node itself is the one-element list. -/
def rutas : NodoArbolClasificacion → List (List NodoArbolClasificacion)
  | .mk e v i hs n => [.mk e v i hs n] :: (rutasLista hs).map (fun r => .mk e v i hs n :: r)
/-- The paths that start at one of the nodes of a list. -/
def rutasLista : List NodoArbolClasificacion → List (List NodoArbolClasificacion)
  | [] => []
  | h :: hs => rutas h ++ rutasLista hs
end

mutual
/-- The height of the tree rooted at a node: the number of child links on the
longest downward path. -/
def altura : NodoArbolClasificacion → Nat
  | .mk _ _ _ hs _ => alturaLista hs
/-- One more than the largest height among the nodes of a list, zero for the
empty list. -/
def alturaLista : List NodoArbolClasificacion → Nat
  | [] => 0
  | h :: hs => max (altura h + 1) (alturaLista hs)
end

/-! ## Auxiliary notions for the statements -/

/-- The pair (label, index list) of a node: what the builder takes from one
entry of the group map when it creates the node. -/
def grupoDe (nodo : NodoArbolClasificacion) : String × List Nat :=
  (nodo.etiqueta, nodo.indicesEstudiantes)

/-- The shape of a tree produced by `construirArbolRecursivo` for profiles
`perfiles` and ordering `orden`: a node at a level past the ordering is
terminal; any other node has one child per entry of the group map of its
index list, in map order, each child one level deeper, tagged with the
variable of the level, and itself of that shape. -/
inductive Construido {F : Type} [Doble F] (perfiles : List (PerfilEstudiante F))
    (orden : List VariableClasificacion) : NodoArbolClasificacion → Prop
  | terminal (e : String) (v : Option VariableClasificacion) (i : List Nat) (n : Nat) :
      orden.length ≤ n → Construido perfiles orden (.mk e v i [] n)
  | interno (e : String) (v : Option VariableClasificacion) (i : List Nat) (n : Nat)
      (var : VariableClasificacion) (hs : List NodoArbolClasificacion) :
      orden[n]? = some var →
      agrupar perfiles var i = some (hs.map grupoDe) →
      (∀ h ∈ hs, h.variable_ = some var) →
      (∀ h ∈ hs, h.nivel = n + 1) →
      (∀ h ∈ hs, Construido perfiles orden h) →
      Construido perfiles orden (.mk e v i hs n)

/-- The list `mayor` is `menor` with further grade entries inserted, none of
which carries the `carne` of a student of `estudiantes`. -/
inductive InsertaHuerfanos {F : Type} (estudiantes : List Estudiante) :
    List (RegistroHistorial F) → List (RegistroHistorial F) → Prop
  | nil : InsertaHuerfanos estudiantes [] []
  | igual (r : RegistroHistorial F) (menor mayor : List (RegistroHistorial F)) :
      InsertaHuerfanos estudiantes menor mayor →
      InsertaHuerfanos estudiantes (r :: menor) (r :: mayor)
  | huerfano (r : RegistroHistorial F) (menor mayor : List (RegistroHistorial F)) :
      (∀ e ∈ estudiantes, e.carne ≠ r.carneEstudiante) →
      InsertaHuerfanos estudiantes menor mayor →
      InsertaHuerfanos estudiantes menor (r :: mayor)

/-- The keys of a group map are strictly increasing. -/
def ClavesOrdenadas (g : MapaGrupos) : Prop :=
  g.Pairwise (fun a b => cadenaMenor a.1 b.1 = true)

/-- Every group of the map is non-empty and holds only indices of profiles
whose label for `var` is the key of the group. -/
def GruposFieles {F : Type} [Doble F] (perfiles : List (PerfilEstudiante F))
    (var : VariableClasificacion) (g : MapaGrupos) : Prop :=
  ∀ x ∈ g, x.2 ≠ [] ∧
    ∀ i ∈ x.2, ∃ p, perfiles[i]? = some p ∧ valorClasificacion var p = x.1

/-- The vector that `find` would reach under a key, empty when the key is
absent. -/
def contenidoRegistros {F : Type} (clave : String) (mapa : MapaRegistros F) :
    List (RegistroHistorial F) :=
  (buscarRegistros clave mapa).getD []

/-- The profiles of a list of students when the history available under each
`carne` is given by `f`: each student takes the history under its `carne`,
which is then no longer available to a later student with the same `carne`. -/
def perfilesSegun {F : Type} [Doble F] :
    List Estudiante → (String → List (RegistroHistorial F)) → List (PerfilEstudiante F)
  | [], _ => []
  | e :: es, f =>
    armarPerfil e (some (f e.carne)) ::
      perfilesSegun es (fun c => if c = e.carne then [] else f c)

/-! ## Worked examples -/

/-- A student with every categorical field filled in. -/
def estudianteEjemplo (carne genero : String) (edad : Int) : Estudiante :=
  { carne := carne, genero := genero, residencia := "Cartago", edad := edad,
    colegioProcedencia := "Liceo", tipoColegio := "Publico", trabaja := false,
    estadoCivil := "Soltero" }

/-- Three profiles without history: two women aged 20 and 17 and a man aged 40. -/
def perfilesEjemplo : List (PerfilEstudiante ℚ) :=
  [ { estudiante := estudianteEjemplo "A1" "F" 20, historial := [], promedio := none,
      tasaAprobacion := none },
    { estudiante := estudianteEjemplo "B2" "M" 40, historial := [], promedio := none,
      tasaAprobacion := none },
    { estudiante := estudianteEjemplo "C3" "F" 17, historial := [], promedio := none,
      tasaAprobacion := none } ]

/-- The tree built from `perfilesEjemplo` with the ordering gender, age bracket. -/
def arbolEjemplo : NodoArbolClasificacion :=
  .mk "Poblacion total" none [0, 1, 2]
    [ .mk "F" (some .Genero) [0, 2]
        [ .mk "18-30" (some .RangoEdad) [0] [] 2,
          .mk "Menor a 18" (some .RangoEdad) [2] [] 2 ] 1,
      .mk "M" (some .Genero) [1]
        [ .mk "31-64" (some .RangoEdad) [1] [] 2 ] 1 ] 0

/-- A grade entry of the examples. -/
def registroEjemplo (carne materia : String) (nota : ℚ) : RegistroHistorial ℚ :=
  { carneEstudiante := carne, semestre := 1, materia := materia, nota := nota }

/-- Two students: `A1` and `B2`. -/
def estudiantesEjemplo : List Estudiante :=
  [estudianteEjemplo "A1" "F" 20, estudianteEjemplo "B2" "M" 40]

/-- Grades 60 and 80 for `A1`, none for `B2`. -/
def registrosEjemplo : List (RegistroHistorial ℚ) :=
  [registroEjemplo "A1" "Calculo" 60, registroEjemplo "A1" "Fisica" 80]

/-- The grades of `registrosEjemplo` with an entry for the unknown `Z9`
inserted between them. -/
def registrosConHuerfano : List (RegistroHistorial ℚ) :=
  [registroEjemplo "A1" "Calculo" 60, registroEjemplo "Z9" "Quimica" 95,
    registroEjemplo "A1" "Fisica" 80]

/-- The profile that `cargarPerfiles` computes for `A1` in the examples. -/
def perfilA1 : PerfilEstudiante ℚ :=
  { estudiante := estudianteEjemplo "A1" "F" 20, historial := registrosEjemplo,
    promedio := some 70, tasaAprobacion := some (1 / 2) }

/-- The profile that `cargarPerfiles` computes for `B2` in the examples. -/
def perfilB2 : PerfilEstudiante ℚ :=
  { estudiante := estudianteEjemplo "B2" "M" 40, historial := [], promedio := none,
    tasaAprobacion := none }

/-! ## Laws of the comparisons of `double` -/

/-- Properties of the comparisons `<`, `<=`, `>=` of `double` that hold in
IEEE-754 arithmetic, NaN and the infinities included, together with the
exactness of the conversion of the integers up to 100 and the fact that the
conversion of a size is `0.0` only for the size zero. -/
class DobleOrdenado (F : Type) [Doble F] : Prop where
  menor_irrefl : ∀ a : F, Doble.menor a a = false
  menor_trans : ∀ a b c : F, Doble.menor a b = true → Doble.menor b c = true →
    Doble.menor a c = true
  menor_menorIgual : ∀ a b c : F, Doble.menor a b = true → Doble.menorIgual b c = true →
    Doble.menor a c = true
  mayorIgual_no_menor : ∀ a b : F, Doble.mayorIgual a b = true → Doble.menor a b = false
  menor_no_menorIgual : ∀ a b : F, Doble.menor a b = true → Doble.menorIgual b a = false
  menor_deNat : ∀ m n : Nat, m ≤ 100 → n ≤ 100 →
    Doble.menor (Doble.deNat m : F) (Doble.deNat n) = decide (m < n)
  menorIgual_deNat : ∀ m n : Nat, m ≤ 100 → n ≤ 100 →
    Doble.menorIgual (Doble.deNat m : F) (Doble.deNat n) = decide (m ≤ n)
  igual_deNat_cero : ∀ n : Nat, Doble.igual (Doble.deNat n : F) (Doble.deNat 0) = decide (n = 0)

instance : DobleOrdenado ℚ where
  menor_irrefl a := decide_eq_false (lt_irrefl a)
  menor_trans a b c h1 h2 :=
    decide_eq_true (lt_trans (of_decide_eq_true h1) (of_decide_eq_true h2))
  menor_menorIgual a b c h1 h2 :=
    decide_eq_true (lt_of_lt_of_le (of_decide_eq_true h1) (of_decide_eq_true h2))
  mayorIgual_no_menor a b h := decide_eq_false (not_lt.2 (of_decide_eq_true h))
  menor_no_menorIgual a b h := decide_eq_false (not_le.2 (of_decide_eq_true h))
  menor_deNat m n _ _ := by
    show decide ((m : ℚ) < (n : ℚ)) = decide (m < n)
    simp
  menorIgual_deNat m n _ _ := by
    show decide ((m : ℚ) ≤ (n : ℚ)) = decide (m ≤ n)
    simp
  igual_deNat_cero n := by
    show decide ((n : ℚ) = ((0 : ℕ) : ℚ)) = decide (n = 0)
    simp

/-- The field of the student that a direct categorical variable reads, if
the variable is one of the five direct ones. -/
def campoDirecto (var : VariableClasificacion) (e : Estudiante) : Option String :=
  match var with
  | .Genero => some e.genero
  | .Residencia => some e.residencia
  | .TipoColegio => some e.tipoColegio
  | .EstadoCivil => some e.estadoCivil
  | .ColegioProcedencia => some e.colegioProcedencia
  | _ => none

/-! ## Text helpers -/

/-- The function `variableComoCadena` (the `default` branch of the source's
switch is unreachable for the nine enumerators). -/
def variableComoCadena (var : VariableClasificacion) : String :=
  match var with
  | .Genero => "Genero"
  | .Residencia => "Lugar de residencia"
  | .TipoColegio => "Tipo de colegio"
  | .RangoEdad => "Rango de edad"
  | .RangoPromedio => "Promedio de notas"
  | .RangoAprobacion => "Porcentaje de aprobacion"
  | .Trabaja => "Trabaja"
  | .EstadoCivil => "Estado civil"
  | .ColegioProcedencia => "Colegio de procedencia"

/-- The characters of `" \t\n\r\f\v"`, which are also the ones `isspace`
accepts: space and the codes 9 to 13. -/
def esBlanco (c : Char) : Bool :=
  c.toNat = 32 || (9 ≤ c.toNat && c.toNat ≤ 13)

/-- The function `recortar`: the text between the first and the last
character that is not blank, empty when every character is blank. -/
def recortar (texto : String) : String :=
  String.mk ((texto.toList.dropWhile esBlanco).reverse.dropWhile esBlanco).reverse

/-- A decimal digit. -/
def esDigito (c : Char) : Bool :=
  48 ≤ c.toNat && c.toNat ≤ 57

/-- The value of a sequence of decimal digits, most significant first. -/
def valorDigitos (digitos : List Char) : Int :=
  digitos.foldl (fun acc c => 10 * acc + ((c.toNat : Int) - 48)) 0

/-- The function `std::stoi` in base 10: leading blanks are skipped, an
optional sign is read, then the longest run of digits; what follows the
digits is ignored. Without a digit it throws `invalid_argument`, and with a
value outside the range of `int` (32 bits) it throws `out_of_range`: `none`. -/
def stoi (texto : String) : Option Int :=
  let sinBlancos := texto.toList.dropWhile esBlanco
  let signo : Bool × List Char :=
    match sinBlancos with
    | [] => (false, [])
    | c :: resto =>
      if c.toNat = 45 then (true, resto)
      else if c.toNat = 43 then (false, resto)
      else (false, c :: resto)
  let digitos := signo.2.takeWhile esDigito
  if digitos.isEmpty then none
  else
    let valor := if signo.1 then -valorDigitos digitos else valorDigitos digitos
    if valor < -2147483648 ∨ 2147483647 < valor then none else some valor

/-! ## Pointers to nodes -/

/-- A non-null `NodoArbolClasificacion *` into a tree: the node pointed to
and the chain reached by following `padre` from it, nearest ancestor first.
A nullable pointer is an `Option Puntero`, `nullptr` being `none`. -/
structure Puntero where
  nodo : NodoArbolClasificacion
  ancestros : List NodoArbolClasificacion

/-- The field `padre` of the node a pointer points to. -/
def Puntero.padre (p : Puntero) : Option Puntero :=
  match p.ancestros with
  | [] => none
  | a :: resto => some ⟨a, resto⟩

/-- The pointer `nodo->hijos[i].get()`: the child's `padre` is the node. -/
def Puntero.hijo (p : Puntero) (i : Nat) : Option Puntero :=
  match p.nodo.hijos[i]? with
  | none => none
  | some h => some ⟨h, p.nodo :: p.ancestros⟩

/-- The loop of `rutaHastaRaiz`: push the current node, then continue with
its `padre` until that is null. -/
def subirHastaRaiz : NodoArbolClasificacion → List NodoArbolClasificacion → List Puntero
  | n, [] => [⟨n, []⟩]
  | n, a :: resto => ⟨n, a :: resto⟩ :: subirHastaRaiz a resto

/-- The function `rutaHastaRaiz`, for a non-null pointer: the nodes met going
up, reversed. -/
def rutaHastaRaiz (nodo : Puntero) : List Puntero :=
  (subirHastaRaiz nodo.nodo nodo.ancestros).reverse

mutual
/-- The function `recolectarHojas` with the pointers it stores: the leaves
below the node reached through `ancestros`, depth first, left to right. -/
def recolectarHojasPtr (ancestros : List NodoArbolClasificacion) :
    NodoArbolClasificacion → List Puntero
  | .mk e v i [] n => [⟨.mk e v i [] n, ancestros⟩]
  | .mk e v i (h :: hs) n =>
    recolectarHojasPtrLista (.mk e v i (h :: hs) n :: ancestros) (h :: hs)
/-- The loop of `recolectarHojas` over the children of a node, with pointers. -/
def recolectarHojasPtrLista (ancestros : List NodoArbolClasificacion) :
    List NodoArbolClasificacion → List Puntero
  | [] => []
  | h :: hs => recolectarHojasPtr ancestros h ++ recolectarHojasPtrLista ancestros hs
end

/-! ## Console output and queries -/

/-- What the program writes to the console, one value per message or line.
Numbers are kept as values: their formatting with `fixed` and
`setprecision(2)` is not modelled. -/
inductive Salida (F : Type) where
  /-- A fixed message. -/
  | texto (mensaje : String)
  /-- The heading `Nivel k:` of the level listing. -/
  | nivel (k : Nat)
  /-- A line of the level listing: descriptor and number of students. -/
  | nodoNivel (descriptor : String) (cantidad : Nat)
  /-- The children offered at one level of the path query, under the name of
  the variable of the level: label and number of students of each. -/
  | opciones (nombreVariable : String) (hijos : List (String × Nat))
  /-- A line of the selected path: name of the variable and label. -/
  | pasoRuta (nombreVariable : String) (etiqueta : String)
  /-- The line `Porcentaje respecto al total`. -/
  | porcentajeTotal (valor : F)
  /-- The line `Porcentaje condicionado al nivel anterior` with a computed value. -/
  | porcentajeCondicionado (valor : F)
  /-- The line `Porcentaje condicionado al nivel anterior: 100%`. -/
  | condicionadoCien
  /-- A line of the leaf report: path, number of students and percentage. -/
  | lineaHoja (recorrido : String) (total : Nat) (porcentaje : F)
  /-- A profile printed by `imprimirPerfil`. -/
  | perfil (p : PerfilEstudiante F)
  /-- The confirmation of `opcionConstruirArbol`, with the number of levels. -/
  | arbolConstruido (niveles : Nat)
  deriving DecidableEq

/-- The message of `arbolListo` when no tree has been built. -/
def mensajeSinArbol : String :=
  "Aun no se ha construido un arbol. Seleccione la opcion 1 primero."

/-- The message of an invalid selection in the path query. -/
def mensajeSeleccionInvalida : String :=
  "Seleccion invalida. Operacion cancelada."

/-- The message for a tree over no student. -/
def mensajeSinEstudiantes : String :=
  "No hay estudiantes registrados."

section Consultas

variable {F : Type} [Doble F]

/-- The inner loop of `imprimirArbolPorNiveles`: takes `cantidadNivel` nodes
from the front of the queue, writes the line of each and pushes its children
at the back. Returns the lines and the queue. -/
def imprimirNivel : Nat → List NodoArbolClasificacion →
    List (Salida F) × List NodoArbolClasificacion
  | 0, cola => ([], cola)
  | _ + 1, [] => ([], [])
  | cantidad + 1, nodo :: resto =>
    let descriptor :=
      match nodo.variable_ with
      | none => nodo.etiqueta
      | some var => variableComoCadena var ++ " = " ++ nodo.etiqueta
    let siguiente := imprimirNivel cantidad (resto ++ nodo.hijos)
    (Salida.nodoNivel descriptor nodo.indicesEstudiantes.length :: siguiente.1, siguiente.2)

/-- The outer loop of `imprimirArbolPorNiveles`, run at most `vueltas` times:
while the queue is not empty, write the heading of the level and the nodes
of the level. -/
def imprimirNiveles : Nat → List NodoArbolClasificacion → Nat → List (Salida F)
  | 0, _, _ => []
  | vueltas + 1, cola, nivelActual =>
    if cola.isEmpty then []
    else
      let nivel := imprimirNivel cola.length cola
      Salida.nivel nivelActual :: nivel.1 ++ imprimirNiveles vueltas nivel.2 (nivelActual + 1)

/-- The function `imprimirArbolPorNiveles`. The outer loop runs once per
level of the tree, so `altura + 1` times. -/
def imprimirArbolPorNiveles (raiz : NodoArbolClasificacion) : List (Salida F) :=
  imprimirNiveles (altura raiz + 1) [raiz] 0

/-- The loop that writes a path in `opcionReporteHojas`, over the nodes after
the root: `Variable=Etiqueta`, with `" -> "` between consecutive nodes.
`variable.value()` throws on a node without variable: `none`. -/
def textoRecorrido : List Puntero → Option String
  | [] => some ""
  | [p] =>
    match p.nodo.variable_ with
    | none => none
    | some var => some (variableComoCadena var ++ "=" ++ p.nodo.etiqueta)
  | p :: q :: resto =>
    match p.nodo.variable_ with
    | none => none
    | some var =>
      match textoRecorrido (q :: resto) with
      | none => none
      | some cola => some (variableComoCadena var ++ "=" ++ p.nodo.etiqueta ++ " -> " ++ cola)

/-- The body of the loop over the leaves in `opcionReporteHojas`: the line of
one leaf, given the `total` of the root. -/
def lineaDeHoja (total : F) (hoja : Puntero) : Option (Salida F) :=
  match textoRecorrido (rutaHastaRaiz hoja).tail with
  | none => none
  | some recorrido =>
    some (Salida.lineaHoja recorrido hoja.nodo.indicesEstudiantes.length
      (Doble.producto
        (Doble.cociente (Doble.deNat hoja.nodo.indicesEstudiantes.length) total)
        (Doble.deNat 100)))

/-- The method `opcionReporteHojas`, as a function of `arbolActual_`: what it
writes, or `none` if an exception escapes. -/
def opcionReporteHojas (arbolActual_ : Option NodoArbolClasificacion) :
    Option (List (Salida F)) :=
  match arbolActual_ with
  | none => some [Salida.texto mensajeSinArbol]
  | some raiz =>
    let hojas := recolectarHojasPtr [] raiz
    if hojas.isEmpty then some [Salida.texto "El arbol no tiene hojas."]
    else
      let total : F := Doble.deNat raiz.indicesEstudiantes.length
      match todos (hojas.map (lineaDeHoja total)) with
      | none => none
      | some lineas => some (Salida.texto "Reporte por hojas:" :: lineas)

/-- Where the selection loop of `opcionPorcentajesCondicionados` ends: what
it wrote, and the final `nodo` and `padre`, or `none` after an invalid
selection. -/
structure Navegacion (F : Type) where
  salida : List (Salida F)
  destino : Option (Puntero × Option Puntero)

/-- The selection loop of `opcionPorcentajesCondicionados`, over the
variables of the levels still to visit. `entradas` are the lines still to be
read from the console, an exhausted input reading as an empty line. The
number of children is assumed to fit in `int`. -/
def navegar : List VariableClasificacion → Puntero → Option Puntero → List String →
    Navegacion F
  | [], nodo, padre, _ => ⟨[], some (nodo, padre)⟩
  | var :: niveles, nodo, padre, entradas =>
    if nodo.nodo.hijos.isEmpty then ⟨[], some (nodo, padre)⟩
    else
      let menu : Salida F :=
        Salida.opciones (variableComoCadena var)
          (nodo.nodo.hijos.map fun h => (h.etiqueta, h.indicesEstudiantes.length))
      let entrada := recortar (entradas.headD "")
      if entrada.isEmpty then ⟨[menu], some (nodo, padre)⟩
      else
        match stoi entrada with
        | none => ⟨[menu, Salida.texto mensajeSeleccionInvalida], none⟩
        | some opcion =>
          if opcion < 1 ∨ (nodo.nodo.hijos.length : Int) < opcion then
            ⟨[menu, Salida.texto mensajeSeleccionInvalida], none⟩
          else
            match nodo.hijo (opcion - 1).toNat with
            -- not reached: the index has just been checked to be in range
            | none => ⟨[menu, Salida.texto mensajeSeleccionInvalida], none⟩
            | some hijo =>
              let resto := navegar niveles hijo (some nodo) entradas.tail
              ⟨menu :: resto.salida, resto.destino⟩

/-- The lines of the selected path in `opcionPorcentajesCondicionados`, over
the nodes after the root. `variable.value()` throws on a node without
variable: `none`. -/
def pasosRuta : List Puntero → Option (List (Salida F))
  | [] => some []
  | p :: resto =>
    match p.nodo.variable_ with
    | none => none
    | some var =>
      match pasosRuta resto with
      | none => none
      | some cola => some (Salida.pasoRuta (variableComoCadena var) p.nodo.etiqueta :: cola)

/-- The report of `opcionPorcentajesCondicionados` after the selection loop,
for the tree `raiz` and the final `nodo` and `padre`. -/
def reporteConsulta (raiz : NodoArbolClasificacion) (nodo : Puntero) (padre : Option Puntero) :
    Option (List (Salida F)) :=
  let total : F := Doble.deNat raiz.indicesEstudiantes.length
  if Doble.igual total (Doble.deNat 0) then some [Salida.texto mensajeSinEstudiantes]
  else
    let cantidadNodo : F := Doble.deNat nodo.nodo.indicesEstudiantes.length
    let porcentajeTotal := Doble.producto (Doble.cociente cantidadNodo total) (Doble.deNat 100)
    match pasosRuta (rutaHastaRaiz nodo).tail with
    | none => none
    | some pasos =>
      let condicionado : Salida F :=
        match padre with
        | some p =>
          Salida.porcentajeCondicionado
            (Doble.producto
              (Doble.cociente cantidadNodo (Doble.deNat p.nodo.indicesEstudiantes.length))
              (Doble.deNat 100))
        | none => Salida.condicionadoCien
      some (Salida.texto "Ruta seleccionada:" :: pasos ++
        [Salida.porcentajeTotal porcentajeTotal, condicionado])

/-- The method `opcionPorcentajesCondicionados`, as a function of
`arbolActual_`, `ordenActivo_` and the lines typed: what it writes, or `none`
if an exception escapes. -/
def opcionPorcentajesCondicionados (arbolActual_ : Option NodoArbolClasificacion)
    (ordenActivo_ : List VariableClasificacion) (entradas : List String) :
    Option (List (Salida F)) :=
  match arbolActual_ with
  | none => some [Salida.texto mensajeSinArbol]
  | some raiz =>
    let navegacion : Navegacion F := navegar ordenActivo_ ⟨raiz, []⟩ none entradas
    match navegacion.destino with
    | none => some navegacion.salida
    | some (nodo, padre) =>
      match reporteConsulta raiz nodo padre with
      | none => none
      | some reporte => some (navegacion.salida ++ reporte)

/-- The method `opcionImprimirArbol`, as a function of `arbolActual_`. -/
def opcionImprimirArbol (arbolActual_ : Option NodoArbolClasificacion) : List (Salida F) :=
  match arbolActual_ with
  | none => [Salida.texto mensajeSinArbol]
  | some raiz => imprimirArbolPorNiveles raiz

end Consultas

/-! ## Auxiliary notions for the statements about queries -/

/-- The pointer designates a node of the tree `raiz`: the node and its chain
of ancestors, read from the root, are a path of the tree. -/
def PunteroValido (raiz : NodoArbolClasificacion) (p : Puntero) : Prop :=
  (p.nodo :: p.ancestros).reverse ∈ rutas raiz

/-- The pointer reached from `p` by following, one after another, the
children with the 1-based numbers `selecciones`; `none` if a number is not
the number of a child. -/
def descender : Puntero → List Int → Option Puntero
  | p, [] => some p
  | p, k :: resto =>
    if k < 1 then none
    else
      match p.hijo (k - 1).toNat with
      | none => none
      | some h => descender h resto

/-- The text is a decimal representation of an integer between 1 and `k`:
it is a non-empty sequence of digits whose value is in that range. -/
def RepresentaEntre (texto : String) (k : Nat) : Prop :=
  texto.toList ≠ [] ∧ texto.toList.all esDigito = true ∧
    1 ≤ valorDigitos texto.toList ∧ valorDigitos texto.toList ≤ k

/-- The line typed at a level of the path query selects the child number
`k`: trimmed, it is not empty and `std::stoi` reads `k` from it. -/
def Selecciona (linea : String) (k : Int) : Prop :=
  recortar linea ≠ "" ∧ stoi (recortar linea) = some k

/-- The output is a menu of the path query (the children offered at a level). -/
def EsMenu {F : Type} (s : Salida F) : Prop :=
  ∃ nombre hijos, s = Salida.opciones nombre hijos

/-- The pointer to the node "F" of `arbolEjemplo`: first child of the root. -/
def punteroF : Puntero :=
  { nodo :=
      .mk "F" (some .Genero) [0, 2]
        [ .mk "18-30" (some .RangoEdad) [0] [] 2,
          .mk "Menor a 18" (some .RangoEdad) [2] [] 2 ] 1
    ancestros := [arbolEjemplo] }

/-- The queue of `imprimirArbolPorNiveles` after `k` rounds of its outer loop
when it started as `cola`: every round replaces the queue by the children of
its nodes, node after node. -/
def capaDesde (cola : List NodoArbolClasificacion) : Nat → List NodoArbolClasificacion
  | 0 => cola
  | k + 1 => (capaDesde cola k).flatMap fun nodo => nodo.hijos

/-- The nodes at depth `k` of a tree, left to right: the root at depth 0, and
at depth `k + 1` the children of the nodes at depth `k`, in the order of
their parents and then in child order. -/
def capa (raiz : NodoArbolClasificacion) (k : Nat) : List NodoArbolClasificacion :=
  capaDesde [raiz] k

/-- The descriptor of a node in the level listing: the label alone for a node
without variable, and otherwise the name of the variable, `" = "` and the
label. -/
def descriptorDe (nodo : NodoArbolClasificacion) : String :=
  match nodo.variable_ with
  | none => nodo.etiqueta
  | some var => variableComoCadena var ++ " = " ++ nodo.etiqueta

/-- The tree of the example population grouped by age bracket and then by
gender. -/
def arbolEjemploInverso : NodoArbolClasificacion :=
  .mk "Poblacion total" none [0, 1, 2]
    [ .mk "18-30" (some .RangoEdad) [0]
        [ .mk "F" (some .Genero) [0] [] 2 ] 1,
      .mk "31-64" (some .RangoEdad) [1]
        [ .mk "M" (some .Genero) [1] [] 2 ] 1,
      .mk "Menor a 18" (some .RangoEdad) [2]
        [ .mk "F" (some .Genero) [2] [] 2 ] 1 ] 0

/-! ## Binary streams -/

/-- The contents of a binary stream from the current position on, as the
sequence of the `char`s that `read` takes from it and `write` appends to it.
A `char` is a byte. -/
abbrev Flujo := List Char

/-- The outcome of a read function on a stream: an exception is thrown, or
`false` is returned, or `true` is returned with the value stored in the
output parameter and the stream left after the bytes read. -/
inductive Lectura (α : Type) where
  | excepcion (mensaje : String)
  | falso
  | leido (valor : α) (resto : Flujo)

/-- The pattern `if (!leer(in, campo)) return false;` followed by the rest of
the function: an exception or `false` ends the function, a value read is
passed on together with the rest of the stream. -/
def Lectura.luego {α β : Type} (r : Lectura α) (f : α → Flujo → Lectura β) : Lectura β :=
  match r with
  | .excepcion mensaje => .excepcion mensaje
  | .falso => .falso
  | .leido valor resto => f valor resto

/-- The statement `out.write(reinterpret_cast<const char *>(&x), 4)` for a
32-bit unsigned `x`: its four bytes, the least significant first (the layout
of the machine, the same for writing and reading). -/
def escribirUint32 (x : Nat) : Flujo :=
  [Char.ofNat (x % 256), Char.ofNat (x / 256 % 256), Char.ofNat (x / 65536 % 256),
    Char.ofNat (x / 16777216 % 256)]

/-- The statement `in.read(reinterpret_cast<char *>(&x), 4)` for a 32-bit
unsigned `x`: it fails when fewer than four bytes are left. -/
def leerUint32 : Flujo → Option (Nat × Flujo)
  | b0 :: b1 :: b2 :: b3 :: resto =>
    some (b0.toNat % 256 + 256 * (b1.toNat % 256) + 65536 * (b2.toNat % 256) +
      16777216 * (b3.toNat % 256), resto)
  | _ => none

/-- The function `escribirCadena`: the length, cut to 32 bits by the
`static_cast`, and then that many characters of the string. -/
def escribirCadena (valor : String) : Flujo :=
  let longitud := valor.length % 4294967296
  escribirUint32 longitud ++ valor.toList.take longitud

/-- The message of the exception of `leerCadena`. -/
def mensajeLongitudInvalida : String :=
  "Longitud de cadena invalida encontrada en el archivo binario."

/-- The function `leerCadena`. -/
def leerCadena (entrada : Flujo) : Lectura String :=
  match leerUint32 entrada with
  | none => .falso
  | some (longitud, resto) =>
    if 10000 < longitud then .excepcion mensajeLongitudInvalida
    else if longitud = 0 then .leido "" resto
    else if resto.length < longitud then .falso
    else .leido (String.mk (resto.take longitud)) (resto.drop longitud)

/-- The function `escribirBooleano`. -/
def escribirBooleano (valor : Bool) : Flujo :=
  [Char.ofNat (if valor then 1 else 0)]

/-- The function `leerBooleano`. -/
def leerBooleano : Flujo → Lectura Bool
  | flag :: resto => .leido (flag.toNat % 256 != 0) resto
  | [] => .falso

/-- The statement `out.write(reinterpret_cast<const char *>(&x), sizeof(x))`
for an `int` `x`, of 32 bits in two's complement. -/
def escribirInt32 (x : Int) : Flujo :=
  escribirUint32 (x % 4294967296).toNat

/-- The statement `in.read(reinterpret_cast<char *>(&x), sizeof(x))` for an
`int` `x`. -/
def leerInt32 (entrada : Flujo) : Lectura Int :=
  match leerUint32 entrada with
  | none => .falso
  | some (u, resto) =>
    .leido (if u < 2147483648 then (u : Int) else (u : Int) - 4294967296) resto

/-- The function `escribirEstudiante`. -/
def escribirEstudiante (estudiante : Estudiante) : Flujo :=
  escribirCadena estudiante.carne ++
    (escribirCadena estudiante.genero ++
      (escribirCadena estudiante.residencia ++
        (escribirInt32 estudiante.edad ++
          (escribirCadena estudiante.colegioProcedencia ++
            (escribirCadena estudiante.tipoColegio ++
              (escribirBooleano estudiante.trabaja ++
                escribirCadena estudiante.estadoCivil))))))

/-- The function `leerEstudiante`. -/
def leerEstudiante (entrada : Flujo) : Lectura Estudiante :=
  (leerCadena entrada).luego fun carne r1 =>
  (leerCadena r1).luego fun genero r2 =>
  (leerCadena r2).luego fun residencia r3 =>
  (leerInt32 r3).luego fun edad r4 =>
  (leerCadena r4).luego fun colegioProcedencia r5 =>
  (leerCadena r5).luego fun tipoColegio r6 =>
  (leerBooleano r6).luego fun trabaja r7 =>
  (leerCadena r7).luego fun estadoCivil r8 =>
  .leido
    { carne := carne, genero := genero, residencia := residencia, edad := edad,
      colegioProcedencia := colegioProcedencia, tipoColegio := tipoColegio,
      trabaja := trabaja, estadoCivil := estadoCivil } r8

/-- What `leerCadena` stores when it reads what `escribirCadena` wrote for a
string: the characters of the string that were written. -/
def cadenaLeida (valor : String) : String :=
  String.mk (valor.toList.take (valor.length % 4294967296))

/-- A string of `n` characters `x`. -/
def cadenaLarga (n : Nat) : String :=
  String.mk (List.replicate n 'x')

/-! ## A model of the arithmetic of `double` -/

/-- A value of an IEEE 754 binary64 `double`: a finite value, given by the
rational number it denotes, an infinity or a NaN. The sign of a zero and the
payload of a NaN are not kept. -/
inductive Binario64 where
  | finito (valor : ℚ)
  | infinito (positivo : Bool)
  | nan
  deriving DecidableEq

/-- The integer nearest to a rational number, the even one of the two when it
lies half way between two integers. -/
def enteroCercano (r : ℚ) : Int :=
  if r - ⌊r⌋ < 1 / 2 then ⌊r⌋
  else if 1 / 2 < r - ⌊r⌋ then ⌊r⌋ + 1
  else if ⌊r⌋ % 2 = 0 then ⌊r⌋
  else ⌊r⌋ + 1

/-- The distance between consecutive doubles around a non-zero rational `x`:
`2 ^ (e - 52)` for `2 ^ e ≤ |x| < 2 ^ (e + 1)`, with `e` not below -1022 (the
subnormal doubles are spaced like the smallest normal ones). -/
def espaciado (x : ℚ) : ℚ :=
  (2 : ℚ) ^ (max (Int.log 2 |x|) (-1022) - 52)

/-- The double that an arithmetic operation returns when its exact result is
`x`: the nearest double, the one with an even significand in a tie, and an
infinity when that value is `2 ^ 1024` or more in magnitude. -/
def redondear (x : ℚ) : Binario64 :=
  if x = 0 then .finito 0
  else if (2 : ℚ) ^ (1024 : ℕ) ≤ |(enteroCercano (x / espaciado x) : ℚ) * espaciado x| then
    .infinito (decide (0 < x))
  else .finito ((enteroCercano (x / espaciado x) : ℚ) * espaciado x)

/-- The sum of two doubles. -/
def Binario64.suma : Binario64 → Binario64 → Binario64
  | .finito a, .finito b => redondear (a + b)
  | .finito _, .infinito p => .infinito p
  | .infinito p, .finito _ => .infinito p
  | .infinito p, .infinito q => if p = q then .infinito p else .nan
  | _, _ => .nan

/-- The product of two doubles. -/
def Binario64.producto : Binario64 → Binario64 → Binario64
  | .finito a, .finito b => redondear (a * b)
  | .finito a, .infinito p =>
    if a = 0 then .nan else .infinito (decide (0 < a) == p)
  | .infinito p, .finito b =>
    if b = 0 then .nan else .infinito (p == decide (0 < b))
  | .infinito p, .infinito q => .infinito (p == q)
  | _, _ => .nan

/-- The quotient of two doubles. A zero divisor is taken as positive. -/
def Binario64.cociente : Binario64 → Binario64 → Binario64
  | .finito a, .finito b =>
    if b = 0 then (if a = 0 then .nan else .infinito (decide (0 < a)))
    else redondear (a / b)
  | .finito _, .infinito _ => .finito 0
  | .infinito p, .finito b => .infinito (p == decide (0 ≤ b))
  | _, _ => .nan

/-- The comparison `<` of two doubles. -/
def Binario64.menor : Binario64 → Binario64 → Bool
  | .finito a, .finito b => decide (a < b)
  | .finito _, .infinito p => p
  | .infinito p, .finito _ => !p
  | .infinito p, .infinito q => !p && q
  | _, _ => false

/-- The comparison `<=` of two doubles. -/
def Binario64.menorIgual : Binario64 → Binario64 → Bool
  | .finito a, .finito b => decide (a ≤ b)
  | .finito _, .infinito p => p
  | .infinito p, .finito _ => !p
  | .infinito p, .infinito q => !p || q
  | _, _ => false

/-- The comparison `==` of two doubles. -/
def Binario64.igual : Binario64 → Binario64 → Bool
  | .finito a, .finito b => decide (a = b)
  | .infinito p, .infinito q => p == q
  | _, _ => false

/-- The rational number that a finite double denotes; 0 for the others. -/
def Binario64.valor : Binario64 → ℚ
  | .finito q => q
  | _ => 0

instance : Doble Binario64 where
  deNat n := redondear n
  suma := Binario64.suma
  producto := Binario64.producto
  cociente := Binario64.cociente
  menor := Binario64.menor
  menorIgual := Binario64.menorIgual
  mayorIgual a b := Binario64.menorIgual b a
  igual := Binario64.igual

/-- A grade entry of the student `A1` with a grade given as a double. -/
def registroDoble (nota : Binario64) : RegistroHistorial Binario64 :=
  { carneEstudiante := "A1", semestre := 1, materia := "Calculo", nota := nota }

/-- The profile of the student `A1` with the grades 60 and 80 as doubles. -/
def perfilDoble : PerfilEstudiante Binario64 :=
  { estudiante := estudianteEjemplo "A1" "F" 20
    historial := [registroDoble (.finito 60), registroDoble (.finito 80)]
    promedio := some (.finito 70)
    tasaAprobacion := some (.finito (1 / 2)) }

/-! ## Record store -/

/-- The class `RepositorioEstudiantes`: its file, given by the records that
have been written to it, in order. The bytes of the file are those that
`escribirEstudiante` wrote for each of them; only the program changes them. -/
abbrev RepositorioEstudiantes := List Estudiante

/-- The class `RepositorioHistorial`: its file, given by the records that
have been written to it, in order. -/
abbrev RepositorioHistorial (F : Type) := List (RegistroHistorial F)

/-- The bytes of the student file. -/
def RepositorioEstudiantes.archivo (repositorio : RepositorioEstudiantes) : Flujo :=
  repositorio.flatMap escribirEstudiante

/-- The loop `while (leerEstudiante(in, estudiante))` of `cargarTodos`, run
at most `vueltas` times: the records read, or the message of the exception
that `leerEstudiante` lets through. -/
def leerEstudiantes : Nat → Flujo → Except String (List Estudiante)
  | 0, _ => .ok []
  | vueltas + 1, entrada =>
    match leerEstudiante entrada with
    | .excepcion mensaje => .error mensaje
    | .falso => .ok []
    | .leido estudiante resto =>
      match leerEstudiantes vueltas resto with
      | .error mensaje => .error mensaje
      | .ok estudiantes => .ok (estudiante :: estudiantes)

/-- The method `RepositorioEstudiantes::cargarTodos`; `lectura` tells whether
the file can be opened for reading, and no record is returned when it cannot.
Every turn of the loop takes bytes from the stream, so the loop ends within
as many turns as the file has bytes, and one more. -/
def RepositorioEstudiantes.cargarTodos (repositorio : RepositorioEstudiantes)
    (lectura : Bool) : Except String (List Estudiante) :=
  if lectura then
    leerEstudiantes ((RepositorioEstudiantes.archivo repositorio).length + 1)
      (RepositorioEstudiantes.archivo repositorio)
  else .ok []

/-- The loop of `existe`, run at most `vueltas` times. -/
def buscarCarne (carne : String) : Nat → Flujo → Except String Bool
  | 0, _ => .ok false
  | vueltas + 1, entrada =>
    match leerEstudiante entrada with
    | .excepcion mensaje => .error mensaje
    | .falso => .ok false
    | .leido estudiante resto =>
      if estudiante.carne = carne then .ok true else buscarCarne carne vueltas resto

/-- The method `RepositorioEstudiantes::existe`: it reads the file again,
record by record; `lectura` tells whether the file can be opened for reading,
and the answer is `false` when it cannot. -/
def RepositorioEstudiantes.existe (repositorio : RepositorioEstudiantes) (carne : String)
    (lectura : Bool) : Except String Bool :=
  if lectura then
    buscarCarne carne ((RepositorioEstudiantes.archivo repositorio).length + 1)
      (RepositorioEstudiantes.archivo repositorio)
  else .ok false

/-- The method `RepositorioEstudiantes::agregar`: the message of the
exception thrown, if any, and the file after the call. `lectura` tells
whether the file can be opened for reading by `existe`, `escritura` whether it
can be opened for appending. -/
def RepositorioEstudiantes.agregar (repositorio : RepositorioEstudiantes)
    (estudiante : Estudiante) (lectura escritura : Bool) :
    Option String × RepositorioEstudiantes :=
  match RepositorioEstudiantes.existe repositorio estudiante.carne lectura with
  | .error mensaje => (some mensaje, repositorio)
  | .ok true => (some "El carne ingresado ya esta registrado.", repositorio)
  | .ok false =>
    if escritura then (none, repositorio ++ [estudiante])
    else (some "No se pudo abrir el archivo de estudiantes para escritura.", repositorio)

/-- What `leerCadena` does with the bytes that `escribirCadena` wrote for a
string: it throws when the length written is over 10,000 and returns the
characters written otherwise. -/
def releerCadena (valor : String) : Except String String :=
  if 10000 < valor.length % 4294967296 then .error mensajeLongitudInvalida
  else .ok (cadenaLeida valor)

/-- What `leerRegistroHistorial` does with the bytes that
`escribirRegistroHistorial` wrote for a record: the two strings go through
`escribirCadena` and `leerCadena`; the four bytes of `semestre` and the eight
bytes of `nota`, whose layout is not modelled, are read back as written. -/
def releerRegistro {F : Type} (registro : RegistroHistorial F) :
    Except String (RegistroHistorial F) :=
  match releerCadena registro.carneEstudiante with
  | .error mensaje => .error mensaje
  | .ok carneEstudiante =>
    match releerCadena registro.materia with
    | .error mensaje => .error mensaje
    | .ok materia =>
      .ok { carneEstudiante := carneEstudiante, semestre := registro.semestre,
            materia := materia, nota := registro.nota }

/-- The loop of `RepositorioHistorial::cargarTodos` over the records of the
file, read one after another. -/
def leerRegistros {F : Type} :
    List (RegistroHistorial F) → Except String (List (RegistroHistorial F))
  | [] => .ok []
  | registro :: resto =>
    match releerRegistro registro with
    | .error mensaje => .error mensaje
    | .ok leido =>
      match leerRegistros resto with
      | .error mensaje => .error mensaje
      | .ok registros => .ok (leido :: registros)

/-- The method `RepositorioHistorial::cargarTodos`; `lectura` tells whether
the file can be opened for reading. -/
def RepositorioHistorial.cargarTodos {F : Type} (repositorio : RepositorioHistorial F)
    (lectura : Bool) : Except String (List (RegistroHistorial F)) :=
  if lectura then leerRegistros repositorio else .ok []

/-- The method `RepositorioHistorial::agregar`: the message of the exception
thrown, if any, and the file after the call. `escritura` tells whether the
file can be opened for appending. -/
def RepositorioHistorial.agregar {F : Type} (repositorio : RepositorioHistorial F)
    (registro : RegistroHistorial F) (escritura : Bool) :
    Option String × RepositorioHistorial F :=
  if escritura then (none, repositorio ++ [registro])
  else (some "No se pudo abrir el archivo de historial para escritura.", repositorio)

/-- The function `cargarPerfiles` on the two repositories: both files are
read, the students first, and the profiles are computed from what was read. -/
def cargarPerfilesDeRepositorios {F : Type} [Doble F]
    (repositorioEstudiantes : RepositorioEstudiantes)
    (repositorioHistorial : RepositorioHistorial F)
    (lecturaEstudiantes lecturaHistorial : Bool) :
    Except String (List (PerfilEstudiante F)) :=
  match RepositorioEstudiantes.cargarTodos repositorioEstudiantes lecturaEstudiantes with
  | .error mensaje => .error mensaje
  | .ok estudiantes =>
    match RepositorioHistorial.cargarTodos repositorioHistorial lecturaHistorial with
    | .error mensaje => .error mensaje
    | .ok registros => .ok (cargarPerfiles estudiantes registros)

/-! ## The application -/

/-- The state of the class `Aplicacion`. -/
structure Aplicacion (F : Type) where
  repositorioEstudiantes_ : RepositorioEstudiantes
  repositorioHistorial_ : RepositorioHistorial F
  perfiles_ : List (PerfilEstudiante F)
  ordenActivo_ : List VariableClasificacion
  arbolActual_ : Option NodoArbolClasificacion

/-- The effect of carrying out menu options: the state after them, what was
written (the menu and the prompts left out), and whether an exception escaped
(which ends the program). -/
structure Efecto (F : Type) where
  estado : Aplicacion F
  salida : List (Salida F)
  excepcion : Bool

/-- Which openings of the files succeed while option 6 or 7 runs, one value
for each test of `is_open()` on the way. -/
structure Aperturas where
  /-- The student file, read by the call of `existe` at the start of the option. -/
  consulta : Bool
  /-- The student file, read by the call of `existe` in
  `RepositorioEstudiantes::agregar` (option 6 only). -/
  verificacion : Bool
  /-- The file that the option appends to. -/
  escritura : Bool
  /-- The student file, read by `cargarPerfiles` in `actualizarPerfiles`. -/
  recargaEstudiantes : Bool
  /-- The history file, read by `cargarPerfiles` in `actualizarPerfiles`. -/
  recargaHistorial : Bool

/-- What the user asks for at the main menu, with everything typed at the
prompts of the option: the ordering entered for option 1, the lines typed in
the path query, the student and the grade entry assembled from the answers to
options 6 and 7, together with the openings that succeed meanwhile. -/
inductive Orden (F : Type) where
  | construirArbol (orden : List VariableClasificacion)
  | imprimirArbol
  | porcentajesCondicionados (entradas : List String)
  | reporteHojas
  | imprimirPerfiles
  | agregarEstudiante (estudiante : Estudiante) (aperturas : Aperturas)
  | agregarNota (registro : RegistroHistorial F) (aperturas : Aperturas)

/-- The text of the exception of `perfiles.at`, which the library chooses;
the builder is only called with indices below the number of profiles. -/
def mensajeFueraDeRango : String :=
  "vector::at"

section Aplicacion

variable {F : Type} [Doble F]

/-- The constructor of `Aplicacion`, for two files that can be opened and
hold `estudiantes` and `historial` once the demonstration data, if any, has
been written: the state kept, or the message of the exception that
`cargarPerfiles` lets through to `main`. -/
def Aplicacion.inicial (estudiantes : RepositorioEstudiantes)
    (historial : RepositorioHistorial F) : Except String (Aplicacion F) :=
  match cargarPerfilesDeRepositorios estudiantes historial true true with
  | .error mensaje => .error mensaje
  | .ok perfiles =>
    .ok { repositorioEstudiantes_ := estudiantes
          repositorioHistorial_ := historial
          perfiles_ := perfiles
          ordenActivo_ := []
          arbolActual_ := none }

/-- The method `actualizarPerfiles`: the state after it and the message of
the exception it lets through, if any. `perfiles_` is assigned once
`cargarPerfiles` has returned; the tree is then rebuilt when an ordering is
active, whatever the number of profiles. -/
def Aplicacion.actualizarPerfiles (app : Aplicacion F)
    (lecturaEstudiantes lecturaHistorial : Bool) : Aplicacion F × Option String :=
  match cargarPerfilesDeRepositorios app.repositorioEstudiantes_ app.repositorioHistorial_
      lecturaEstudiantes lecturaHistorial with
  | .error mensaje => (app, some mensaje)
  | .ok perfiles =>
    let recargada : Aplicacion F := { app with perfiles_ := perfiles }
    if recargada.ordenActivo_.isEmpty then (recargada, none)
    else
      match construirArbolClasificacion recargada.perfiles_ recargada.ordenActivo_ with
      | none => (recargada, some mensajeFueraDeRango)
      | some arbol => ({ recargada with arbolActual_ := some arbol }, none)

/-- The method `opcionConstruirArbol`, for the ordering that
`solicitarOrdenClasificacion` returns. -/
def Aplicacion.opcionConstruirArbol (app : Aplicacion F) (orden : List VariableClasificacion) :
    Efecto F :=
  if app.perfiles_.isEmpty then
    ⟨app, [Salida.texto
      "No hay estudiantes registrados. Registre estudiantes antes de construir el arbol."],
      false⟩
  else if orden.isEmpty then
    ⟨app, [Salida.texto "No se seleccionaron variables. Operacion cancelada."], false⟩
  else
    let conOrden : Aplicacion F := { app with ordenActivo_ := orden }
    match construirArbolClasificacion conOrden.perfiles_ conOrden.ordenActivo_ with
    | none => ⟨conOrden, [], true⟩
    | some arbol =>
      ⟨{ conOrden with arbolActual_ := some arbol },
        [Salida.arbolConstruido conOrden.ordenActivo_.length], false⟩

/-- The method `opcionImprimirPerfiles`. -/
def Aplicacion.opcionImprimirPerfiles (app : Aplicacion F) : List (Salida F) :=
  if app.perfiles_.isEmpty then [Salida.texto "No hay estudiantes almacenados."]
  else app.perfiles_.map Salida.perfil

/-- The method `opcionAgregarEstudiante`, for the student assembled from the
answers. The call of `existe` at the start is outside the `try` block, so its
exception escapes; those of `agregar` and `actualizarPerfiles` are caught and
reported. -/
def Aplicacion.opcionAgregarEstudiante (app : Aplicacion F) (estudiante : Estudiante)
    (aperturas : Aperturas) : Efecto F :=
  match RepositorioEstudiantes.existe app.repositorioEstudiantes_ estudiante.carne
      aperturas.consulta with
  | .error _ => ⟨app, [Salida.texto "=== Registro de estudiante ==="], true⟩
  | .ok true =>
    ⟨app, [Salida.texto "=== Registro de estudiante ===",
      Salida.texto "Ya existe un estudiante con ese carne."], false⟩
  | .ok false =>
    match RepositorioEstudiantes.agregar app.repositorioEstudiantes_ estudiante
        aperturas.verificacion aperturas.escritura with
    | (some mensaje, repositorio) =>
      ⟨{ app with repositorioEstudiantes_ := repositorio },
        [Salida.texto "=== Registro de estudiante ===",
          Salida.texto ("No se pudo registrar el estudiante: " ++ mensaje)], false⟩
    | (none, repositorio) =>
      match Aplicacion.actualizarPerfiles { app with repositorioEstudiantes_ := repositorio }
          aperturas.recargaEstudiantes aperturas.recargaHistorial with
      | (estado, some mensaje) =>
        ⟨estado, [Salida.texto "=== Registro de estudiante ===",
          Salida.texto ("No se pudo registrar el estudiante: " ++ mensaje)], false⟩
      | (estado, none) =>
        ⟨estado, [Salida.texto "=== Registro de estudiante ===",
          Salida.texto "Estudiante registrado correctamente."], false⟩

/-- The method `opcionAgregarNota`, for the grade entry assembled from the
answers. The call of `existe` is outside the `try` block. -/
def Aplicacion.opcionAgregarNota (app : Aplicacion F) (registro : RegistroHistorial F)
    (aperturas : Aperturas) : Efecto F :=
  match RepositorioEstudiantes.existe app.repositorioEstudiantes_ registro.carneEstudiante
      aperturas.consulta with
  | .error _ => ⟨app, [Salida.texto "=== Registro de nota ==="], true⟩
  | .ok false =>
    ⟨app, [Salida.texto "=== Registro de nota ===",
      Salida.texto "No existe un estudiante con ese carne."], false⟩
  | .ok true =>
    match RepositorioHistorial.agregar app.repositorioHistorial_ registro
        aperturas.escritura with
    | (some mensaje, repositorio) =>
      ⟨{ app with repositorioHistorial_ := repositorio },
        [Salida.texto "=== Registro de nota ===",
          Salida.texto ("No se pudo registrar la nota: " ++ mensaje)], false⟩
    | (none, repositorio) =>
      match Aplicacion.actualizarPerfiles { app with repositorioHistorial_ := repositorio }
          aperturas.recargaEstudiantes aperturas.recargaHistorial with
      | (estado, some mensaje) =>
        ⟨estado, [Salida.texto "=== Registro de nota ===",
          Salida.texto ("No se pudo registrar la nota: " ++ mensaje)], false⟩
      | (estado, none) =>
        ⟨estado, [Salida.texto "=== Registro de nota ===",
          Salida.texto "Nota registrada correctamente."], false⟩

/-- One turn of the loop of `ejecutar`: the option chosen is carried out. -/
def Aplicacion.paso (app : Aplicacion F) : Orden F → Efecto F
  | .construirArbol orden => app.opcionConstruirArbol orden
  | .imprimirArbol => ⟨app, opcionImprimirArbol app.arbolActual_, false⟩
  | .porcentajesCondicionados entradas =>
    match opcionPorcentajesCondicionados app.arbolActual_ app.ordenActivo_ entradas with
    | none => ⟨app, [], true⟩
    | some salida => ⟨app, salida, false⟩
  | .reporteHojas =>
    match opcionReporteHojas app.arbolActual_ with
    | none => ⟨app, [], true⟩
    | some salida => ⟨app, salida, false⟩
  | .imprimirPerfiles => ⟨app, app.opcionImprimirPerfiles, false⟩
  | .agregarEstudiante estudiante aperturas => app.opcionAgregarEstudiante estudiante aperturas
  | .agregarNota registro aperturas => app.opcionAgregarNota registro aperturas

/-- The loop of `ejecutar` for the options chosen one after another: it goes
on until an exception escapes from an option. -/
def Aplicacion.ejecutar (app : Aplicacion F) : List (Orden F) → Efecto F
  | [] => ⟨app, [], false⟩
  | orden :: resto =>
    if (app.paso orden).excepcion then app.paso orden
    else
      ⟨((app.paso orden).estado.ejecutar resto).estado,
        (app.paso orden).salida ++ ((app.paso orden).estado.ejecutar resto).salida,
        ((app.paso orden).estado.ejecutar resto).excepcion⟩

end Aplicacion

/-! ## Auxiliary notions for the statements about the store -/

/-- The value that is read back for an `int` written to a stream. -/
def envolver (x : Int) : Int :=
  if (x % 4294967296).toNat < 2147483648 then ((x % 4294967296).toNat : Int)
  else ((x % 4294967296).toNat : Int) - 4294967296

/-- What `leerEstudiante` does with the bytes that `escribirEstudiante` wrote
for a record: it throws when one of the six strings was written with a length
over 10,000, and returns the record with the characters written otherwise. -/
def releerEstudiante (e : Estudiante) : Except String Estudiante :=
  if 10000 < e.carne.length % 4294967296 ∨ 10000 < e.genero.length % 4294967296 ∨
      10000 < e.residencia.length % 4294967296 ∨
      10000 < e.colegioProcedencia.length % 4294967296 ∨
      10000 < e.tipoColegio.length % 4294967296 ∨
      10000 < e.estadoCivil.length % 4294967296 then
    .error mensajeLongitudInvalida
  else
    .ok { carne := cadenaLeida e.carne, genero := cadenaLeida e.genero,
          residencia := cadenaLeida e.residencia, edad := envolver e.edad,
          colegioProcedencia := cadenaLeida e.colegioProcedencia,
          tipoColegio := cadenaLeida e.tipoColegio, trabaja := e.trabaja,
          estadoCivil := cadenaLeida e.estadoCivil }

/-- The records of a file read one after another, each as `releerEstudiante`
gives it. -/
def releerEstudiantes : List Estudiante → Except String (List Estudiante)
  | [] => .ok []
  | e :: resto =>
    match releerEstudiante e with
    | .error mensaje => .error mensaje
    | .ok leido =>
      match releerEstudiantes resto with
      | .error mensaje => .error mensaje
      | .ok estudiantes => .ok (leido :: estudiantes)

/-- The scan of `existe` over the records of a file, each as
`releerEstudiante` gives it. -/
def buscarEscrito (carne : String) : List Estudiante → Except String Bool
  | [] => .ok false
  | e :: resto =>
    match releerEstudiante e with
    | .error mensaje => .error mensaje
    | .ok leido => if leido.carne = carne then .ok true else buscarEscrito carne resto

/-- A record whose six strings have at most 10,000 bytes each. -/
def Legible (e : Estudiante) : Prop :=
  e.carne.length ≤ 10000 ∧ e.genero.length ≤ 10000 ∧ e.residencia.length ≤ 10000 ∧
    e.colegioProcedencia.length ≤ 10000 ∧ e.tipoColegio.length ≤ 10000 ∧
    e.estadoCivil.length ≤ 10000

/-- A student `L1` whose `genero` has 10,001 characters. -/
def estudianteLargo : Estudiante :=
  { carne := "L1", genero := cadenaLarga 10001, residencia := "Cartago", edad := 20,
    colegioProcedencia := "Liceo", tipoColegio := "Publico", trabaja := false,
    estadoCivil := "Soltero" }

/-- Every opening succeeds. -/
def todasAbiertas : Aperturas :=
  { consulta := true, verificacion := true, escritura := true, recargaEstudiantes := true,
    recargaHistorial := true }

/-- The student file can be appended to but not read (a file without the
permission to read); the history file can be read. -/
def soloEscritura : Aperturas :=
  { consulta := false, verificacion := false, escritura := true, recargaEstudiantes := false,
    recargaHistorial := true }

/-- The tree built from no profile: the root alone, without indices. -/
def raizVacia : NodoArbolClasificacion :=
  .mk "Poblacion total" none [] [] 0

/-- The tree of the student `A1` alone for the ordering with the gender. -/
def arbolDeA1 : NodoArbolClasificacion :=
  .mk "Poblacion total" none [0] [ .mk "F" (some .Genero) [0] [] 1 ] 0

/-- The state after the constructor for a student file with `A1` and a
history file with the grades 60 and 80 of `A1`. -/
def aplicacionDeA1 : Aplicacion Binario64 :=
  { repositorioEstudiantes_ := [estudianteEjemplo "A1" "F" 20]
    repositorioHistorial_ := [registroDoble (.finito 60), registroDoble (.finito 80)]
    perfiles_ := [perfilDoble]
    ordenActivo_ := []
    arbolActual_ := none }

/-- The state `aplicacionDeA1` after option 1 with the ordering gender. -/
def aplicacionConArbol : Aplicacion Binario64 :=
  { aplicacionDeA1 with ordenActivo_ := [.Genero], arbolActual_ := some arbolDeA1 }

/-- The state `aplicacionConArbol` with the record of `estudianteLargo`
appended to the student file and nothing else changed. -/
def aplicacionDesfasada : Aplicacion Binario64 :=
  { aplicacionConArbol with
    repositorioEstudiantes_ := [estudianteEjemplo "A1" "F" 20, estudianteLargo] }

/-- The state `aplicacionConArbol` with the record of a student `Z9` appended
to the student file, no profile, and the tree built from no profile. -/
def aplicacionSinPerfiles : Aplicacion Binario64 :=
  { aplicacionConArbol with
    repositorioEstudiantes_ := [estudianteEjemplo "A1" "F" 20, estudianteEjemplo "Z9" "M" 30]
    perfiles_ := []
    arbolActual_ := some raizVacia }

/-! ## The order on labels -/

theorem char_eq_of_toNat_eq {x y : Char} (h : x.toNat = y.toNat) : x = y := by
  apply Char.ext
  apply UInt32.ext
  exact h

theorem menorLex_iff_lex (a b : List Char) : menorLex a b = true ↔ List.Lex (· < ·) a b := by
  induction a generalizing b with
  | nil =>
    cases b with
    | nil => simp [menorLex]
    | cons y ys => simp only [menorLex, true_iff]; exact List.Lex.nil
  | cons x xs ih =>
    cases b with
    | nil => simp [menorLex]
    | cons y ys =>
      have hx : x.toNat < y.toNat ↔ x < y := Iff.rfl
      simp only [menorLex]
      by_cases h1 : x.toNat < y.toNat
      · simp only [h1, if_true, true_iff]
        exact List.Lex.rel (hx.1 h1)
      · by_cases h2 : y.toNat < x.toNat
        · simp only [h1, h2, if_false, if_true]
          constructor
          · intro h; cases h
          · intro h
            cases h with
            | rel h => exact absurd (hx.2 h) h1
            | cons h => exact absurd h2 (Nat.lt_irrefl _)
        · have hxy : x = y := char_eq_of_toNat_eq (by omega)
          subst hxy
          simp only [h1, if_false, ih]
          constructor
          · intro h; exact List.Lex.cons h
          · intro h
            cases h with
            | rel h => exact absurd (hx.2 h) h1
            | cons h => exact h

/-- The comparison used by the ordered map is the order of `String`. -/
theorem cadenaMenor_iff_lt (a b : String) : cadenaMenor a b = true ↔ a < b := by
  rw [String.lt_iff_toList_lt]
  exact menorLex_iff_lex _ _

/-! ## The group map of one level -/

theorem cadenaMenor_trans {a b c : String} (h1 : cadenaMenor a b = true)
    (h2 : cadenaMenor b c = true) : cadenaMenor a c = true := by
  rw [cadenaMenor_iff_lt] at *
  exact lt_trans h1 h2

theorem cadenaMenor_irrefl (a : String) : cadenaMenor a a = false := by
  cases h : cadenaMenor a a with
  | false => rfl
  | true => exact absurd ((cadenaMenor_iff_lt a a).1 h) (lt_irrefl a)

theorem eq_of_not_cadenaMenor {a b : String} (h1 : ¬ cadenaMenor a b = true)
    (h2 : ¬ cadenaMenor b a = true) : a = b := by
  rw [cadenaMenor_iff_lt] at h1 h2
  exact le_antisymm (not_lt.1 h2) (not_lt.1 h1)

theorem anexarIndice_mem {e : String} {i : Nat} {g : MapaGrupos} {x : String × List Nat}
    (hx : x ∈ anexarIndice e i g) :
    x ∈ g ∨ (x.1 = e ∧ (x.2 = [i] ∨ ∃ v, (e, v) ∈ g ∧ x.2 = v ++ [i])) := by
  induction g with
  | nil =>
    simp only [anexarIndice, List.mem_singleton] at hx
    subst hx
    exact Or.inr ⟨rfl, Or.inl rfl⟩
  | cons y ys ih =>
    obtain ⟨k, v⟩ := y
    simp only [anexarIndice] at hx
    split_ifs at hx with h1 h2
    · rcases List.mem_cons.1 hx with h | h
      · subst h; exact Or.inr ⟨rfl, Or.inl rfl⟩
      · exact Or.inl h
    · rcases List.mem_cons.1 hx with h | h
      · subst h; exact Or.inl (List.mem_cons_self _ _)
      · rcases ih h with h | ⟨h3, h4⟩
        · exact Or.inl (List.mem_cons_of_mem _ h)
        · refine Or.inr ⟨h3, ?_⟩
          rcases h4 with h4 | ⟨w, hw, h4⟩
          · exact Or.inl h4
          · exact Or.inr ⟨w, List.mem_cons_of_mem _ hw, h4⟩
    · have hk : e = k := eq_of_not_cadenaMenor h1 h2
      subst hk
      rcases List.mem_cons.1 hx with h | h
      · subst h
        exact Or.inr ⟨rfl, Or.inr ⟨v, List.mem_cons_self _ _, rfl⟩⟩
      · exact Or.inl (List.mem_cons_of_mem _ h)

theorem anexarIndice_perm (e : String) (i : Nat) (g : MapaGrupos) :
    ((anexarIndice e i g).flatMap Prod.snd).Perm (g.flatMap Prod.snd ++ [i]) := by
  induction g with
  | nil => simp [anexarIndice]
  | cons y ys ih =>
    obtain ⟨k, v⟩ := y
    simp only [anexarIndice]
    split_ifs with h1 h2
    · simp only [List.flatMap_cons, List.singleton_append]
      exact (List.perm_append_singleton i _).symm
    · simp only [List.flatMap_cons, List.append_assoc]
      exact List.Perm.append_left v ih
    · simp only [List.flatMap_cons, List.append_assoc]
      refine List.Perm.append_left v ?_
      exact List.perm_append_comm

theorem anexarIndice_ordenadas {e : String} {i : Nat} {g : MapaGrupos}
    (hg : ClavesOrdenadas g) : ClavesOrdenadas (anexarIndice e i g) := by
  induction g with
  | nil => simp [anexarIndice, ClavesOrdenadas]
  | cons y ys ih =>
    obtain ⟨k, v⟩ := y
    unfold ClavesOrdenadas at hg ih ⊢
    rw [List.pairwise_cons] at hg
    simp only [anexarIndice]
    split_ifs with h1 h2
    · refine List.pairwise_cons.2 ⟨?_, List.pairwise_cons.2 hg⟩
      intro x hx
      rcases List.mem_cons.1 hx with h | h
      · subst h; exact h1
      · exact cadenaMenor_trans h1 (hg.1 x h)
    · refine List.pairwise_cons.2 ⟨?_, ih hg.2⟩
      intro x hx
      rcases anexarIndice_mem hx with h | ⟨h, _⟩
      · exact hg.1 x h
      · rw [h]; exact h2
    · exact List.pairwise_cons.2 ⟨hg.1, hg.2⟩

section Grupos

variable {F : Type} [Doble F]

theorem anexarIndice_fieles {perfiles : List (PerfilEstudiante F)} {var : VariableClasificacion}
    {i : Nat} {p : PerfilEstudiante F} {g : MapaGrupos} (hp : perfiles[i]? = some p)
    (hg : GruposFieles perfiles var g) :
    GruposFieles perfiles var (anexarIndice (valorClasificacion var p) i g) := by
  intro x hx
  rcases anexarIndice_mem hx with h | ⟨h1, h2 | ⟨v, hv, h2⟩⟩
  · exact hg x h
  · rw [h2, h1]
    refine ⟨by simp, ?_⟩
    intro j hj
    rw [List.mem_singleton] at hj
    subst hj
    exact ⟨p, hp, rfl⟩
  · rw [h2, h1]
    refine ⟨by simp, ?_⟩
    intro j hj
    rcases List.mem_append.1 hj with hj | hj
    · exact (hg _ hv).2 j hj
    · rw [List.mem_singleton] at hj
      subst hj
      exact ⟨p, hp, rfl⟩

/-- What the grouping loop establishes: started from a sorted, faithful map
it ends in one, and the groups hold the old contents plus the indices read. -/
theorem agruparDesde_spec {perfiles : List (PerfilEstudiante F)} {var : VariableClasificacion}
    {indices : List Nat} {g0 g : MapaGrupos}
    (h : agruparDesde perfiles var indices g0 = some g)
    (ho : ClavesOrdenadas g0) (hf : GruposFieles perfiles var g0) :
    ClavesOrdenadas g ∧ GruposFieles perfiles var g ∧
      (g.flatMap Prod.snd).Perm (g0.flatMap Prod.snd ++ indices) := by
  induction indices generalizing g0 with
  | nil =>
    simp only [agruparDesde, Option.some.injEq] at h
    subst h
    exact ⟨ho, hf, by simp⟩
  | cons i resto ih =>
    simp only [agruparDesde] at h
    cases hp : perfiles[i]? with
    | none => simp [hp] at h
    | some p =>
      simp only [hp] at h
      obtain ⟨h1, h2, h3⟩ := ih h (anexarIndice_ordenadas ho) (anexarIndice_fieles hp hf)
      refine ⟨h1, h2, h3.trans ?_⟩
      have := (anexarIndice_perm (valorClasificacion var p) i g0).append_right resto
      simpa using this

theorem agruparDesde_exito (perfiles : List (PerfilEstudiante F)) (var : VariableClasificacion)
    (indices : List Nat) (g0 : MapaGrupos) (h : ∀ i ∈ indices, i < perfiles.length) :
    ∃ g, agruparDesde perfiles var indices g0 = some g := by
  induction indices generalizing g0 with
  | nil => exact ⟨g0, rfl⟩
  | cons i resto ih =>
    have hi : i < perfiles.length := h i (List.mem_cons_self _ _)
    simp only [agruparDesde, List.getElem?_eq_getElem hi]
    exact ih _ (fun j hj => h j (List.mem_cons_of_mem _ hj))

/-- The group map of a node: sorted keys, non-empty faithful groups, and the
groups together are a rearrangement of the node's index list. -/
theorem agrupar_spec {perfiles : List (PerfilEstudiante F)} {var : VariableClasificacion}
    {indices : List Nat} {g : MapaGrupos} (h : agrupar perfiles var indices = some g) :
    ClavesOrdenadas g ∧ GruposFieles perfiles var g ∧ (g.flatMap Prod.snd).Perm indices := by
  have := agruparDesde_spec h (by simp [ClavesOrdenadas]) (by intro x hx; cases hx)
  simpa using this

theorem agrupar_exito (perfiles : List (PerfilEstudiante F)) (var : VariableClasificacion)
    (indices : List Nat) (h : ∀ i ∈ indices, i < perfiles.length) :
    ∃ g, agrupar perfiles var indices = some g :=
  agruparDesde_exito perfiles var indices [] h

end Grupos

/-! ## The builder produces trees of the expected shape -/

section Constructor

variable {F : Type} [Doble F]

theorem todos_map_spec {α β : Type} {f : α → Option β} {l : List α} {r : List β}
    (h : todos (l.map f) = some r) : List.Forall₂ (fun a b => f a = some b) l r := by
  induction l generalizing r with
  | nil =>
    simp only [List.map_nil, todos, Option.some.injEq] at h
    subst h
    exact List.Forall₂.nil
  | cons a l ih =>
    simp only [List.map_cons] at h
    cases hfa : f a with
    | none => simp [hfa, todos] at h
    | some b =>
      cases hr : todos (l.map f) with
      | none => simp [hfa, hr, todos] at h
      | some r1 =>
        simp only [hfa, hr, todos, Option.some.injEq] at h
        subst h
        exact List.Forall₂.cons hfa (ih hr)

theorem todos_map_exito {α β : Type} {f : α → Option β} {l : List α}
    (h : ∀ a ∈ l, ∃ b, f a = some b) : ∃ r, todos (l.map f) = some r := by
  induction l with
  | nil => exact ⟨[], rfl⟩
  | cons a l ih =>
    obtain ⟨b, hb⟩ := h a (List.mem_cons_self _ _)
    obtain ⟨r, hr⟩ := ih (fun x hx => h x (List.mem_cons_of_mem _ hx))
    exact ⟨b :: r, by simp [todos, hb, hr]⟩

theorem forall₂_grupoDe {R : String × List Nat → NodoArbolClasificacion → Prop}
    {grupos : MapaGrupos} {hs : List NodoArbolClasificacion}
    (h : List.Forall₂ R grupos hs) (hR : ∀ g x, R g x → grupoDe x = g) :
    hs.map grupoDe = grupos := by
  induction h with
  | nil => rfl
  | cons h1 _ ih => simp [hR _ _ h1, ih]

theorem forall₂_mem_right {α β : Type} {R : α → β → Prop} {l : List α} {r : List β}
    (h : List.Forall₂ R l r) : ∀ b ∈ r, ∃ a ∈ l, R a b := by
  induction h with
  | nil => intro b hb; cases hb
  | cons h1 _ ih =>
    intro b hb
    rcases List.mem_cons.1 hb with hb | hb
    · subst hb; exact ⟨_, List.mem_cons_self _ _, h1⟩
    · obtain ⟨a, ha, hab⟩ := ih b hb
      exact ⟨a, List.mem_cons_of_mem _ ha, hab⟩

/-- The recursion of the source: `construirArbolRecursivo` returns the node
unchanged when its level is past the ordering, and otherwise appends one
child per group, each built by `construirArbolRecursivo` itself. -/
theorem construirArbolRecursivo_eq (perfiles : List (PerfilEstudiante F))
    (orden : List VariableClasificacion) (nodo : NodoArbolClasificacion) :
    construirArbolRecursivo perfiles orden nodo =
      if h : nodo.nivel ≥ orden.length then some nodo
      else
        match agrupar perfiles (orden[nodo.nivel]) nodo.indicesEstudiantes with
        | none => none
        | some grupos =>
          match todos (grupos.map fun grupo =>
              construirArbolRecursivo perfiles orden
                (nuevoHijo (orden[nodo.nivel]) nodo.nivel grupo)) with
          | none => none
          | some nuevos =>
            some (.mk nodo.etiqueta nodo.variable_ nodo.indicesEstudiantes
              (nodo.hijos ++ nuevos) nodo.nivel) := by
  unfold construirArbolRecursivo
  split_ifs with h
  · have h0 : orden.length - nodo.nivel = 0 := by omega
    rw [h0]
    rfl
  · have h1 : nodo.nivel < orden.length := by omega
    obtain ⟨k, hk⟩ : ∃ k, orden.length - nodo.nivel = k + 1 :=
      ⟨orden.length - nodo.nivel - 1, by omega⟩
    have hk2 : ∀ g, orden.length - (nuevoHijo (orden[nodo.nivel]) nodo.nivel g).nivel = k := by
      intro g
      show orden.length - (nodo.nivel + 1) = k
      omega
    rw [hk]
    simp only [construirArbolRecursivoDesde, List.getElem?_eq_getElem h1, hk2]

theorem desde_construido {perfiles : List (PerfilEstudiante F)}
    {orden : List VariableClasificacion} (p : Nat) :
    ∀ (e : String) (v : Option VariableClasificacion) (i : List Nat) (n : Nat)
      (t : NodoArbolClasificacion),
      p = orden.length - n →
      construirArbolRecursivoDesde perfiles orden p (.mk e v i [] n) = some t →
      Construido perfiles orden t ∧ grupoDe t = (e, i) ∧ t.variable_ = v ∧ t.nivel = n := by
  induction p with
  | zero =>
    intro e v i n t hp h
    simp only [construirArbolRecursivoDesde, Option.some.injEq] at h
    subst h
    exact ⟨Construido.terminal e v i n (by omega), rfl, rfl, rfl⟩
  | succ p ih =>
    intro e v i n t hp h
    have hn : n < orden.length := by omega
    simp only [construirArbolRecursivoDesde, NodoArbolClasificacion.nivel,
      List.getElem?_eq_getElem hn, NodoArbolClasificacion.indicesEstudiantes,
      NodoArbolClasificacion.etiqueta, NodoArbolClasificacion.variable_,
      NodoArbolClasificacion.hijos, List.nil_append] at h
    cases hg : agrupar perfiles orden[n] i with
    | none => simp [hg] at h
    | some grupos =>
      simp only [hg] at h
      cases hh : todos (grupos.map fun grupo =>
          construirArbolRecursivoDesde perfiles orden p (nuevoHijo orden[n] n grupo)) with
      | none => simp [hh] at h
      | some nuevos =>
        simp only [hh, Option.some.injEq] at h
        subst h
        have hf := todos_map_spec hh
        have hf2 : List.Forall₂ (fun g x => Construido perfiles orden x ∧ grupoDe x = g ∧
            x.variable_ = some orden[n] ∧ x.nivel = n + 1) grupos nuevos := by
          refine hf.imp ?_
          intro g x hgx
          obtain ⟨k, w⟩ := g
          exact ih k (some orden[n]) w (n + 1) x (by omega) hgx
        have hmap : nuevos.map grupoDe = grupos := forall₂_grupoDe hf2 (fun _ _ h => h.2.1)
        have hmem := forall₂_mem_right hf2
        refine ⟨Construido.interno e v i n orden[n] nuevos (List.getElem?_eq_getElem hn)
          (by rw [hmap]; exact hg) ?_ ?_ ?_, rfl, rfl, rfl⟩
        · intro x hx
          obtain ⟨_, _, h⟩ := hmem x hx
          exact h.2.2.1
        · intro x hx
          obtain ⟨_, _, h⟩ := hmem x hx
          exact h.2.2.2
        · intro x hx
          obtain ⟨_, _, h⟩ := hmem x hx
          exact h.1

theorem desde_exito (perfiles : List (PerfilEstudiante F)) (orden : List VariableClasificacion)
    (p : Nat) : ∀ (nodo : NodoArbolClasificacion),
      (∀ i ∈ nodo.indicesEstudiantes, i < perfiles.length) →
      ∃ t, construirArbolRecursivoDesde perfiles orden p nodo = some t := by
  induction p with
  | zero => intro nodo _; exact ⟨nodo, rfl⟩
  | succ p ih =>
    intro nodo hi
    simp only [construirArbolRecursivoDesde]
    cases hv : orden[nodo.nivel]? with
    | none => exact ⟨nodo, rfl⟩
    | some var =>
      obtain ⟨grupos, hg⟩ := agrupar_exito perfiles var nodo.indicesEstudiantes hi
      simp only [hg]
      obtain ⟨_, _, hperm⟩ := agrupar_spec hg
      obtain ⟨nuevos, hn⟩ := todos_map_exito
        (f := fun grupo =>
          construirArbolRecursivoDesde perfiles orden p (nuevoHijo var nodo.nivel grupo))
        (l := grupos) (by
          intro g hgm
          apply ih
          intro j hj
          apply hi
          apply hperm.subset
          exact List.mem_flatMap.2 ⟨g, hgm, hj⟩)
      simp only [hn]
      exact ⟨_, rfl⟩

/-- The builder never throws: every index it looks up is in range. -/
theorem construirArbolClasificacion_exito (perfiles : List (PerfilEstudiante F))
    (orden : List VariableClasificacion) :
    ∃ t, construirArbolClasificacion perfiles orden = some t := by
  unfold construirArbolClasificacion construirArbolRecursivo
  apply desde_exito
  intro i hi
  simpa [NodoArbolClasificacion.indicesEstudiantes] using hi

/-- The tree returned by the builder: its root is the total population at
level 0 and it has the shape `Construido`. -/
theorem construirArbolClasificacion_construido {perfiles : List (PerfilEstudiante F)}
    {orden : List VariableClasificacion} {t : NodoArbolClasificacion}
    (h : construirArbolClasificacion perfiles orden = some t) :
    Construido perfiles orden t ∧ t.etiqueta = "Poblacion total" ∧
      t.indicesEstudiantes = List.range perfiles.length ∧ t.variable_ = none ∧ t.nivel = 0 := by
  unfold construirArbolClasificacion construirArbolRecursivo at h
  obtain ⟨h1, h2, h3, h4⟩ := desde_construido _ _ _ _ _ _ rfl h
  simp only [grupoDe, Prod.mk.injEq] at h2
  exact ⟨h1, h2.1, h2.2, h3, h4⟩

end Constructor

/-! ## Traversals -/

theorem recolectarHojasLista_eq (hs : List NodoArbolClasificacion) :
    recolectarHojasLista hs = hs.flatMap recolectarHojas := by
  induction hs with
  | nil => simp [recolectarHojasLista]
  | cons h hs ih => simp [recolectarHojasLista, ih]

theorem recolectarHojas_cons (e : String) (v : Option VariableClasificacion) (i : List Nat)
    (hs : List NodoArbolClasificacion) (n : Nat) (h : hs ≠ []) :
    recolectarHojas (.mk e v i hs n) = hs.flatMap recolectarHojas := by
  cases hs with
  | nil => exact absurd rfl h
  | cons x xs => rw [recolectarHojas, recolectarHojasLista_eq]

theorem nodosLista_eq (hs : List NodoArbolClasificacion) :
    nodosLista hs = hs.flatMap nodos := by
  induction hs with
  | nil => simp [nodosLista]
  | cons h hs ih => simp [nodosLista, ih]

theorem nodos_mk (e : String) (v : Option VariableClasificacion) (i : List Nat)
    (hs : List NodoArbolClasificacion) (n : Nat) :
    nodos (.mk e v i hs n) = .mk e v i hs n :: hs.flatMap nodos := by
  rw [nodos, nodosLista_eq]

theorem rutasLista_eq (hs : List NodoArbolClasificacion) :
    rutasLista hs = hs.flatMap rutas := by
  induction hs with
  | nil => simp [rutasLista]
  | cons h hs ih => simp [rutasLista, ih]

theorem rutas_mk (e : String) (v : Option VariableClasificacion) (i : List Nat)
    (hs : List NodoArbolClasificacion) (n : Nat) :
    rutas (.mk e v i hs n) =
      [.mk e v i hs n] :: (hs.flatMap rutas).map (fun r => .mk e v i hs n :: r) := by
  rw [rutas, rutasLista_eq]

theorem nodos_self (t : NodoArbolClasificacion) : t ∈ nodos t := by
  cases t with
  | mk e v i hs n => rw [nodos]; exact List.mem_cons_self _ _

/-! ## Leaf counts -/

section Hojas

variable {F : Type} [Doble F]

/-- The number of indices held by the leaves below a node. -/
theorem suma_hojas_lista (hs : List NodoArbolClasificacion)
    (ih : ∀ h ∈ hs, ((recolectarHojas h).map fun x => x.indicesEstudiantes.length).sum =
      h.indicesEstudiantes.length) :
    ((hs.flatMap recolectarHojas).map fun x => x.indicesEstudiantes.length).sum =
      ((hs.map grupoDe).flatMap Prod.snd).length := by
  induction hs with
  | nil => rfl
  | cons h hs ih2 =>
    simp only [List.flatMap_cons, List.map_append, List.sum_append, List.map_cons,
      List.length_append]
    rw [ih h (List.mem_cons_self _ _), ih2 (fun x hx => ih x (List.mem_cons_of_mem _ hx))]
    rfl

theorem construido_suma_hojas {perfiles : List (PerfilEstudiante F)}
    {orden : List VariableClasificacion} {t : NodoArbolClasificacion}
    (h : Construido perfiles orden t) :
    ((recolectarHojas t).map fun x => x.indicesEstudiantes.length).sum =
      t.indicesEstudiantes.length := by
  induction h with
  | terminal e v i n _ => simp [recolectarHojas, NodoArbolClasificacion.indicesEstudiantes]
  | interno e v i n var hs _ hg _ _ _ ih =>
    by_cases hhs : hs = []
    · subst hhs
      simp [recolectarHojas, NodoArbolClasificacion.indicesEstudiantes]
    · rw [recolectarHojas_cons _ _ _ _ _ hhs, suma_hojas_lista hs ih]
      exact (agrupar_spec hg).2.2.length_eq

end Hojas

/-- The tree of the example: two women and a man, grouped by gender and then
by age bracket. -/
theorem arbolEjemplo_eq :
    construirArbolClasificacion perfilesEjemplo [.Genero, .RangoEdad] = some arbolEjemplo := by
  rfl

/-- C1: for every population `perfiles` and every ordering `orden`, the builder
returns a tree, and the sizes of the index lists of the leaves collected by
`recolectarHojas` from it add up to the number of profiles. -/
theorem C1_suma_hojas_igual_poblacion {F : Type} [Doble F] (perfiles : List (PerfilEstudiante F))
    (orden : List VariableClasificacion) :
    ∃ t, construirArbolClasificacion perfiles orden = some t ∧
      ((recolectarHojas t).map fun hoja => hoja.indicesEstudiantes.length).sum =
        perfiles.length := by
  obtain ⟨t, ht⟩ := construirArbolClasificacion_exito perfiles orden
  obtain ⟨hc, _, hi, _, _⟩ := construirArbolClasificacion_construido ht
  refine ⟨t, ht, ?_⟩
  rw [construido_suma_hojas hc, hi, List.length_range]

/-! ## Facts about every node of a built tree -/

section Nodos

variable {F : Type} [Doble F]

/-- The index lists of the children, one after another, are a rearrangement
of the index list of the node. -/
theorem hijos_perm {perfiles : List (PerfilEstudiante F)} {var : VariableClasificacion}
    {i : List Nat} {hs : List NodoArbolClasificacion}
    (hg : agrupar perfiles var i = some (hs.map grupoDe)) :
    (hs.flatMap fun h => h.indicesEstudiantes).Perm i := by
  have := (agrupar_spec hg).2.2
  rw [List.flatMap_map] at this
  exact this

/-- Each child holds a non-empty list of indices of profiles whose label for
the variable of the level is the label of the child. -/
theorem hijos_fieles {perfiles : List (PerfilEstudiante F)} {var : VariableClasificacion}
    {i : List Nat} {hs : List NodoArbolClasificacion}
    (hg : agrupar perfiles var i = some (hs.map grupoDe)) {h : NodoArbolClasificacion}
    (hh : h ∈ hs) :
    h.indicesEstudiantes ≠ [] ∧ ∀ j ∈ h.indicesEstudiantes,
      ∃ p, perfiles[j]? = some p ∧ valorClasificacion var p = h.etiqueta :=
  (agrupar_spec hg).2.1 (grupoDe h) (List.mem_map_of_mem grupoDe hh)

theorem hijos_etiquetas_ordenadas {perfiles : List (PerfilEstudiante F)}
    {var : VariableClasificacion} {i : List Nat} {hs : List NodoArbolClasificacion}
    (hg : agrupar perfiles var i = some (hs.map grupoDe)) :
    (hs.map fun h => h.etiqueta).Pairwise (· < ·) := by
  have h1 := (agrupar_spec hg).1
  unfold ClavesOrdenadas at h1
  rw [List.pairwise_map] at h1 ⊢
  exact h1.imp (fun h => (cadenaMenor_iff_lt _ _).1 h)

theorem hijos_vacio_iff {perfiles : List (PerfilEstudiante F)} {var : VariableClasificacion}
    {i : List Nat} {hs : List NodoArbolClasificacion}
    (hg : agrupar perfiles var i = some (hs.map grupoDe)) : hs = [] ↔ i = [] := by
  have hp := hijos_perm hg
  constructor
  · intro h
    subst h
    exact (List.Perm.nil_eq hp).symm
  · intro h
    subst h
    cases hs with
    | nil => rfl
    | cons x xs =>
      exfalso
      have hx := (hijos_fieles hg (List.mem_cons_self x xs)).1
      have h0 := hp.eq_nil
      simp only [List.flatMap_cons, List.append_eq_nil] at h0
      exact hx h0.1

/-- Every node of a built tree is itself a built tree, lies at a level not
past the ordering, and holds each index at most once. -/
theorem construido_nodos {perfiles : List (PerfilEstudiante F)}
    {orden : List VariableClasificacion} {t : NodoArbolClasificacion}
    (h : Construido perfiles orden t) (hn : t.nivel ≤ orden.length)
    (hd : t.indicesEstudiantes.Nodup) :
    ∀ N ∈ nodos t, Construido perfiles orden N ∧ N.nivel ≤ orden.length ∧
      N.indicesEstudiantes.Nodup := by
  induction h with
  | terminal e v i n hlen =>
    intro N hN
    simp only [nodos_mk, List.flatMap_nil, List.mem_singleton] at hN
    subst hN
    exact ⟨Construido.terminal e v i n hlen, hn, hd⟩
  | interno e v i n var hs hv hg hvar hniv hcon ih =>
    intro N hN
    rw [nodos_mk, List.mem_cons] at hN
    rcases hN with hN | hN
    · subst hN
      exact ⟨Construido.interno e v i n var hs hv hg hvar hniv hcon, hn, hd⟩
    · obtain ⟨x, hx, hNx⟩ := List.mem_flatMap.1 hN
      have hlt : n < orden.length := (List.getElem?_eq_some.1 hv).1
      have hnd : (hs.flatMap fun h => h.indicesEstudiantes).Nodup :=
        (hijos_perm hg).nodup_iff.2 hd
      refine ih x hx ?_ ?_ N hNx
      · rw [hniv x hx]; exact hlt
      · exact (List.nodup_flatMap.1 hnd).1 x hx

/-- The nodes of the tree returned by the builder. -/
theorem arbol_nodos {perfiles : List (PerfilEstudiante F)}
    {orden : List VariableClasificacion} {t : NodoArbolClasificacion}
    (h : construirArbolClasificacion perfiles orden = some t) :
    ∀ N ∈ nodos t, Construido perfiles orden N ∧ N.nivel ≤ orden.length ∧
      N.indicesEstudiantes.Nodup := by
  obtain ⟨hc, _, hi, _, hn⟩ := construirArbolClasificacion_construido h
  apply construido_nodos hc
  · rw [hn]; exact Nat.zero_le _
  · rw [hi]; exact List.nodup_range _

/-- The leaves collected by `recolectarHojas` are nodes without children. -/
theorem construido_hojas {perfiles : List (PerfilEstudiante F)}
    {orden : List VariableClasificacion} {t : NodoArbolClasificacion}
    (h : Construido perfiles orden t) :
    ∀ N ∈ recolectarHojas t, N ∈ nodos t ∧ N.hijos = [] := by
  induction h with
  | terminal e v i n _ =>
    intro N hN
    simp only [recolectarHojas, List.mem_singleton] at hN
    subst hN
    exact ⟨nodos_self _, rfl⟩
  | interno e v i n var hs _ _ _ _ _ ih =>
    intro N hN
    by_cases hhs : hs = []
    · subst hhs
      simp only [recolectarHojas, List.mem_singleton] at hN
      subst hN
      exact ⟨nodos_self _, rfl⟩
    · rw [recolectarHojas_cons _ _ _ _ _ hhs] at hN
      obtain ⟨x, hx, hNx⟩ := List.mem_flatMap.1 hN
      obtain ⟨h1, h2⟩ := ih x hx N hNx
      refine ⟨?_, h2⟩
      rw [nodos_mk]
      exact List.mem_cons_of_mem _ (List.mem_flatMap.2 ⟨x, hx, h1⟩)

/-- A built node at a level not past the ordering is terminal exactly when
its index list is empty or its level is the last one. -/
theorem construido_terminal_iff {perfiles : List (PerfilEstudiante F)}
    {orden : List VariableClasificacion} {N : NodoArbolClasificacion}
    (hc : Construido perfiles orden N) (hn : N.nivel ≤ orden.length) :
    N.hijos = [] ↔ N.indicesEstudiantes = [] ∨ N.nivel = orden.length := by
  cases hc with
  | terminal e v i n hlen =>
    have h1 : n ≤ orden.length := hn
    exact ⟨fun _ => Or.inr (Nat.le_antisymm h1 hlen), fun _ => rfl⟩
  | interno e v i n var hs hv hg _ _ _ =>
    have hlt : n < orden.length := (List.getElem?_eq_some.1 hv).1
    show hs = [] ↔ i = [] ∨ n = orden.length
    rw [hijos_vacio_iff hg]
    constructor
    · exact Or.inl
    · rintro (h | h)
      · exact h
      · omega

end Nodos

/-- C2: in the tree built from `perfiles` and `orden` the root holds exactly
the indices `0 .. |perfiles| - 1`, and for every node with at least one child
the index lists of the children are pairwise disjoint, an index is in the
node's list exactly when it is in the list of one of its children, and the
size of the node's list is the sum of the sizes of the children's lists. -/
theorem C2_hijos_particionan {F : Type} [Doble F] (perfiles : List (PerfilEstudiante F))
    (orden : List VariableClasificacion) :
    ∃ t, construirArbolClasificacion perfiles orden = some t ∧
      t.indicesEstudiantes = List.range perfiles.length ∧
      ∀ N ∈ nodos t, N.hijos ≠ [] →
        N.hijos.Pairwise (fun a b => a.indicesEstudiantes.Disjoint b.indicesEstudiantes) ∧
        (∀ i, i ∈ N.indicesEstudiantes ↔ ∃ h ∈ N.hijos, i ∈ h.indicesEstudiantes) ∧
        N.indicesEstudiantes.length = (N.hijos.map fun h => h.indicesEstudiantes.length).sum := by
  obtain ⟨t, ht⟩ := construirArbolClasificacion_exito perfiles orden
  refine ⟨t, ht, (construirArbolClasificacion_construido ht).2.2.1, ?_⟩
  intro N hN hhijos
  obtain ⟨hc, _, hd⟩ := arbol_nodos ht N hN
  cases hc with
  | terminal e v i n _ => exact absurd rfl hhijos
  | interno e v i n var hs hv hg _ _ _ =>
    have hp := hijos_perm hg
    have hnd : (hs.flatMap fun h => h.indicesEstudiantes).Nodup := hp.nodup_iff.2 hd
    refine ⟨(List.nodup_flatMap.1 hnd).2, ?_, ?_⟩
    · intro j
      show j ∈ i ↔ _
      rw [← hp.mem_iff, List.mem_flatMap]
      rfl
    · show i.length = _
      rw [← hp.length_eq, List.length_flatMap]
      rfl

/-- C4: at every node of the tree built from `perfiles` and `orden`, the
labels of the children, read in child order, are strictly increasing in the
lexicographic order of strings; they are exactly the labels that the variable
of the level gives to the profiles of the node, so the list of labels does
not depend on the order in which the profiles appear. -/
theorem C4_etiquetas_hijos_crecientes {F : Type} [Doble F]
    (perfiles : List (PerfilEstudiante F)) (orden : List VariableClasificacion) :
    ∃ t, construirArbolClasificacion perfiles orden = some t ∧
      ∀ N ∈ nodos t,
        (N.hijos.map fun h => h.etiqueta).Pairwise (· < ·) ∧
        ∀ l, l ∈ (N.hijos.map fun h => h.etiqueta) ↔
          ∃ var, orden[N.nivel]? = some var ∧ ∃ i ∈ N.indicesEstudiantes,
            ∃ p, perfiles[i]? = some p ∧ valorClasificacion var p = l := by
  obtain ⟨t, ht⟩ := construirArbolClasificacion_exito perfiles orden
  refine ⟨t, ht, ?_⟩
  intro N hN
  obtain ⟨hc, _, _⟩ := arbol_nodos ht N hN
  cases hc with
  | terminal e v i n hlen =>
    refine ⟨List.Pairwise.nil, ?_⟩
    intro l
    constructor
    · intro hl
      cases hl
    · rintro ⟨var, hvar, _⟩
      have hlt : n < orden.length := (List.getElem?_eq_some.1 hvar).1
      omega
  | interno e v i n var hs hv hg _ _ _ =>
    refine ⟨hijos_etiquetas_ordenadas hg, ?_⟩
    intro l
    constructor
    · intro hl
      obtain ⟨x, hx, hxl⟩ := List.mem_map.1 hl
      obtain ⟨hne, hfiel⟩ := hijos_fieles hg hx
      obtain ⟨j, hj⟩ := List.exists_mem_of_ne_nil _ hne
      obtain ⟨p, hp1, hp2⟩ := hfiel j hj
      exact ⟨var, hv, j, (hijos_perm hg).subset (List.mem_flatMap.2 ⟨x, hx, hj⟩), p, hp1,
        hp2.trans hxl⟩
    · rintro ⟨w, hw, j, hj, p, hp1, hp2⟩
      have hwv : var = w := Option.some.inj (hv.symm.trans hw)
      subst hwv
      obtain ⟨y, hy, hjy⟩ := List.mem_flatMap.1 ((hijos_perm hg).mem_iff.2 hj)
      obtain ⟨q, hq1, hq2⟩ := (hijos_fieles hg hy).2 j hjy
      rw [hp1, Option.some.injEq] at hq1
      subst hq1
      exact List.mem_map.2 ⟨y, hy, hq2.symm.trans hp2⟩

/-- C5: a node of the tree built from `perfiles` and `orden` has no children
exactly when its index list is empty or its level is the length of the
ordering; so a leaf with a non-empty index list lies at level `|orden|`. -/
theorem C5_terminal_sii_vacio_o_ultimo_nivel {F : Type} [Doble F]
    (perfiles : List (PerfilEstudiante F)) (orden : List VariableClasificacion) :
    ∃ t, construirArbolClasificacion perfiles orden = some t ∧
      (∀ N ∈ nodos t,
        (N.hijos = [] ↔ N.indicesEstudiantes = [] ∨ N.nivel = orden.length)) ∧
      (∀ N ∈ recolectarHojas t, N.indicesEstudiantes ≠ [] → N.nivel = orden.length) := by
  obtain ⟨t, ht⟩ := construirArbolClasificacion_exito perfiles orden
  have key : ∀ N ∈ nodos t,
      (N.hijos = [] ↔ N.indicesEstudiantes = [] ∨ N.nivel = orden.length) := by
    intro N hN
    obtain ⟨hc, hn, _⟩ := arbol_nodos ht N hN
    exact construido_terminal_iff hc hn
  refine ⟨t, ht, key, ?_⟩
  intro N hN hne
  obtain ⟨h1, h2⟩ := construido_hojas (construirArbolClasificacion_construido ht).1 N hN
  rcases (key N h1).1 h2 with h | h
  · exact absurd h hne
  · exact h

/-! ## Depth of the leaves and height of the tree -/

section Altura

variable {F : Type} [Doble F]

theorem nodos_eq_cons (x : NodoArbolClasificacion) : nodos x = x :: nodosLista x.hijos := by
  cases x with
  | mk e v i hs n => rw [nodos]; rfl

/-- Every node below the root of a built tree holds at least one index. -/
theorem construido_descendientes {perfiles : List (PerfilEstudiante F)}
    {orden : List VariableClasificacion} {t : NodoArbolClasificacion}
    (h : Construido perfiles orden t) :
    ∀ N ∈ nodosLista t.hijos, N.indicesEstudiantes ≠ [] := by
  induction h with
  | terminal e v i n _ =>
    intro N hN
    simp [NodoArbolClasificacion.hijos, nodosLista] at hN
  | interno e v i n var hs _ hg _ _ _ ih =>
    intro N hN
    simp only [NodoArbolClasificacion.hijos, nodosLista_eq] at hN
    obtain ⟨x, hx, hNx⟩ := List.mem_flatMap.1 hN
    rw [nodos_eq_cons, List.mem_cons] at hNx
    rcases hNx with hNx | hNx
    · subst hNx
      exact (hijos_fieles hg hx).1
    · exact ih x hx N hNx

theorem alturaLista_const {hs : List NodoArbolClasificacion} {k : Nat} (hne : hs ≠ [])
    (h : ∀ x ∈ hs, altura x = k) : alturaLista hs = k + 1 := by
  induction hs with
  | nil => exact absurd rfl hne
  | cons x xs ih =>
    rw [alturaLista, h x (List.mem_cons_self _ _)]
    cases xs with
    | nil => simp [alturaLista]
    | cons y ys =>
      rw [ih (List.cons_ne_nil _ _) (fun z hz => h z (List.mem_cons_of_mem _ hz))]
      exact Nat.max_self _

/-- A built node with a non-empty index list has below it every level that
the ordering still has to apply. -/
theorem construido_altura {perfiles : List (PerfilEstudiante F)}
    {orden : List VariableClasificacion} {t : NodoArbolClasificacion}
    (h : Construido perfiles orden t) (hne : t.indicesEstudiantes ≠ []) :
    altura t = orden.length - t.nivel := by
  induction h with
  | terminal e v i n hlen =>
    simp only [altura, alturaLista, NodoArbolClasificacion.nivel]
    omega
  | interno e v i n var hs hv hg _ hniv _ ih =>
    have hlt : n < orden.length := (List.getElem?_eq_some.1 hv).1
    have hhs : hs ≠ [] := fun h0 => hne ((hijos_vacio_iff hg).1 h0)
    have hk : ∀ x ∈ hs, altura x = orden.length - (n + 1) := by
      intro x hx
      rw [ih x hx (hijos_fieles hg hx).1, hniv x hx]
    simp only [altura, NodoArbolClasificacion.nivel]
    rw [alturaLista_const hhs hk]
    omega

end Altura

/-- C6: for a non-empty population, every node below the root of the built
tree has a non-empty index list, every leaf lies at level `|orden|`, the
height of the tree is `|orden|`, and with an empty ordering the tree is the
root alone. -/
theorem C6_altura_igual_niveles {F : Type} [Doble F] (perfiles : List (PerfilEstudiante F))
    (orden : List VariableClasificacion) (hP : perfiles ≠ []) :
    ∃ t, construirArbolClasificacion perfiles orden = some t ∧
      (∀ N ∈ nodosLista t.hijos, N.indicesEstudiantes ≠ []) ∧
      (∀ N ∈ recolectarHojas t, N.nivel = orden.length) ∧
      altura t = orden.length ∧
      (orden = [] → t.hijos = []) := by
  obtain ⟨t, ht⟩ := construirArbolClasificacion_exito perfiles orden
  obtain ⟨hc, _, hi, _, hn⟩ := construirArbolClasificacion_construido ht
  have hroot : t.indicesEstudiantes ≠ [] := by
    rw [hi]
    intro h0
    apply hP
    have := congrArg List.length h0
    rw [List.length_range] at this
    exact List.length_eq_zero.1 this
  have hdesc := construido_descendientes hc
  refine ⟨t, ht, hdesc, ?_, ?_, ?_⟩
  · intro N hN
    obtain ⟨h1, h2⟩ := construido_hojas hc N hN
    obtain ⟨hcN, hnN, _⟩ := arbol_nodos ht N h1
    have hne : N.indicesEstudiantes ≠ [] := by
      rw [nodos_eq_cons, List.mem_cons] at h1
      rcases h1 with h1 | h1
      · rw [h1]; exact hroot
      · exact hdesc N h1
    rcases (construido_terminal_iff hcN hnN).1 h2 with h | h
    · exact absurd h hne
    · exact h
  · rw [construido_altura hc hroot, hn]
    rfl
  · intro hV
    have h0 : t.nivel ≤ orden.length := by rw [hn]; exact Nat.zero_le _
    apply (construido_terminal_iff hc h0).2
    right
    rw [hn, hV]
    rfl

/-- C6 at the example population with the ordering gender, age bracket. -/
theorem C6_altura_igual_niveles_witness :
    perfilesEjemplo ≠ [] ∧
    ∃ t, construirArbolClasificacion perfilesEjemplo [.Genero, .RangoEdad] = some t ∧
      (∀ N ∈ nodosLista t.hijos, N.indicesEstudiantes ≠ []) ∧
      (∀ N ∈ recolectarHojas t, N.nivel = [VariableClasificacion.Genero, .RangoEdad].length) ∧
      altura t = [VariableClasificacion.Genero, .RangoEdad].length ∧
      ([VariableClasificacion.Genero, .RangoEdad] = [] → t.hijos = []) :=
  ⟨by decide, C6_altura_igual_niveles perfilesEjemplo [.Genero, .RangoEdad] (by decide)⟩

/-! ## Paths from the root -/

section Rutas

variable {F : Type} [Doble F]

/-- A path starts at the node it was taken from. -/
theorem rutas_cabeza (x : NodoArbolClasificacion) :
    ∀ r ∈ rutas x, ∃ resto, r = x :: resto := by
  cases x with
  | mk e v i hs n =>
    intro r hr
    rw [rutas_mk, List.mem_cons] at hr
    rcases hr with hr | hr
    · exact ⟨[], hr⟩
    · obtain ⟨r', _, hr'⟩ := List.mem_map.1 hr
      exact ⟨r', hr'.symm⟩

/-- Two children of a built node with the same label are the same child. -/
theorem hijos_etiqueta_inj {perfiles : List (PerfilEstudiante F)} {var : VariableClasificacion}
    {i : List Nat} {hs : List NodoArbolClasificacion}
    (hg : agrupar perfiles var i = some (hs.map grupoDe)) {x y : NodoArbolClasificacion}
    (hx : x ∈ hs) (hy : y ∈ hs) (hxy : x.etiqueta = y.etiqueta) : x = y := by
  have hp := hijos_etiquetas_ordenadas hg
  have hnd : (hs.map fun h => h.etiqueta).Nodup := hp.imp (fun h => ne_of_lt h)
  exact List.inj_on_of_nodup_map hnd hx hy hxy

/-- An index is in the list of a child exactly when it is in the list of the
parent and the profile's label for the variable of the level is the child's. -/
theorem hijo_indices_iff {perfiles : List (PerfilEstudiante F)} {var : VariableClasificacion}
    {i : List Nat} {hs : List NodoArbolClasificacion}
    (hg : agrupar perfiles var i = some (hs.map grupoDe)) {x : NodoArbolClasificacion}
    (hx : x ∈ hs) (j : Nat) :
    j ∈ x.indicesEstudiantes ↔
      j ∈ i ∧ ∃ p, perfiles[j]? = some p ∧ valorClasificacion var p = x.etiqueta := by
  have hp := hijos_perm hg
  constructor
  · intro hj
    exact ⟨hp.subset (List.mem_flatMap.2 ⟨x, hx, hj⟩), (hijos_fieles hg hx).2 j hj⟩
  · rintro ⟨hj, p, hp1, hp2⟩
    obtain ⟨y, hy, hjy⟩ := List.mem_flatMap.1 (hp.mem_iff.2 hj)
    obtain ⟨q, hq1, hq2⟩ := (hijos_fieles hg hy).2 j hjy
    rw [hp1, Option.some.injEq] at hq1
    subst hq1
    have : y = x := hijos_etiqueta_inj hg hy hx (hq2.symm.trans hp2)
    rw [← this]
    exact hjy

/-- Along a path that starts at a built node of level `m`, the node reached
after `j + 1` steps carries the variable `orden[m + j]` and lies at level
`m + j + 1`; the last node holds exactly the indices of the first node whose
profile has, for each step, the label of the node reached. -/
theorem construido_rutas {perfiles : List (PerfilEstudiante F)}
    {orden : List VariableClasificacion} {t : NodoArbolClasificacion}
    (h : Construido perfiles orden t) :
    ∀ ruta ∈ rutas t,
      (∀ j nodo, ruta[j + 1]? = some nodo →
        ∃ var, orden[t.nivel + j]? = some var ∧ nodo.variable_ = some var ∧
          nodo.nivel = t.nivel + j + 1) ∧
      (∀ N, ruta.getLast? = some N → ∀ i, i ∈ N.indicesEstudiantes ↔
        i ∈ t.indicesEstudiantes ∧ ∀ j nodo, ruta[j + 1]? = some nodo →
          ∃ p var, perfiles[i]? = some p ∧ orden[t.nivel + j]? = some var ∧
            valorClasificacion var p = nodo.etiqueta) := by
  induction h with
  | terminal e v i n hlen =>
    intro ruta hr
    simp only [rutas_mk, List.flatMap_nil, List.map_nil, List.mem_singleton] at hr
    subst hr
    refine ⟨by intro j nodo hj; simp at hj, ?_⟩
    intro N hN i'
    simp only [List.getLast?_singleton, Option.some.injEq] at hN
    subst hN
    simp
  | interno e v i n var hs hv hg hvar hniv _ ih =>
    intro ruta hr
    rw [rutas_mk, List.mem_cons] at hr
    rcases hr with hr | hr
    · subst hr
      refine ⟨by intro j nodo hj; simp at hj, ?_⟩
      intro N hN i'
      simp only [List.getLast?_singleton, Option.some.injEq] at hN
      subst hN
      simp
    · obtain ⟨r, hr1, hr2⟩ := List.mem_map.1 hr
      obtain ⟨x, hx, hrx⟩ := List.mem_flatMap.1 hr1
      obtain ⟨resto, hresto⟩ := rutas_cabeza x r hrx
      obtain ⟨ihA, ihB⟩ := ih x hx r hrx
      subst hr2
      rw [hniv x hx] at ihA ihB
      rw [show (NodoArbolClasificacion.mk e v i hs n).nivel = n from rfl,
        show (NodoArbolClasificacion.mk e v i hs n).indicesEstudiantes = i from rfl]
      simp only [List.getElem?_cons_succ]
      constructor
      · intro j nodo hj
        cases j with
        | zero =>
          rw [hresto, List.getElem?_cons_zero, Option.some.injEq] at hj
          subst hj
          exact ⟨var, hv, hvar _ hx, hniv _ hx⟩
        | succ j =>
          obtain ⟨w, hw1, hw2, hw3⟩ := ihA j nodo hj
          refine ⟨w, ?_, hw2, ?_⟩
          · rw [← hw1]; congr 1; omega
          · rw [hw3]; omega
      · intro N hN i'
        have hlast : r.getLast? = some N := by
          rw [hresto] at hN ⊢
          simpa [List.getLast?_cons_cons] using hN
        rw [ihB N hlast i', hijo_indices_iff hg hx i']
        constructor
        · rintro ⟨⟨h1, p, hp1, hp2⟩, h2⟩
          refine ⟨h1, ?_⟩
          intro j nodo hj
          cases j with
          | zero =>
            rw [hresto, List.getElem?_cons_zero, Option.some.injEq] at hj
            subst hj
            exact ⟨p, var, hp1, hv, hp2⟩
          | succ j =>
            obtain ⟨q, w, hq1, hw1, hw2⟩ := h2 j nodo hj
            refine ⟨q, w, hq1, ?_, hw2⟩
            rw [← hw1]; congr 1; omega
        · rintro ⟨h1, h2⟩
          refine ⟨⟨h1, ?_⟩, ?_⟩
          · obtain ⟨p, w, hp1, hw1, hw2⟩ := h2 0 x (by rw [hresto, List.getElem?_cons_zero])
            rw [Nat.add_zero, hv, Option.some.injEq] at hw1
            subst hw1
            exact ⟨p, hp1, hw2⟩
          · intro j nodo hj
            obtain ⟨q, w, hq1, hw1, hw2⟩ := h2 (j + 1) nodo hj
            refine ⟨q, w, hq1, ?_, hw2⟩
            rw [← hw1]; congr 1; omega

/-- Every node of a tree is the end of a path from the root. -/
theorem construido_nodos_ruta {perfiles : List (PerfilEstudiante F)}
    {orden : List VariableClasificacion} {t : NodoArbolClasificacion}
    (h : Construido perfiles orden t) :
    ∀ N ∈ nodos t, ∃ ruta ∈ rutas t, ruta.getLast? = some N := by
  induction h with
  | terminal e v i n hlen =>
    intro N hN
    simp only [nodos_mk, List.flatMap_nil, List.mem_singleton] at hN
    subst hN
    exact ⟨[_], by rw [rutas_mk]; exact List.mem_cons_self _ _, rfl⟩
  | interno e v i n var hs _ _ _ _ _ ih =>
    intro N hN
    rw [nodos_mk, List.mem_cons] at hN
    rcases hN with hN | hN
    · subst hN
      exact ⟨[_], by rw [rutas_mk]; exact List.mem_cons_self _ _, rfl⟩
    · obtain ⟨x, hx, hNx⟩ := List.mem_flatMap.1 hN
      obtain ⟨r, hr, hlast⟩ := ih x hx N hNx
      obtain ⟨resto, hresto⟩ := rutas_cabeza x r hr
      refine ⟨NodoArbolClasificacion.mk e v i hs n :: r, ?_, ?_⟩
      · rw [rutas_mk]
        exact List.mem_cons_of_mem _
          (List.mem_map.2 ⟨r, List.mem_flatMap.2 ⟨x, hx, hr⟩, rfl⟩)
      · rw [hresto] at hlast ⊢
        simpa [List.getLast?_cons_cons] using hlast

end Rutas

/-- C3: in the tree built from `perfiles` and `orden`, every node is the end
of a path from the root, and along every such path the node at depth `k ≥ 1`
carries the variable `orden[k-1]` (and has `nivel = k`), while the node `N` at
the end of the path holds exactly the indices `i < |perfiles|` such that, for
every depth `k ≥ 1` of the path, `valorClasificacion orden[k-1] perfiles[i]`
is the label of the node at depth `k`. -/
theorem C3_indices_segun_etiquetas_de_la_ruta {F : Type} [Doble F]
    (perfiles : List (PerfilEstudiante F)) (orden : List VariableClasificacion) :
    ∃ t, construirArbolClasificacion perfiles orden = some t ∧
      (∀ N ∈ nodos t, ∃ ruta ∈ rutas t, ruta.getLast? = some N) ∧
      ∀ ruta ∈ rutas t,
        ruta[0]? = some t ∧
        (∀ k nodo, 1 ≤ k → ruta[k]? = some nodo →
          ∃ var, orden[k - 1]? = some var ∧ nodo.variable_ = some var ∧ nodo.nivel = k) ∧
        (∀ N, ruta.getLast? = some N → ∀ i, i ∈ N.indicesEstudiantes ↔
          i < perfiles.length ∧ ∀ k nodo, 1 ≤ k → ruta[k]? = some nodo →
            ∃ p var, perfiles[i]? = some p ∧ orden[k - 1]? = some var ∧
              valorClasificacion var p = nodo.etiqueta) := by
  obtain ⟨t, ht⟩ := construirArbolClasificacion_exito perfiles orden
  obtain ⟨hc, _, hi, _, hn⟩ := construirArbolClasificacion_construido ht
  refine ⟨t, ht, construido_nodos_ruta hc, ?_⟩
  intro ruta hr
  obtain ⟨hA, hB⟩ := construido_rutas hc ruta hr
  obtain ⟨resto, hresto⟩ := rutas_cabeza t ruta hr
  rw [hn] at hA hB
  refine ⟨by rw [hresto, List.getElem?_cons_zero], ?_, ?_⟩
  · intro k nodo hk hnodo
    obtain ⟨j, rfl⟩ : ∃ j, k = j + 1 := ⟨k - 1, by omega⟩
    obtain ⟨var, h1, h2, h3⟩ := hA j nodo hnodo
    rw [Nat.zero_add] at h1 h3
    exact ⟨var, h1, h2, h3⟩
  · intro N hN i
    rw [hB N hN i, hi, List.mem_range]
    constructor
    · rintro ⟨h1, h2⟩
      refine ⟨h1, ?_⟩
      intro k nodo hk hnodo
      obtain ⟨j, rfl⟩ : ∃ j, k = j + 1 := ⟨k - 1, by omega⟩
      obtain ⟨p, var, h3, h4, h5⟩ := h2 j nodo hnodo
      rw [Nat.zero_add] at h4
      exact ⟨p, var, h3, h4, h5⟩
    · rintro ⟨h1, h2⟩
      refine ⟨h1, ?_⟩
      intro j nodo hnodo
      obtain ⟨p, var, h3, h4, h5⟩ := h2 (j + 1) nodo (Nat.succ_le_succ (Nat.zero_le _)) hnodo
      rw [Nat.zero_add]
      exact ⟨p, var, h3, h4, h5⟩

/-! ## The profile builder -/

section Mapa

variable {F : Type}

theorem buscarRegistros_anexar (c k : String) (r : RegistroHistorial F) (m : MapaRegistros F) :
    buscarRegistros c (anexarRegistro k r m) =
      if c = k then some (contenidoRegistros k m ++ [r]) else buscarRegistros c m := by
  induction m with
  | nil =>
    by_cases h : c = k
    · subst h; simp [anexarRegistro, buscarRegistros, contenidoRegistros]
    · have h2 : ¬ k = c := fun h3 => h h3.symm
      simp [anexarRegistro, buscarRegistros, h, h2]
  | cons x xs ih =>
    obtain ⟨k1, v1⟩ := x
    by_cases h1 : k1 = k
    · subst h1
      by_cases h : c = k1
      · subst h; simp [anexarRegistro, buscarRegistros, contenidoRegistros]
      · have h2 : ¬ k1 = c := fun h3 => h h3.symm
        simp [anexarRegistro, buscarRegistros, h, h2]
    · by_cases h : c = k
      · subst h
        simp [anexarRegistro, buscarRegistros, contenidoRegistros, h1, ih]
      · by_cases h3 : k1 = c
        · simp [anexarRegistro, buscarRegistros, h1, h, h3]
        · simp [anexarRegistro, buscarRegistros, h1, h, h3, ih]

theorem contenido_anexar (c k : String) (r : RegistroHistorial F) (m : MapaRegistros F) :
    contenidoRegistros c (anexarRegistro k r m) =
      if k = c then contenidoRegistros c m ++ [r] else contenidoRegistros c m := by
  unfold contenidoRegistros
  rw [buscarRegistros_anexar]
  by_cases h : c = k
  · subst h; simp [contenidoRegistros]
  · have h2 : ¬ k = c := fun h3 => h h3.symm
    simp [h, h2]

theorem contenido_foldl_anexar (c : String) (registros : List (RegistroHistorial F))
    (m : MapaRegistros F) :
    contenidoRegistros c
        (registros.foldl (fun mapa registro =>
          anexarRegistro registro.carneEstudiante registro mapa) m) =
      contenidoRegistros c m ++ registros.filter (fun r => r.carneEstudiante = c) := by
  induction registros generalizing m with
  | nil => simp
  | cons r rs ih =>
    rw [List.foldl_cons, ih, contenido_anexar]
    by_cases h : r.carneEstudiante = c
    · simp [h]
    · simp [h]

/-- After the first loop the vector under each `carne` is the sub-sequence of
the grade entries with that `carne`, in their order. -/
theorem contenido_agruparRegistros (c : String) (registros : List (RegistroHistorial F)) :
    contenidoRegistros c (agruparRegistros registros) =
      registros.filter (fun r => r.carneEstudiante = c) := by
  unfold agruparRegistros
  rw [contenido_foldl_anexar]
  rfl

theorem buscarRegistros_vaciar (c k : String) (m : MapaRegistros F) :
    buscarRegistros c (vaciarRegistros k m) =
      if c = k then (buscarRegistros k m).map (fun _ => []) else buscarRegistros c m := by
  induction m with
  | nil => simp [vaciarRegistros, buscarRegistros]
  | cons x xs ih =>
    obtain ⟨k1, v1⟩ := x
    by_cases h1 : k1 = k
    · subst h1
      by_cases h : c = k1
      · subst h; simp [vaciarRegistros, buscarRegistros]
      · have h2 : ¬ k1 = c := fun h3 => h h3.symm
        simp [vaciarRegistros, buscarRegistros, h, h2]
    · by_cases h : c = k
      · subst h
        simp [vaciarRegistros, buscarRegistros, h1, ih]
      · by_cases h3 : k1 = c
        · simp [vaciarRegistros, buscarRegistros, h1, h, h3]
        · simp [vaciarRegistros, buscarRegistros, h1, h, h3, ih]

theorem contenido_vaciar (c k : String) (m : MapaRegistros F) :
    contenidoRegistros c (vaciarRegistros k m) =
      if c = k then [] else contenidoRegistros c m := by
  unfold contenidoRegistros
  rw [buscarRegistros_vaciar]
  by_cases h : c = k
  · subst h
    cases buscarRegistros c m <;> simp
  · simp [h]

end Mapa

section CargarPerfiles

variable {F : Type} [Doble F]

/-- A student whose `carne` is not in the map gets the same profile as one
whose vector is empty. -/
theorem armarPerfil_getD (e : Estudiante) (hallado : Option (List (RegistroHistorial F))) :
    armarPerfil e hallado = armarPerfil e (some (hallado.getD [])) := by
  cases hallado with
  | none => simp [armarPerfil]
  | some h => rfl

theorem pasoPerfil_spec (m : MapaRegistros F) (ps : List (PerfilEstudiante F)) (e : Estudiante) :
    (pasoPerfil (m, ps) e).2 = ps ++ [armarPerfil e (some (contenidoRegistros e.carne m))] ∧
      ∀ c, contenidoRegistros c (pasoPerfil (m, ps) e).1 =
        if c = e.carne then [] else contenidoRegistros c m := by
  unfold pasoPerfil
  cases hb : buscarRegistros e.carne m with
  | none =>
    simp only [hb]
    refine ⟨by rw [armarPerfil_getD]; simp [contenidoRegistros, hb], ?_⟩
    intro c
    by_cases h : c = e.carne
    · subst h; simp [contenidoRegistros, hb]
    · simp [h]
  | some hist =>
    simp only [hb]
    refine ⟨by simp [contenidoRegistros, hb], ?_⟩
    intro c
    exact contenido_vaciar c e.carne m

theorem perfilesSegun_congr (es : List Estudiante) (f g : String → List (RegistroHistorial F))
    (h : ∀ e ∈ es, f e.carne = g e.carne) : perfilesSegun es f = perfilesSegun es g := by
  induction es generalizing f g with
  | nil => rfl
  | cons e es ih =>
    simp only [perfilesSegun]
    rw [h e (List.mem_cons_self _ _)]
    congr 1
    apply ih
    intro x hx
    by_cases hc : x.carne = e.carne
    · simp [hc]
    · simp [hc, h x (List.mem_cons_of_mem _ hx)]

theorem foldl_pasoPerfil (es : List Estudiante) (m : MapaRegistros F)
    (ps : List (PerfilEstudiante F)) :
    (es.foldl pasoPerfil (m, ps)).2 = ps ++ perfilesSegun es (fun c => contenidoRegistros c m) := by
  induction es generalizing m ps with
  | nil => simp [perfilesSegun]
  | cons e es ih =>
    obtain ⟨h1, h2⟩ := pasoPerfil_spec m ps e
    rw [List.foldl_cons]
    have : pasoPerfil (m, ps) e = ((pasoPerfil (m, ps) e).1, (pasoPerfil (m, ps) e).2) := rfl
    rw [this, ih, h1, perfilesSegun, List.append_assoc, List.singleton_append]
    congr 2
    apply perfilesSegun_congr
    intro x _
    exact h2 x.carne

/-- The result of `cargarPerfiles` without the map: each student takes the
sub-sequence of the grade entries with its `carne`, unless an earlier student
with the same `carne` has taken it. -/
theorem cargarPerfiles_eq (estudiantes : List Estudiante)
    (registros : List (RegistroHistorial F)) :
    cargarPerfiles estudiantes registros =
      perfilesSegun estudiantes
        (fun c => registros.filter (fun r => r.carneEstudiante = c)) := by
  unfold cargarPerfiles
  rw [foldl_pasoPerfil, List.nil_append]
  apply perfilesSegun_congr
  intro e _
  exact contenido_agruparRegistros e.carne registros

end CargarPerfiles

/-! ## Properties of the computed profiles -/

section PropiedadesPerfiles

variable {F : Type} [Doble F]

theorem armarPerfil_estudiante (e : Estudiante) (h : List (RegistroHistorial F)) :
    (armarPerfil e (some h)).estudiante = e := by
  simp only [armarPerfil]
  split_ifs <;> rfl

theorem armarPerfil_historial (e : Estudiante) (h : List (RegistroHistorial F)) :
    (armarPerfil e (some h)).historial = h := by
  simp only [armarPerfil]
  split_ifs <;> rfl

/-- With pairwise distinct `carne` no student finds its vector moved out. -/
theorem perfilesSegun_nodup (es : List Estudiante) (f : String → List (RegistroHistorial F))
    (h : (es.map fun e => e.carne).Nodup) :
    perfilesSegun es f = es.map fun e => armarPerfil e (some (f e.carne)) := by
  induction es generalizing f with
  | nil => rfl
  | cons e es ih =>
    rw [List.map_cons, List.nodup_cons] at h
    rw [perfilesSegun, List.map_cons, ih _ h.2]
    congr 1
    apply List.map_congr_left
    intro x hx
    have hne : x.carne ≠ e.carne := by
      intro hc
      exact h.1 (List.mem_map.2 ⟨x, hx, hc⟩)
    simp [hne]

/-- Every computed profile is the one `armarPerfil` builds for its student
from the history it holds. -/
theorem perfilesSegun_forma (es : List Estudiante) (f : String → List (RegistroHistorial F)) :
    ∀ p ∈ perfilesSegun es f, p = armarPerfil p.estudiante (some p.historial) := by
  induction es generalizing f with
  | nil => intro p hp; cases hp
  | cons e es ih =>
    intro p hp
    rw [perfilesSegun, List.mem_cons] at hp
    rcases hp with hp | hp
    · rw [hp, armarPerfil_estudiante, armarPerfil_historial]
    · exact ih _ p hp

theorem acumularNotas_desde (h : List (RegistroHistorial F)) (s : F) (a : Nat) :
    h.foldl
        (fun acc entrada =>
          (Doble.suma acc.1 entrada.nota,
            if Doble.mayorIgual entrada.nota (Doble.deNat 70 : F) then acc.2 + 1 else acc.2))
        (s, a) =
      (h.foldl (fun suma entrada => Doble.suma suma entrada.nota) s,
        a + h.countP (fun entrada => Doble.mayorIgual entrada.nota (Doble.deNat 70 : F))) := by
  induction h generalizing s a with
  | nil => simp
  | cons x xs ih =>
    rw [List.foldl_cons, ih, List.foldl_cons, List.countP_cons]
    by_cases hx : Doble.mayorIgual x.nota (Doble.deNat 70 : F) = true
    · simp [hx]; omega
    · simp [hx]

/-- The two accumulators of the inner loop: the running sum of the grades,
added in order from `0.0`, and the number of grades `>= 70.0`. -/
theorem acumularNotas_eq (h : List (RegistroHistorial F)) :
    acumularNotas h =
      (h.foldl (fun suma entrada => Doble.suma suma entrada.nota) (Doble.deNat 0),
        h.countP (fun entrada => Doble.mayorIgual entrada.nota (Doble.deNat 70 : F))) := by
  unfold acumularNotas
  rw [acumularNotas_desde, Nat.zero_add]

end PropiedadesPerfiles

theorem filter_inserta {F : Type} {estudiantes : List Estudiante}
    {menor mayor : List (RegistroHistorial F)}
    (h : InsertaHuerfanos estudiantes menor mayor) :
    ∀ e ∈ estudiantes, mayor.filter (fun r => r.carneEstudiante = e.carne) =
      menor.filter (fun r => r.carneEstudiante = e.carne) := by
  induction h with
  | nil => intro e _; rfl
  | igual r menor mayor _ ih =>
    intro e he
    rw [List.filter_cons, List.filter_cons, ih e he]
  | huerfano r menor mayor hr _ ih =>
    intro e he
    have hne : ¬ r.carneEstudiante = e.carne := fun hc => hr e he hc.symm
    rw [List.filter_cons, ih e he]
    simp [hne]

/-- The profiles of the example: `A1` with mean 70 and pass ratio 1/2, `B2`
without statistics. -/
theorem cargarPerfiles_ejemplo :
    cargarPerfiles estudiantesEjemplo registrosEjemplo = [perfilA1, perfilB2] := by
  rw [cargarPerfiles_eq]
  simp [perfilesSegun, armarPerfil, acumularNotas, estudiantesEjemplo, registrosEjemplo,
    perfilA1, perfilB2, registroEjemplo, estudianteEjemplo, Doble.suma, Doble.cociente,
    Doble.deNat, Doble.mayorIgual]
  norm_num

/-- C7: for students with pairwise distinct `carne`, `cargarPerfiles` returns
one profile per student, in the order of the students; the `i`-th profile
holds the `i`-th student and, as its history, the grade entries whose
`carneEstudiante` is that student's `carne`, in their order. -/
theorem C7_un_perfil_por_estudiante {F : Type} [Doble F] (estudiantes : List Estudiante)
    (registros : List (RegistroHistorial F))
    (hS : (estudiantes.map fun e => e.carne).Nodup) :
    (cargarPerfiles estudiantes registros).length = estudiantes.length ∧
      ∀ i (hi : i < estudiantes.length),
        ∃ p, (cargarPerfiles estudiantes registros)[i]? = some p ∧
          p.estudiante = estudiantes[i] ∧
          p.historial = registros.filter (fun r => r.carneEstudiante = estudiantes[i].carne) := by
  rw [cargarPerfiles_eq, perfilesSegun_nodup _ _ hS]
  refine ⟨List.length_map _ _, ?_⟩
  intro i hi
  refine ⟨_, ?_, armarPerfil_estudiante _ _, armarPerfil_historial _ _⟩
  rw [List.getElem?_map, List.getElem?_eq_getElem hi]
  rfl

/-- C7 at the two example students with grades 60 and 80 for the first. -/
theorem C7_un_perfil_por_estudiante_witness :
    (estudiantesEjemplo.map fun e => e.carne).Nodup ∧
    (cargarPerfiles estudiantesEjemplo registrosEjemplo).length = estudiantesEjemplo.length ∧
      ∀ i (hi : i < estudiantesEjemplo.length),
        ∃ p, (cargarPerfiles estudiantesEjemplo registrosEjemplo)[i]? = some p ∧
          p.estudiante = estudiantesEjemplo[i] ∧
          p.historial =
            registrosEjemplo.filter (fun r => r.carneEstudiante = estudiantesEjemplo[i].carne) :=
  ⟨by decide, C7_un_perfil_por_estudiante estudiantesEjemplo registrosEjemplo (by decide)⟩

/-- C8: in every profile returned by `cargarPerfiles`, `promedio` is present
exactly when `tasaAprobacion` is present, exactly when the history is not
empty. -/
theorem C8_presencia_de_estadisticas {F : Type} [Doble F] (estudiantes : List Estudiante)
    (registros : List (RegistroHistorial F)) (p : PerfilEstudiante F)
    (hp : p ∈ cargarPerfiles estudiantes registros) :
    (p.promedio.isSome = true ↔ p.tasaAprobacion.isSome = true) ∧
      (p.tasaAprobacion.isSome = true ↔ p.historial ≠ []) := by
  rw [cargarPerfiles_eq] at hp
  have h := perfilesSegun_forma _ _ p hp
  rw [h]
  unfold armarPerfil
  cases hh : p.historial with
  | nil => simp
  | cons x xs => simp

/-- C8 at the profile of `A1`, which has two grades and both statistics. -/
theorem C8_presencia_de_estadisticas_witness :
    perfilA1 ∈ cargarPerfiles estudiantesEjemplo registrosEjemplo ∧
    (perfilA1.promedio.isSome = true ↔ perfilA1.tasaAprobacion.isSome = true) ∧
      (perfilA1.tasaAprobacion.isSome = true ↔ perfilA1.historial ≠ []) :=
  have hm : perfilA1 ∈ cargarPerfiles estudiantesEjemplo registrosEjemplo := by
    rw [cargarPerfiles_ejemplo]
    exact List.mem_cons_self _ _
  ⟨hm, C8_presencia_de_estadisticas estudiantesEjemplo registrosEjemplo perfilA1 hm⟩

/-- C10: inserting, anywhere among the grade entries, entries whose
`carneEstudiante` is the `carne` of no student leaves the result of
`cargarPerfiles` (a total function: it has no failing step) unchanged. -/
theorem C10_huerfanos_ignorados {F : Type} [Doble F] (estudiantes : List Estudiante)
    (registros registros' : List (RegistroHistorial F))
    (h : InsertaHuerfanos estudiantes registros registros') :
    cargarPerfiles estudiantes registros' = cargarPerfiles estudiantes registros := by
  rw [cargarPerfiles_eq, cargarPerfiles_eq]
  apply perfilesSegun_congr
  exact filter_inserta h

/-- C10 at the example students, with an entry for the unknown `Z9` inserted
between the two grades of `A1`. -/
theorem C10_huerfanos_ignorados_witness :
    InsertaHuerfanos estudiantesEjemplo registrosEjemplo registrosConHuerfano ∧
    cargarPerfiles estudiantesEjemplo registrosConHuerfano =
      cargarPerfiles estudiantesEjemplo registrosEjemplo :=
  have h : InsertaHuerfanos estudiantesEjemplo registrosEjemplo registrosConHuerfano :=
    InsertaHuerfanos.igual _ _ _
      (InsertaHuerfanos.huerfano _ _ _ (by decide)
        (InsertaHuerfanos.igual _ _ _ InsertaHuerfanos.nil))
  ⟨h, C10_huerfanos_ignorados estudiantesEjemplo registrosEjemplo registrosConHuerfano h⟩

/-! ## Key derivation: age brackets and direct fields -/

/-- C11: `rangoEdad` returns "Edad desconocida" for an age `<= 0`,
"Menor a 18" for `1..17`, "18-30" for `18..30`, "31-64" for `31..64` and
"65+" from 65 on; the five labels are pairwise distinct, and the label of a
profile for `RangoEdad` is `rangoEdad` of the student's age. -/
theorem C11_rangoEdad_por_tramos (edad : Int) :
    (edad ≤ 0 → rangoEdad edad = "Edad desconocida") ∧
    (1 ≤ edad ∧ edad ≤ 17 → rangoEdad edad = "Menor a 18") ∧
    (18 ≤ edad ∧ edad ≤ 30 → rangoEdad edad = "18-30") ∧
    (31 ≤ edad ∧ edad ≤ 64 → rangoEdad edad = "31-64") ∧
    (65 ≤ edad → rangoEdad edad = "65+") ∧
    ["Edad desconocida", "Menor a 18", "18-30", "31-64", "65+"].Nodup ∧
    (∀ (F : Type) [Doble F] (p : PerfilEstudiante F),
      valorClasificacion .RangoEdad p = rangoEdad p.estudiante.edad) := by
  refine ⟨?_, ?_, ?_, ?_, ?_, by decide, fun _ _ _ => rfl⟩
  · intro h
    simp [rangoEdad, h]
  · rintro ⟨h1, h2⟩
    have a : ¬ edad ≤ 0 := by omega
    have b : edad < 18 := by omega
    simp [rangoEdad, a, b]
  · rintro ⟨h1, h2⟩
    have a : ¬ edad ≤ 0 := by omega
    have b : ¬ edad < 18 := by omega
    simp [rangoEdad, a, b, h2]
  · rintro ⟨h1, h2⟩
    have a : ¬ edad ≤ 0 := by omega
    have b : ¬ edad < 18 := by omega
    have c : ¬ edad ≤ 30 := by omega
    simp [rangoEdad, a, b, c, h2]
  · intro h1
    have a : ¬ edad ≤ 0 := by omega
    have b : ¬ edad < 18 := by omega
    have c : ¬ edad ≤ 30 := by omega
    have d : ¬ edad ≤ 64 := by omega
    simp [rangoEdad, a, b, c, d]

theorem isEmpty_eq_false_iff (s : String) : s.isEmpty = false ↔ s ≠ "" := by
  rw [Ne, ← String.isEmpty_iff]
  simp

section Directas

variable {F : Type} [Doble F]

theorem valorClasificacion_directo {var : VariableClasificacion} {p : PerfilEstudiante F}
    {campo : String} (h : campoDirecto var p.estudiante = some campo) :
    valorClasificacion var p = if campo.isEmpty then "Sin registro" else campo := by
  cases var <;> simp only [campoDirecto, Option.some.injEq] at h <;>
    first
    | (subst h; rfl)
    | exact absurd h (by simp)

theorem rangoPromedio_no_vacio (m : Option F) : rangoPromedio m ≠ "" := by
  cases m with
  | none => show "Sin historial" ≠ ""; decide
  | some x =>
    simp only [rangoPromedio]
    split_ifs <;> decide

theorem rangoAprobacion_no_vacio (r : Option F) : rangoAprobacion r ≠ "" := by
  cases r with
  | none => show "Sin historial" ≠ ""; decide
  | some x =>
    simp only [rangoAprobacion]
    split_ifs <;> decide

theorem rangoEdad_no_vacio (edad : Int) : rangoEdad edad ≠ "" := by
  unfold rangoEdad
  split_ifs <;> decide

theorem sentinela_o_campo_no_vacio (campo : String) :
    (if campo.isEmpty then "Sin registro" else campo) ≠ "" := by
  by_cases h : campo.isEmpty = true
  · rw [if_pos h]; decide
  · rw [if_neg h]
    exact (isEmpty_eq_false_iff campo).1 (by simpa using h)

end Directas

/-- C14: for each of the five direct categorical variables,
`valorClasificacion` returns the student's field when it is not empty and
"Sin registro" when it is empty; for `Trabaja` it returns "Si" for a true flag
and "No" for a false one; for none of the nine variables is the result the
empty string. -/
theorem C14_campos_directos {F : Type} [Doble F] (p : PerfilEstudiante F) :
    (∀ var campo, campoDirecto var p.estudiante = some campo →
      (campo ≠ "" → valorClasificacion var p = campo) ∧
      (campo = "" → valorClasificacion var p = "Sin registro")) ∧
    (∀ var, (∃ campo, campoDirecto var p.estudiante = some campo) ↔
      var ∈ [VariableClasificacion.Genero, .Residencia, .TipoColegio, .EstadoCivil,
        .ColegioProcedencia]) ∧
    (p.estudiante.trabaja = true → valorClasificacion .Trabaja p = "Si") ∧
    (p.estudiante.trabaja = false → valorClasificacion .Trabaja p = "No") ∧
    (∀ var, valorClasificacion var p ≠ "") := by
  refine ⟨?_, ?_, ?_, ?_, ?_⟩
  · intro var campo h
    rw [valorClasificacion_directo h]
    constructor
    · intro hne
      rw [if_neg]
      rw [(isEmpty_eq_false_iff campo).2 hne]
      simp
    · intro he
      subst he
      rfl
  · intro var
    cases var <;> simp [campoDirecto]
  · intro h
    simp [valorClasificacion, h]
  · intro h
    simp [valorClasificacion, h]
  · intro var
    cases hc : campoDirecto var p.estudiante with
    | some campo =>
      rw [valorClasificacion_directo hc]
      exact sentinela_o_campo_no_vacio campo
    | none =>
      cases var <;>
        first
        | exact absurd hc (Option.some_ne_none _)
        | exact rangoEdad_no_vacio _
        | exact rangoPromedio_no_vacio _
        | exact rangoAprobacion_no_vacio _
        | (simp only [valorClasificacion]; split_ifs <;> decide)

/-! ## Key derivation: grade and pass-ratio brackets -/

theorem clamp_por_debajo {F : Type} [Doble F] (x : F) (h : Doble.menor x (Doble.deNat 0) = true) :
    clamp x (Doble.deNat 0) (Doble.deNat 100) = Doble.deNat 0 := by
  unfold clamp
  rw [h]
  rfl

section Tramos

variable {F : Type} [Doble F] [DobleOrdenado F]

theorem menor_literal (m n : Nat) (hm : m ≤ 100) (hn : n ≤ 100) (h : m < n) :
    Doble.menor (Doble.deNat m : F) (Doble.deNat n) = true := by
  rw [DobleOrdenado.menor_deNat m n hm hn]
  exact decide_eq_true h

theorem no_menor_literal (m n : Nat) (hm : m ≤ 100) (hn : n ≤ 100) (h : ¬ m < n) :
    Doble.menor (Doble.deNat m : F) (Doble.deNat n) = false := by
  rw [DobleOrdenado.menor_deNat m n hm hn]
  exact decide_eq_false h

/-- The decision of `rangoPromedio` on the clamped value. -/
theorem rangoPromedio_tramos (x : F) :
    (Doble.menor (clamp x (Doble.deNat 0) (Doble.deNat 100)) (Doble.deNat 60) = true →
      rangoPromedio (some x) = "0-59") ∧
    (Doble.mayorIgual (clamp x (Doble.deNat 0) (Doble.deNat 100)) (Doble.deNat 60) = true ∧
      Doble.menor (clamp x (Doble.deNat 0) (Doble.deNat 100)) (Doble.deNat 80) = true →
      rangoPromedio (some x) = "60-79") ∧
    (Doble.mayorIgual (clamp x (Doble.deNat 0) (Doble.deNat 100)) (Doble.deNat 80) = true →
      rangoPromedio (some x) = "80-100") := by
  refine ⟨?_, ?_, ?_⟩
  · intro h
    simp [rangoPromedio, h]
  · rintro ⟨h1, h2⟩
    have h3 := DobleOrdenado.mayorIgual_no_menor _ _ h1
    simp [rangoPromedio, h2, h3]
  · intro h1
    have h3 := DobleOrdenado.mayorIgual_no_menor _ _ h1
    have h4 : Doble.menor (clamp x (Doble.deNat 0) (Doble.deNat 100)) (Doble.deNat 60 : F) =
        false := by
      cases h : Doble.menor (clamp x (Doble.deNat 0) (Doble.deNat 100)) (Doble.deNat 60 : F) with
      | false => rfl
      | true =>
        have := DobleOrdenado.menor_trans _ _ _ h
          (menor_literal (F := F) 60 80 (by decide) (by decide) (by decide))
        rw [h3] at this
        exact absurd this (by decide)
    simp [rangoPromedio, h3, h4]

theorem clamp_literal (n : Nat) (hn : n ≤ 100) :
    clamp (Doble.deNat n : F) (Doble.deNat 0) (Doble.deNat 100) = Doble.deNat n := by
  unfold clamp
  rw [no_menor_literal n 0 hn (by decide) (by omega),
    no_menor_literal 100 n (by decide) hn (by omega)]
  rfl

theorem clamp_por_encima (x : F) (h : Doble.menor (Doble.deNat 100) x = true) :
    clamp x (Doble.deNat 0) (Doble.deNat 100) = Doble.deNat 100 := by
  have h0 : Doble.menor x (Doble.deNat 0 : F) = false := by
    cases h1 : Doble.menor x (Doble.deNat 0 : F) with
    | false => rfl
    | true =>
      have := DobleOrdenado.menor_trans _ _ _ h h1
      rw [no_menor_literal 100 0 (by decide) (by decide) (by decide)] at this
      exact absurd this (by decide)
  unfold clamp
  rw [h0, h]
  rfl

/-- The decision of `rangoAprobacion` on the clamped percentage. -/
theorem rangoAprobacion_tramos (q : F) :
    (Doble.menorIgual q (Doble.deNat 50) = true →
      (if Doble.menorIgual q (Doble.deNat 50 : F) then "0-50 %"
        else if Doble.menorIgual q (Doble.deNat 75 : F) then "51-75 %" else "76-100 %") =
        "0-50 %") ∧
    (Doble.menor (Doble.deNat 50) q = true ∧ Doble.menorIgual q (Doble.deNat 75) = true →
      (if Doble.menorIgual q (Doble.deNat 50 : F) then "0-50 %"
        else if Doble.menorIgual q (Doble.deNat 75 : F) then "51-75 %" else "76-100 %") =
        "51-75 %") ∧
    (Doble.menor (Doble.deNat 75) q = true →
      (if Doble.menorIgual q (Doble.deNat 50 : F) then "0-50 %"
        else if Doble.menorIgual q (Doble.deNat 75 : F) then "51-75 %" else "76-100 %") =
        "76-100 %") := by
  refine ⟨?_, ?_, ?_⟩
  · intro h
    simp [h]
  · rintro ⟨h1, h2⟩
    have h3 := DobleOrdenado.menor_no_menorIgual _ _ h1
    simp [h2, h3]
  · intro h1
    have h3 := DobleOrdenado.menor_no_menorIgual _ _ h1
    have h4 : Doble.menorIgual q (Doble.deNat 50 : F) = false := by
      cases h : Doble.menorIgual q (Doble.deNat 50 : F) with
      | false => rfl
      | true =>
        have := DobleOrdenado.menor_menorIgual _ _ _ h1 h
        rw [no_menor_literal 75 50 (by decide) (by decide) (by decide)] at this
        exact absurd this (by decide)
    simp [h3, h4]

end Tramos

theorem clamp_racional (x : ℚ) :
    clamp x (Doble.deNat 0) (Doble.deNat 100) = max 0 (min x 100) := by
  unfold clamp
  show (if decide (x < ((0 : ℕ) : ℚ)) = true then ((0 : ℕ) : ℚ)
    else if decide (((100 : ℕ) : ℚ) < x) = true then ((100 : ℕ) : ℚ) else x) = _
  simp only [decide_eq_true_eq, Nat.cast_zero, Nat.cast_ofNat]
  split_ifs with h1 h2
  · rw [min_eq_left (by linarith), max_eq_left (by linarith)]
  · rw [min_eq_right (by linarith), max_eq_right (by norm_num)]
  · rw [min_eq_left (by linarith), max_eq_right (by linarith)]

/-- C12: `rangoPromedio` returns "Sin historial" for an absent mean;
otherwise, with `c` the mean clamped to `[0, 100]`, it returns "0-59" when
`c < 60`, "60-79" when `60 <= c < 80` and "80-100" when `c >= 80`. This holds
for every `double` arithmetic with the comparison laws of `DobleOrdenado`,
where also a mean of exactly 60 gives "60-79", exactly 80 gives "80-100", a
mean below 0 gives "0-59" and a mean above 100 gives "80-100"; and it holds
in exact arithmetic with the usual order. -/
theorem C12_rangoPromedio_por_tramos :
    (∀ (F : Type) [Doble F] [DobleOrdenado F],
      rangoPromedio (none : Option F) = "Sin historial" ∧
      (∀ x : F,
        (Doble.menor (clamp x (Doble.deNat 0) (Doble.deNat 100)) (Doble.deNat 60) = true →
          rangoPromedio (some x) = "0-59") ∧
        (Doble.mayorIgual (clamp x (Doble.deNat 0) (Doble.deNat 100)) (Doble.deNat 60) = true ∧
          Doble.menor (clamp x (Doble.deNat 0) (Doble.deNat 100)) (Doble.deNat 80) = true →
          rangoPromedio (some x) = "60-79") ∧
        (Doble.mayorIgual (clamp x (Doble.deNat 0) (Doble.deNat 100)) (Doble.deNat 80) = true →
          rangoPromedio (some x) = "80-100") ∧
        (Doble.menor x (Doble.deNat 0) = true → rangoPromedio (some x) = "0-59") ∧
        (Doble.menor (Doble.deNat 100) x = true → rangoPromedio (some x) = "80-100")) ∧
      rangoPromedio (some (Doble.deNat 60 : F)) = "60-79" ∧
      rangoPromedio (some (Doble.deNat 80 : F)) = "80-100") ∧
    (∀ x : ℚ,
      (max 0 (min x 100) < 60 → rangoPromedio (some x) = "0-59") ∧
      (60 ≤ max 0 (min x 100) ∧ max 0 (min x 100) < 80 → rangoPromedio (some x) = "60-79") ∧
      (80 ≤ max 0 (min x 100) → rangoPromedio (some x) = "80-100")) := by
  have general : ∀ (F : Type) [Doble F] [DobleOrdenado F] (x : F),
      (Doble.menor (clamp x (Doble.deNat 0) (Doble.deNat 100)) (Doble.deNat 60) = true →
        rangoPromedio (some x) = "0-59") ∧
      (Doble.mayorIgual (clamp x (Doble.deNat 0) (Doble.deNat 100)) (Doble.deNat 60) = true ∧
        Doble.menor (clamp x (Doble.deNat 0) (Doble.deNat 100)) (Doble.deNat 80) = true →
        rangoPromedio (some x) = "60-79") ∧
      (Doble.mayorIgual (clamp x (Doble.deNat 0) (Doble.deNat 100)) (Doble.deNat 80) = true →
        rangoPromedio (some x) = "80-100") := fun F _ _ x => rangoPromedio_tramos x
  constructor
  · intro F _ _
    refine ⟨rfl, ?_, ?_, ?_⟩
    · intro x
      obtain ⟨h1, h2, h3⟩ := general F x
      refine ⟨h1, h2, h3, ?_, ?_⟩
      · intro h
        simp only [rangoPromedio, clamp_por_debajo x h]
        rw [menor_literal 0 60 (by decide) (by decide) (by decide)]
        rfl
      · intro h
        simp only [rangoPromedio, clamp_por_encima x h]
        rw [no_menor_literal 100 60 (by decide) (by decide) (by decide),
          no_menor_literal 100 80 (by decide) (by decide) (by decide)]
        rfl
    · simp only [rangoPromedio, clamp_literal 60 (by decide)]
      rw [no_menor_literal 60 60 (by decide) (by decide) (by decide),
        menor_literal 60 80 (by decide) (by decide) (by decide)]
      rfl
    · simp only [rangoPromedio, clamp_literal 80 (by decide)]
      rw [no_menor_literal 80 60 (by decide) (by decide) (by decide),
        no_menor_literal 80 80 (by decide) (by decide) (by decide)]
      rfl
  · intro x
    obtain ⟨h1, h2, h3⟩ := general ℚ x
    rw [clamp_racional] at h1 h2 h3
    refine ⟨?_, ?_, ?_⟩
    · intro h
      apply h1
      show decide (max 0 (min x 100) < ((60 : ℕ) : ℚ)) = true
      exact decide_eq_true (by simpa using h)
    · rintro ⟨ha, hb⟩
      apply h2
      constructor
      · show decide (max 0 (min x 100) ≥ ((60 : ℕ) : ℚ)) = true
        exact decide_eq_true (by simpa using ha)
      · show decide (max 0 (min x 100) < ((80 : ℕ) : ℚ)) = true
        exact decide_eq_true (by simpa using hb)
    · intro h
      apply h3
      show decide (max 0 (min x 100) ≥ ((80 : ℕ) : ℚ)) = true
      exact decide_eq_true (by simpa using h)

/-- C12 in exact arithmetic at the boundary and outside values: 60, 80, a
negative mean and a mean above 100. -/
theorem C12_rangoPromedio_por_tramos_witness :
    rangoPromedio (some (60 : ℚ)) = "60-79" ∧ rangoPromedio (some (80 : ℚ)) = "80-100" ∧
      rangoPromedio (some (-5 : ℚ)) = "0-59" ∧ rangoPromedio (some (120 : ℚ)) = "80-100" :=
  ⟨(C12_rangoPromedio_por_tramos.2 60).2.1 (by norm_num),
    (C12_rangoPromedio_por_tramos.2 80).2.2 (by norm_num),
    (C12_rangoPromedio_por_tramos.2 (-5)).1 (by norm_num),
    (C12_rangoPromedio_por_tramos.2 120).2.2 (by norm_num)⟩

/-- C13: `rangoAprobacion` returns "Sin historial" for an absent ratio;
otherwise, with `q` the ratio times 100 clamped to `[0, 100]`, it returns
"0-50 %" when `q <= 50`, "51-75 %" when `50 < q <= 75` and "76-100 %" when
`q > 75`. This holds for every `double` arithmetic with the comparison laws
of `DobleOrdenado`, and in exact arithmetic, where the ratios 1/2 and 3/4
fall in the lower bracket of their boundary. -/
theorem C13_rangoAprobacion_por_tramos :
    (∀ (F : Type) [Doble F] [DobleOrdenado F],
      rangoAprobacion (none : Option F) = "Sin historial" ∧
      ∀ r : F,
        (Doble.menorIgual
            (clamp (Doble.producto r (Doble.deNat 100)) (Doble.deNat 0) (Doble.deNat 100))
            (Doble.deNat 50) = true →
          rangoAprobacion (some r) = "0-50 %") ∧
        (Doble.menor (Doble.deNat 50)
            (clamp (Doble.producto r (Doble.deNat 100)) (Doble.deNat 0) (Doble.deNat 100)) = true ∧
          Doble.menorIgual
            (clamp (Doble.producto r (Doble.deNat 100)) (Doble.deNat 0) (Doble.deNat 100))
            (Doble.deNat 75) = true →
          rangoAprobacion (some r) = "51-75 %") ∧
        (Doble.menor (Doble.deNat 75)
            (clamp (Doble.producto r (Doble.deNat 100)) (Doble.deNat 0) (Doble.deNat 100)) = true →
          rangoAprobacion (some r) = "76-100 %")) ∧
    (∀ r : ℚ,
      (max 0 (min (r * 100) 100) ≤ 50 → rangoAprobacion (some r) = "0-50 %") ∧
      (50 < max 0 (min (r * 100) 100) ∧ max 0 (min (r * 100) 100) ≤ 75 →
        rangoAprobacion (some r) = "51-75 %") ∧
      (75 < max 0 (min (r * 100) 100) → rangoAprobacion (some r) = "76-100 %")) ∧
    rangoAprobacion (some (1 / 2 : ℚ)) = "0-50 %" ∧
    rangoAprobacion (some (3 / 4 : ℚ)) = "51-75 %" := by
  have general : ∀ (F : Type) [Doble F] [DobleOrdenado F] (r : F),
      (Doble.menorIgual
          (clamp (Doble.producto r (Doble.deNat 100)) (Doble.deNat 0) (Doble.deNat 100))
          (Doble.deNat 50) = true →
        rangoAprobacion (some r) = "0-50 %") ∧
      (Doble.menor (Doble.deNat 50)
          (clamp (Doble.producto r (Doble.deNat 100)) (Doble.deNat 0) (Doble.deNat 100)) = true ∧
        Doble.menorIgual
          (clamp (Doble.producto r (Doble.deNat 100)) (Doble.deNat 0) (Doble.deNat 100))
          (Doble.deNat 75) = true →
        rangoAprobacion (some r) = "51-75 %") ∧
      (Doble.menor (Doble.deNat 75)
          (clamp (Doble.producto r (Doble.deNat 100)) (Doble.deNat 0) (Doble.deNat 100)) = true →
        rangoAprobacion (some r) = "76-100 %") := fun F _ _ r =>
    rangoAprobacion_tramos
      (clamp (Doble.producto r (Doble.deNat 100)) (Doble.deNat 0) (Doble.deNat 100))
  have racional : ∀ r : ℚ,
      (max 0 (min (r * 100) 100) ≤ 50 → rangoAprobacion (some r) = "0-50 %") ∧
      (50 < max 0 (min (r * 100) 100) ∧ max 0 (min (r * 100) 100) ≤ 75 →
        rangoAprobacion (some r) = "51-75 %") ∧
      (75 < max 0 (min (r * 100) 100) → rangoAprobacion (some r) = "76-100 %") := by
    intro r
    obtain ⟨h1, h2, h3⟩ := general ℚ r
    rw [clamp_racional] at h1 h2 h3
    have hprod : Doble.producto r (Doble.deNat 100 : ℚ) = r * 100 := by
      show r * ((100 : ℕ) : ℚ) = r * 100
      norm_num
    rw [hprod] at h1 h2 h3
    refine ⟨?_, ?_, ?_⟩
    · intro h
      apply h1
      show decide (max 0 (min (r * 100) 100) ≤ ((50 : ℕ) : ℚ)) = true
      exact decide_eq_true (by simpa using h)
    · rintro ⟨ha, hb⟩
      apply h2
      constructor
      · show decide (((50 : ℕ) : ℚ) < max 0 (min (r * 100) 100)) = true
        exact decide_eq_true (by simpa using ha)
      · show decide (max 0 (min (r * 100) 100) ≤ ((75 : ℕ) : ℚ)) = true
        exact decide_eq_true (by simpa using hb)
    · intro h
      apply h3
      show decide (((75 : ℕ) : ℚ) < max 0 (min (r * 100) 100)) = true
      exact decide_eq_true (by simpa using h)
  refine ⟨fun F _ _ => ⟨rfl, general F⟩, racional, ?_, ?_⟩
  · exact (racional (1 / 2)).1 (by norm_num)
  · exact (racional (3 / 4)).2.1 (by norm_num)

/-- C13 in exact arithmetic at the ratios 1/2, 3/4, 1 and 0. -/
theorem C13_rangoAprobacion_por_tramos_witness :
    rangoAprobacion (some (1 / 2 : ℚ)) = "0-50 %" ∧
      rangoAprobacion (some (3 / 4 : ℚ)) = "51-75 %" ∧
      rangoAprobacion (some (1 : ℚ)) = "76-100 %" ∧
      rangoAprobacion (some (0 : ℚ)) = "0-50 %" :=
  ⟨C13_rangoAprobacion_por_tramos.2.2.1, C13_rangoAprobacion_por_tramos.2.2.2,
    (C13_rangoAprobacion_por_tramos.2.1 1).2.2 (by norm_num),
    (C13_rangoAprobacion_por_tramos.2.1 0).1 (by norm_num)⟩

/-! ## Pointers, paths and the leaf report -/

/-- Structural induction on trees: a property holds of every node if it
holds of a node whenever it holds of its children. -/
theorem NodoArbolClasificacion.induccion {P : NodoArbolClasificacion → Prop}
    (h : ∀ e v i hs n, (∀ x ∈ hs, P x) → P (.mk e v i hs n)) :
    ∀ t, P t := by
  intro t
  refine NodoArbolClasificacion.rec (motive_1 := P) (motive_2 := fun l => ∀ x ∈ l, P x)
    ?_ ?_ ?_ t
  · intro e v i hs n ih
    exact h e v i hs n ih
  · intro x hx
    cases hx
  · intro head tail ihh iht x hx
    rcases List.mem_cons.1 hx with hx | hx
    · rw [hx]; exact ihh
    · exact iht x hx

theorem subirHastaRaiz_nodos (n : NodoArbolClasificacion) (ancestros : List NodoArbolClasificacion) :
    (subirHastaRaiz n ancestros).map (fun p => p.nodo) = n :: ancestros := by
  induction ancestros generalizing n with
  | nil => rfl
  | cons a resto ih => simp [subirHastaRaiz, ih]

/-- Following `padre` from a node and reversing gives the nodes of the path
from the root to the node. -/
theorem rutaHastaRaiz_nodos (p : Puntero) :
    (rutaHastaRaiz p).map (fun q => q.nodo) = (p.nodo :: p.ancestros).reverse := by
  unfold rutaHastaRaiz
  rw [List.map_reverse, subirHastaRaiz_nodos]

theorem rutas_no_vacia (x : NodoArbolClasificacion) : ∀ r ∈ rutas x, r ≠ [] := by
  intro r hr
  obtain ⟨resto, h⟩ := rutas_cabeza x r hr
  rw [h]
  exact List.cons_ne_nil _ _

theorem recolectarHojas_no_vacio (t : NodoArbolClasificacion) : recolectarHojas t ≠ [] := by
  induction t using NodoArbolClasificacion.induccion with
  | h e v i hs n ih =>
    cases hs with
    | nil => simp [recolectarHojas]
    | cons x xs =>
      rw [recolectarHojas_cons _ _ _ _ _ (List.cons_ne_nil _ _), List.flatMap_cons]
      intro h0
      exact ih x (List.mem_cons_self _ _) (List.append_eq_nil.1 h0).1

/-- The path lines written by `opcionPorcentajesCondicionados`, when every
node carries the variable of its position in `orden`. -/
theorem pasosRuta_eq {F : Type} (ps : List Puntero) :
    ∀ orden : List VariableClasificacion,
      (∀ (j : Nat) (p : Puntero), ps[j]? = some p → ∃ var, orden[j]? = some var ∧ p.nodo.variable_ = some var) →
      pasosRuta (F := F) ps = some
        (((ps.map fun p => p.nodo).zip orden).map fun par =>
          Salida.pasoRuta (variableComoCadena par.2) par.1.etiqueta) := by
  induction ps with
  | nil => intro orden _; rfl
  | cons p resto ih =>
    intro orden h
    obtain ⟨var, hv, hp⟩ := h 0 p (List.getElem?_cons_zero ..)
    cases orden with
    | nil => simp at hv
    | cons w ws =>
      simp only [List.getElem?_cons_zero, Option.some.injEq] at hv
      subst hv
      have hresto : ∀ (j : Nat) (q : Puntero), resto[j]? = some q →
          ∃ var, ws[j]? = some var ∧ q.nodo.variable_ = some var := by
        intro j q hq
        have := h (j + 1) q (by simpa using hq)
        simpa using this
      simp only [pasosRuta, hp, ih ws hresto]
      rfl

section Reporte

variable {F : Type} [Doble F]

/-- In a built tree the nodes after the root of a path carry the variables
of the ordering, in order. -/
theorem variables_en_ruta {perfiles : List (PerfilEstudiante F)}
    {orden : List VariableClasificacion} {t : NodoArbolClasificacion}
    (ht : construirArbolClasificacion perfiles orden = some t) {ruta : List NodoArbolClasificacion}
    (hr : ruta ∈ rutas t) :
    ∀ (j : Nat) (nodo : NodoArbolClasificacion), ruta.tail[j]? = some nodo →
      ∃ var, orden[j]? = some var ∧ nodo.variable_ = some var := by
  obtain ⟨hc, _, _, _, hn⟩ := construirArbolClasificacion_construido ht
  obtain ⟨hA, _⟩ := construido_rutas hc ruta hr
  intro j nodo hj
  have hj : ruta[j + 1]? = some nodo := by
    cases ruta with
    | nil => simp at hj
    | cons x xs => simpa using hj
  obtain ⟨var, h1, h2, _⟩ := hA j nodo hj
  rw [hn, Nat.zero_add] at h1
  exact ⟨var, h1, h2⟩

theorem variables_en_puntero {perfiles : List (PerfilEstudiante F)}
    {orden : List VariableClasificacion} {t : NodoArbolClasificacion}
    (ht : construirArbolClasificacion perfiles orden = some t) {p : Puntero}
    (hp : PunteroValido t p) :
    ∀ (j : Nat) (q : Puntero), (rutaHastaRaiz p).tail[j]? = some q →
      ∃ var, orden[j]? = some var ∧ q.nodo.variable_ = some var := by
  intro j q hq
  apply variables_en_ruta ht hp j q.nodo
  rw [← rutaHastaRaiz_nodos, ← List.map_tail, List.getElem?_map, hq]
  rfl

end Reporte

section ReporteHojas

variable {F : Type} [Doble F]

end ReporteHojas

theorem rutas_unitaria (t : NodoArbolClasificacion) : [t] ∈ rutas t := by
  cases t with
  | mk e v i hs n => rw [rutas_mk]; exact List.mem_cons_self _ _

theorem valido_raiz (t : NodoArbolClasificacion) : PunteroValido t ⟨t, []⟩ :=
  rutas_unitaria t

/-- A path of a tree followed by a child of its last node is a path. -/
theorem rutas_extender (t : NodoArbolClasificacion) :
    ∀ r ∈ rutas t, ∀ n h, r.getLast? = some n → h ∈ n.hijos → r ++ [h] ∈ rutas t := by
  induction t using NodoArbolClasificacion.induccion with
  | h e v i hs n ih =>
    intro r hr m c hlast hc
    rw [rutas_mk, List.mem_cons] at hr
    rw [rutas_mk]
    rcases hr with hr | hr
    · subst hr
      simp only [List.getLast?_singleton, Option.some.injEq] at hlast
      subst hlast
      refine List.mem_cons_of_mem _ (List.mem_map.2 ⟨[c], ?_, rfl⟩)
      exact List.mem_flatMap.2 ⟨c, hc, rutas_unitaria c⟩
    · obtain ⟨r1, hr1, hr2⟩ := List.mem_map.1 hr
      obtain ⟨x, hx, hrx⟩ := List.mem_flatMap.1 hr1
      obtain ⟨resto, hresto⟩ := rutas_cabeza x r1 hrx
      subst hr2
      have hlast1 : r1.getLast? = some m := by
        rw [hresto] at hlast ⊢
        simpa [List.getLast?_cons_cons] using hlast
      have := ih x hx r1 hrx m c hlast1 hc
      refine List.mem_cons_of_mem _ (List.mem_map.2 ⟨r1 ++ [c], ?_, rfl⟩)
      exact List.mem_flatMap.2 ⟨x, hx, this⟩

/-- The last node of a path of a tree is a node of the tree. -/
theorem rutas_ultimo (t : NodoArbolClasificacion) :
    ∀ r ∈ rutas t, ∀ n, r.getLast? = some n → n ∈ nodos t := by
  induction t using NodoArbolClasificacion.induccion with
  | h e v i hs n ih =>
    intro r hr m hlast
    rw [rutas_mk, List.mem_cons] at hr
    rw [nodos_mk]
    rcases hr with hr | hr
    · subst hr
      simp only [List.getLast?_singleton, Option.some.injEq] at hlast
      subst hlast
      exact List.mem_cons_self _ _
    · obtain ⟨r1, hr1, hr2⟩ := List.mem_map.1 hr
      obtain ⟨x, hx, hrx⟩ := List.mem_flatMap.1 hr1
      obtain ⟨resto, hresto⟩ := rutas_cabeza x r1 hrx
      subst hr2
      have hlast1 : r1.getLast? = some m := by
        rw [hresto] at hlast ⊢
        simpa [List.getLast?_cons_cons] using hlast
      exact List.mem_cons_of_mem _ (List.mem_flatMap.2 ⟨x, hx, ih x hx r1 hrx m hlast1⟩)

theorem valido_nodo {t : NodoArbolClasificacion} {p : Puntero} (hp : PunteroValido t p) :
    p.nodo ∈ nodos t :=
  rutas_ultimo t _ hp p.nodo (by simp)

theorem hijo_eq {p h : Puntero} {i : Nat} (hh : p.hijo i = some h) :
    p.nodo.hijos[i]? = some h.nodo ∧ h.ancestros = p.nodo :: p.ancestros := by
  unfold Puntero.hijo at hh
  cases hc : p.nodo.hijos[i]? with
  | none => simp [hc] at hh
  | some c =>
    simp only [hc, Option.some.injEq] at hh
    subst hh
    exact ⟨rfl, rfl⟩

theorem valido_hijo {t : NodoArbolClasificacion} {p h : Puntero} {i : Nat}
    (hp : PunteroValido t p) (hh : p.hijo i = some h) : PunteroValido t h := by
  obtain ⟨h1, h2⟩ := hijo_eq hh
  unfold PunteroValido at hp ⊢
  rw [h2, List.reverse_cons]
  exact rutas_extender t _ hp p.nodo h.nodo (by simp) (List.getElem?_mem h1)

theorem hijo_padre {p h : Puntero} {i : Nat} (hh : p.hijo i = some h) : h.padre = some p := by
  obtain ⟨_, h2⟩ := hijo_eq hh
  unfold Puntero.padre
  rw [h2]

theorem recortar_vacia : recortar "" = "" := by decide

section Navegar

variable {F : Type}

/-- A node of a built tree with a child: the variables still to visit start
with the variable of its level, and the child is one level deeper. -/
theorem nivel_de_hijo [Doble F] {perfiles : List (PerfilEstudiante F)}
    {orden : List VariableClasificacion} {t : NodoArbolClasificacion}
    (ht : construirArbolClasificacion perfiles orden = some t) {p h : Puntero} {i : Nat}
    (hp : PunteroValido t p) (hh : p.hijo i = some h) :
    ∃ var, orden.drop p.nodo.nivel = var :: orden.drop h.nodo.nivel ∧
      p.nodo.indicesEstudiantes ≠ [] := by
  obtain ⟨h1, _⟩ := hijo_eq hh
  obtain ⟨hc, hn, _⟩ := arbol_nodos ht p.nodo (valido_nodo hp)
  have hne : p.nodo.hijos ≠ [] := by
    intro h0
    rw [h0] at h1
    simp at h1
  have hind : p.nodo.indicesEstudiantes ≠ [] := by
    intro h0
    exact hne ((construido_terminal_iff hc hn).2 (Or.inl h0))
  have hmem : h.nodo ∈ p.nodo.hijos := List.getElem?_mem h1
  generalize p.nodo = N at hc hne hmem hind ⊢
  cases hc with
  | terminal e v i n _ => exact absurd rfl hne
  | interno e v i n var hs hv _ _ hniv _ =>
    refine ⟨var, ?_, hind⟩
    have hlt : n < orden.length := (List.getElem?_eq_some.1 hv).1
    have hget : orden[n] = var := by
      have := List.getElem?_eq_getElem hlt
      rw [hv] at this
      exact (Option.some.inj this).symm
    rw [hniv h.nodo hmem]
    show orden.drop n = var :: orden.drop (n + 1)
    rw [← hget]
    exact List.drop_eq_getElem_cons hlt

/-- A line that selects a child moves the selection loop to that child, with
the current node as `padre`. -/
theorem navegar_paso [Doble F] {perfiles : List (PerfilEstudiante F)}
    {orden : List VariableClasificacion} {t : NodoArbolClasificacion}
    (ht : construirArbolClasificacion perfiles orden = some t) {p h : Puntero}
    (hp : PunteroValido t p) (padre : Option Puntero) {linea : String} {k : Int}
    (hsel : Selecciona linea k) (hk : 1 ≤ k) (hh : p.hijo (k - 1).toNat = some h)
    (entradas : List String) :
    ∃ menu : Salida F, EsMenu menu ∧
      navegar (orden.drop p.nodo.nivel) p padre (linea :: entradas) =
        ⟨menu :: (navegar (orden.drop h.nodo.nivel) h (some p) entradas).salida,
          (navegar (orden.drop h.nodo.nivel) h (some p) entradas : Navegacion F).destino⟩ := by
  obtain ⟨var, hdrop, _⟩ := nivel_de_hijo ht hp hh
  obtain ⟨h1, _⟩ := hijo_eq hh
  have hlen : (k - 1).toNat < p.nodo.hijos.length := (List.getElem?_eq_some.1 h1).1
  have hne : p.nodo.hijos.isEmpty = false := by
    cases hc : p.nodo.hijos with
    | nil => rw [hc] at hlen; simp at hlen
    | cons x xs => rfl
  have hvac : (recortar linea).isEmpty = false := (isEmpty_eq_false_iff _).2 hsel.1
  have hrango : ¬ (k < 1 ∨ (p.nodo.hijos.length : Int) < k) := by
    omega
  refine ⟨Salida.opciones (variableComoCadena var)
    (p.nodo.hijos.map fun h => (h.etiqueta, h.indicesEstudiantes.length)), ⟨_, _, rfl⟩, ?_⟩
  rw [hdrop]
  simp only [navegar, hne, Bool.false_eq_true, if_false, List.headD_cons, hvac, hsel.2,
    hrango, hh, List.tail_cons]

/-- A line that is not empty once trimmed and from which `std::stoi` reads no
number, or reads a number that is not the number of a child, ends the
selection loop without a destination. -/
theorem navegar_invalida (var : VariableClasificacion) (niveles : List VariableClasificacion)
    (p : Puntero) (padre : Option Puntero) (linea : String) (entradas : List String)
    (hhijos : p.nodo.hijos ≠ []) (hvacia : recortar linea ≠ "")
    (hmal : stoi (recortar linea) = none ∨
      ∃ v, stoi (recortar linea) = some v ∧ (v < 1 ∨ (p.nodo.hijos.length : Int) < v)) :
    navegar (F := F) (var :: niveles) p padre (linea :: entradas) =
      ⟨[Salida.opciones (variableComoCadena var)
          (p.nodo.hijos.map fun h => (h.etiqueta, h.indicesEstudiantes.length)),
        Salida.texto mensajeSeleccionInvalida], none⟩ := by
  have hne : p.nodo.hijos.isEmpty = false := by
    cases hc : p.nodo.hijos with
    | nil => exact absurd hc hhijos
    | cons x xs => rfl
  have hvac : (recortar linea).isEmpty = false := (isEmpty_eq_false_iff _).2 hvacia
  rcases hmal with hs | ⟨v, hs, hv⟩
  · simp only [navegar, hne, Bool.false_eq_true, if_false, List.headD_cons, hvac, hs]
  · simp only [navegar, hne, Bool.false_eq_true, if_false, List.headD_cons, hvac, hs, hv,
      if_true]

/-- Lines that select children one after another take the selection loop to
the node reached by following those children, where it goes on with the rest
of the input; `padre` is then the parent of that node, which has students. -/
theorem navegar_prefijo [Doble F] {perfiles : List (PerfilEstudiante F)}
    {orden : List VariableClasificacion} {t : NodoArbolClasificacion}
    (ht : construirArbolClasificacion perfiles orden = some t) (resto : List String) :
    ∀ (ks : List Int) (lineas : List String) (p : Puntero) (padre : Option Puntero)
      (destino : Puntero),
      PunteroValido t p → List.Forall₂ Selecciona lineas ks → descender p ks = some destino →
      ∃ menus : List (Salida F), (∀ s ∈ menus, EsMenu s) ∧
        navegar (orden.drop p.nodo.nivel) p padre (lineas ++ resto) =
          ⟨menus ++ (navegar (orden.drop destino.nodo.nivel) destino
              (if ks = [] then padre else destino.padre) resto).salida,
            (navegar (orden.drop destino.nodo.nivel) destino
              (if ks = [] then padre else destino.padre) resto : Navegacion F).destino⟩ ∧
        PunteroValido t destino ∧
        (ks ≠ [] → ∀ a, destino.padre = some a → a.nodo.indicesEstudiantes ≠ []) := by
  intro ks
  induction ks with
  | nil =>
    intro lineas p padre destino hp hl hd
    cases hl
    simp only [descender, Option.some.injEq] at hd
    subst hd
    exact ⟨[], by simp, by simp, hp, fun h => absurd rfl h⟩
  | cons k ks ih =>
    intro lineas p padre destino hp hl hd
    cases hl with
    | cons hsel hresto =>
      rename_i linea ls
      rw [descender] at hd
      by_cases hk : k < 1
      · rw [if_pos hk] at hd
        exact absurd hd (by simp)
      · rw [if_neg hk] at hd
        cases hh : p.hijo (k - 1).toNat with
        | none =>
          rw [hh] at hd
          exact absurd hd (by simp)
        | some h =>
          rw [hh] at hd
          change descender h ks = some destino at hd
          obtain ⟨menu, hmenu, hpaso⟩ :=
            navegar_paso ht hp padre hsel (by omega) hh (ls ++ resto)
          obtain ⟨menus, hm, hn, hv, hpadre⟩ :=
            ih ls h (some p) destino (valido_hijo hp hh) hresto hd
          have hdest : (if ks = [] then some p else destino.padre) = destino.padre := by
            by_cases hks : ks = []
            · subst hks
              simp only [descender, Option.some.injEq] at hd
              subst hd
              simp [hijo_padre hh]
            · simp [hks]
          refine ⟨menu :: menus, ?_, ?_, hv, ?_⟩
          · intro s hs
            rcases List.mem_cons.1 hs with hs | hs
            · rw [hs]; exact hmenu
            · exact hm s hs
          · rw [List.cons_append, hpaso, hn, hdest]
            simp
          · intro _ a ha
            by_cases hks : ks = []
            · subst hks
              simp only [descender, Option.some.injEq] at hd
              subst hd
              rw [hijo_padre hh, Option.some.injEq] at ha
              subst ha
              exact (nivel_de_hijo ht hp hh).choose_spec.2
            · exact hpadre hks a ha

/-- A node of a built tree with children is at a level that the ordering
still has to apply. -/
theorem niveles_con_hijos [Doble F] {perfiles : List (PerfilEstudiante F)}
    {orden : List VariableClasificacion} {t : NodoArbolClasificacion}
    (ht : construirArbolClasificacion perfiles orden = some t) {p : Puntero}
    (hp : PunteroValido t p) (hh : p.nodo.hijos ≠ []) :
    ∃ var, orden.drop p.nodo.nivel = var :: orden.drop (p.nodo.nivel + 1) := by
  obtain ⟨hc, _, _⟩ := arbol_nodos ht p.nodo (valido_nodo hp)
  generalize p.nodo = N at hc hh ⊢
  cases hc with
  | terminal e v i n _ => exact absurd rfl hh
  | interno e v i n var hs hv _ _ _ _ =>
    have hlt : n < orden.length := (List.getElem?_eq_some.1 hv).1
    have hget : orden[n] = var := by
      have := List.getElem?_eq_getElem hlt
      rw [hv] at this
      exact (Option.some.inj this).symm
    refine ⟨var, ?_⟩
    show orden.drop n = var :: orden.drop (n + 1)
    rw [← hget]
    exact List.drop_eq_getElem_cons hlt

end Navegar

section Consulta

variable {F : Type} [Doble F]

end Consulta

/-- C18, as stated, fails: "1abc" and "1.5" are not decimal representations
of an integer, they are left as they are by `recortar`, and yet on the
example tree, whose root has two children, the path query takes each of them
as the selection of the first child: it writes a report with percentages and
not the message of the invalid selection. -/
theorem C18_contraejemplo :
    ¬ RepresentaEntre "1abc" 2 ∧ ¬ RepresentaEntre "1.5" 2 ∧
    recortar "1abc" = "1abc" ∧ recortar "1.5" = "1.5" ∧
    arbolEjemplo.hijos.length = 2 ∧
    (∃ salida : List (Salida ℚ),
      opcionPorcentajesCondicionados (some arbolEjemplo) [.Genero, .RangoEdad] ["1abc"] =
        some salida ∧
      opcionPorcentajesCondicionados (some arbolEjemplo) [.Genero, .RangoEdad] ["1.5"] =
        some salida ∧
      salida =
        [Salida.opciones "Genero" [("F", 2), ("M", 1)],
          Salida.opciones "Rango de edad" [("18-30", 1), ("Menor a 18", 1)],
          Salida.texto "Ruta seleccionada:",
          Salida.pasoRuta "Genero" "F",
          Salida.porcentajeTotal
            (Doble.producto (Doble.cociente (Doble.deNat 2) (Doble.deNat 3)) (Doble.deNat 100)),
          Salida.porcentajeCondicionado
            (Doble.producto (Doble.cociente (Doble.deNat 2) (Doble.deNat 3))
              (Doble.deNat 100))] ∧
      Salida.texto mensajeSeleccionInvalida ∉ salida) := by
  refine ⟨?_, ?_, by decide, by decide, rfl,
    ⟨[Salida.opciones "Genero" [("F", 2), ("M", 1)],
      Salida.opciones "Rango de edad" [("18-30", 1), ("Menor a 18", 1)],
      Salida.texto "Ruta seleccionada:",
      Salida.pasoRuta "Genero" "F",
      Salida.porcentajeTotal
        (Doble.producto (Doble.cociente (Doble.deNat 2) (Doble.deNat 3)) (Doble.deNat 100)),
      Salida.porcentajeCondicionado
        (Doble.producto (Doble.cociente (Doble.deNat 2) (Doble.deNat 3)) (Doble.deNat 100))],
      rfl, rfl, rfl, ?_⟩⟩
  · rintro ⟨_, h, _⟩
    exact absurd h (by decide)
  · rintro ⟨_, h, _⟩
    exact absurd h (by decide)
  · simp [mensajeSeleccionInvalida]

/-- C18, amended: on a built tree, after lines that select children one
after another down to a node with at least one child, a line that is not
empty once trimmed and from which `std::stoi` reads no number (no digit after
the optional sign, or a value outside `int`), or reads a number that is
smaller than 1 or larger than the number of children, aborts the query: the
output is the menus followed by the message of the invalid selection, with
no path and no percentage. -/
theorem C18_seleccion_invalida_aborta {F : Type} [Doble F]
    (perfiles : List (PerfilEstudiante F)) (orden : List VariableClasificacion)
    (t : NodoArbolClasificacion) (ks : List Int) (lineas : List String) (destino : Puntero)
    (mala : String) (cola : List String)
    (ht : construirArbolClasificacion perfiles orden = some t)
    (hl : List.Forall₂ Selecciona lineas ks) (hd : descender ⟨t, []⟩ ks = some destino)
    (hhijos : destino.nodo.hijos ≠ []) (hvacia : recortar mala ≠ "")
    (hmal : stoi (recortar mala) = none ∨
      ∃ v, stoi (recortar mala) = some v ∧ (v < 1 ∨ (destino.nodo.hijos.length : Int) < v)) :
    ∃ menus : List (Salida F), (∀ s ∈ menus, EsMenu s) ∧
      opcionPorcentajesCondicionados (some t) orden (lineas ++ mala :: cola) =
        some (menus ++ [Salida.texto mensajeSeleccionInvalida]) := by
  have hn : t.nivel = 0 := (construirArbolClasificacion_construido ht).2.2.2.2
  obtain ⟨menus, hm, hnav, hv, _⟩ :=
    navegar_prefijo (F := F) ht (mala :: cola) ks lineas ⟨t, []⟩ none destino
      (valido_raiz t) hl hd
  obtain ⟨var, hvar⟩ := niveles_con_hijos ht hv hhijos
  rw [hvar, navegar_invalida var _ destino _ mala cola hhijos hvacia hmal] at hnav
  simp only [hn, List.drop_zero] at hnav
  refine ⟨menus ++ [Salida.opciones (variableComoCadena var)
    (destino.nodo.hijos.map fun h => (h.etiqueta, h.indicesEstudiantes.length))], ?_, ?_⟩
  · intro s hs
    rcases List.mem_append.1 hs with hs | hs
    · exact hm s hs
    · rw [List.mem_singleton] at hs
      exact ⟨_, _, hs⟩
  · simp only [opcionPorcentajesCondicionados, hnav]
    simp

/-- C18, amended, on the example tree: after selecting the first child, the
line "abc" aborts the query, and so does the line "3". -/
theorem C18_seleccion_invalida_aborta_witness :
    List.Forall₂ Selecciona ["1"] [1] ∧
    descender ⟨arbolEjemplo, []⟩ [1] = some punteroF ∧
    punteroF.nodo.hijos ≠ [] ∧
    (∃ menus : List (Salida ℚ), (∀ s ∈ menus, EsMenu s) ∧
      opcionPorcentajesCondicionados (some arbolEjemplo) [.Genero, .RangoEdad]
        (["1"] ++ "abc" :: []) = some (menus ++ [Salida.texto mensajeSeleccionInvalida])) ∧
    (∃ menus : List (Salida ℚ), (∀ s ∈ menus, EsMenu s) ∧
      opcionPorcentajesCondicionados (some arbolEjemplo) [.Genero, .RangoEdad]
        (["1"] ++ "3" :: []) = some (menus ++ [Salida.texto mensajeSeleccionInvalida])) :=
  have hsel : List.Forall₂ Selecciona ["1"] [1] :=
    List.Forall₂.cons ⟨by decide, by decide⟩ List.Forall₂.nil
  have hd : descender ⟨arbolEjemplo, []⟩ [1] = some punteroF := rfl
  have hh : punteroF.nodo.hijos ≠ [] := fun h => absurd (congrArg List.length h) (by decide)
  ⟨hsel, hd, hh,
    C18_seleccion_invalida_aborta perfilesEjemplo [.Genero, .RangoEdad] arbolEjemplo [1]
      ["1"] punteroF "abc" [] arbolEjemplo_eq hsel hd hh (by decide) (Or.inl (by decide)),
    C18_seleccion_invalida_aborta perfilesEjemplo [.Genero, .RangoEdad] arbolEjemplo [1]
      ["1"] punteroF "3" [] arbolEjemplo_eq hsel hd hh (by decide)
      (Or.inr ⟨3, by decide, Or.inr (by decide)⟩)⟩

/-! ## The queries throw nothing on a built tree -/

/-- The selection loop ends at a node of the tree. -/
theorem navegar_destino_valido {F : Type} {t : NodoArbolClasificacion} :
    ∀ (niveles : List VariableClasificacion) (p : Puntero) (padre : Option Puntero)
      (entradas : List String) (d : Puntero) (pd : Option Puntero),
      PunteroValido t p →
      (navegar (F := F) niveles p padre entradas).destino = some (d, pd) →
      PunteroValido t d := by
  intro niveles
  induction niveles with
  | nil =>
    intro p padre entradas d pd hp h
    simp only [navegar, Option.some.injEq, Prod.mk.injEq] at h
    rw [← h.1]
    exact hp
  | cons var niveles ih =>
    intro p padre entradas d pd hp h
    rw [navegar] at h
    by_cases h1 : p.nodo.hijos.isEmpty = true
    · rw [if_pos h1] at h
      simp only [Option.some.injEq, Prod.mk.injEq] at h
      rw [← h.1]
      exact hp
    · rw [if_neg h1] at h
      by_cases h2 : (recortar (entradas.headD "")).isEmpty = true
      · rw [if_pos h2] at h
        simp only [Option.some.injEq, Prod.mk.injEq] at h
        rw [← h.1]
        exact hp
      · rw [if_neg h2] at h
        cases hs : stoi (recortar (entradas.headD "")) with
        | none =>
          rw [hs] at h
          cases h
        | some opcion =>
          rw [hs] at h
          by_cases h3 : opcion < 1 ∨ (p.nodo.hijos.length : Int) < opcion
          · change (if opcion < 1 ∨ (p.nodo.hijos.length : Int) < opcion then _ else _ :
              Navegacion F).destino = _ at h
            rw [if_pos h3] at h
            cases h
          · change (if opcion < 1 ∨ (p.nodo.hijos.length : Int) < opcion then _ else _ :
              Navegacion F).destino = _ at h
            rw [if_neg h3] at h
            cases hh : p.hijo (opcion - 1).toNat with
            | none =>
              rw [hh] at h
              cases h
            | some hijo =>
              rw [hh] at h
              exact ih _ _ _ _ _ (valido_hijo hp hh) h

section Estados

variable {F : Type} [Doble F]

theorem perfilesSegun_length (es : List Estudiante) (f : String → List (RegistroHistorial F)) :
    (perfilesSegun es f).length = es.length := by
  induction es generalizing f with
  | nil => rfl
  | cons e es ih => rw [perfilesSegun, List.length_cons, ih, List.length_cons]

/-- One profile per stored student, whatever the `carne` values. -/
theorem cargarPerfiles_length (estudiantes : List Estudiante)
    (registros : List (RegistroHistorial F)) :
    (cargarPerfiles estudiantes registros).length = estudiantes.length := by
  rw [cargarPerfiles_eq, perfilesSegun_length]

/-- The report of the path query throws nothing at a node of a built tree. -/
theorem reporteConsulta_sin_excepcion {perfiles : List (PerfilEstudiante F)}
    {orden : List VariableClasificacion} {t : NodoArbolClasificacion}
    (ht : construirArbolClasificacion perfiles orden = some t)
    {destino : Puntero} (hv : PunteroValido t destino) (padre : Option Puntero) :
    ∃ salida, reporteConsulta (F := F) t destino padre = some salida := by
  unfold reporteConsulta
  simp only []
  split_ifs
  · exact ⟨_, rfl⟩
  · rw [pasosRuta_eq _ orden (variables_en_puntero ht hv)]
    exact ⟨_, rfl⟩

/-- The path query throws nothing on a built tree with its ordering. -/
theorem consulta_sin_excepcion {perfiles : List (PerfilEstudiante F)}
    {orden : List VariableClasificacion} {t : NodoArbolClasificacion}
    (ht : construirArbolClasificacion perfiles orden = some t) (entradas : List String) :
    ∃ salida, opcionPorcentajesCondicionados (F := F) (some t) orden entradas = some salida := by
  unfold opcionPorcentajesCondicionados
  simp only []
  cases hd : (navegar (F := F) orden ⟨t, []⟩ none entradas).destino with
  | none => exact ⟨_, rfl⟩
  | some par =>
    obtain ⟨d, pd⟩ := par
    have hv := navegar_destino_valido orden ⟨t, []⟩ none entradas d pd (valido_raiz t) hd
    obtain ⟨salida, hs⟩ := reporteConsulta_sin_excepcion ht hv pd
    simp only [hs]
    exact ⟨_, rfl⟩

end Estados

/-! ## Worked instances of the statements on keys and the path query -/

/-- C11 at the ages 0, 17, 18, 30, 31, 64 and 65. -/
theorem C11_rangoEdad_por_tramos_witness :
    rangoEdad 0 = "Edad desconocida" ∧ rangoEdad 17 = "Menor a 18" ∧
    rangoEdad 18 = "18-30" ∧ rangoEdad 30 = "18-30" ∧ rangoEdad 31 = "31-64" ∧
    rangoEdad 64 = "31-64" ∧ rangoEdad 65 = "65+" :=
  ⟨(C11_rangoEdad_por_tramos 0).1 (by decide),
    (C11_rangoEdad_por_tramos 17).2.1 (by decide),
    (C11_rangoEdad_por_tramos 18).2.2.1 (by decide),
    (C11_rangoEdad_por_tramos 30).2.2.1 (by decide),
    (C11_rangoEdad_por_tramos 31).2.2.2.1 (by decide),
    (C11_rangoEdad_por_tramos 64).2.2.2.1 (by decide),
    (C11_rangoEdad_por_tramos 65).2.2.2.2.1 (by decide)⟩

/-- C14 on the first profile of the example: the gender is copied and the
student does not work. -/
theorem C14_campos_directos_witness :
    campoDirecto .Genero (estudianteEjemplo "A1" "F" 20) = some "F" ∧
    valorClasificacion (F := ℚ) .Genero
      { estudiante := estudianteEjemplo "A1" "F" 20, historial := [], promedio := none,
        tasaAprobacion := none } = "F" ∧
    valorClasificacion (F := ℚ) .Trabaja
      { estudiante := estudianteEjemplo "A1" "F" 20, historial := [], promedio := none,
        tasaAprobacion := none } = "No" :=
  ⟨rfl,
    ((C14_campos_directos (F := ℚ)
      { estudiante := estudianteEjemplo "A1" "F" 20, historial := [], promedio := none,
        tasaAprobacion := none }).1 .Genero "F" rfl).1 (by decide),
    (C14_campos_directos (F := ℚ)
      { estudiante := estudianteEjemplo "A1" "F" 20, historial := [], promedio := none,
        tasaAprobacion := none }).2.2.2.1 rfl⟩

/-! ## The level listing -/

theorem capaDesde_nil (k : Nat) : capaDesde [] k = [] := by
  induction k with
  | zero => rfl
  | succ k ih => rw [capaDesde, ih]; rfl

/-- One more round is one round on the queue of the children. -/
theorem capaDesde_hijos (cola : List NodoArbolClasificacion) (k : Nat) :
    capaDesde cola (k + 1) = capaDesde (cola.flatMap fun nodo => nodo.hijos) k := by
  induction k with
  | zero => rfl
  | succ k ih => rw [capaDesde, ih]; rfl

theorem capaDesde_flatMap (cola : List NodoArbolClasificacion) (k : Nat) :
    capaDesde cola k = cola.flatMap fun nodo => capa nodo k := by
  induction k with
  | zero => simp [capaDesde, capa]
  | succ k ih =>
    rw [capaDesde, ih, List.flatMap_assoc]
    rfl

theorem capa_mk (e : String) (v : Option VariableClasificacion) (i : List Nat)
    (hs : List NodoArbolClasificacion) (n : Nat) (k : Nat) :
    capa (.mk e v i hs n) (k + 1) = hs.flatMap fun h => capa h k := by
  rw [capa, capaDesde_hijos, capaDesde_flatMap]
  simp [NodoArbolClasificacion.hijos]

theorem alturaLista_lt (hs : List NodoArbolClasificacion) (m : Nat) :
    alturaLista hs < m + 1 ↔ ∀ h ∈ hs, altura h < m := by
  induction hs with
  | nil => simp [alturaLista]
  | cons x xs ih =>
    rw [alturaLista, List.forall_mem_cons, ← ih]
    omega

/-- The tree has nodes at depth `k` exactly up to its height. -/
theorem capa_vacia_iff : ∀ (t : NodoArbolClasificacion) (k : Nat), capa t k = [] ↔ altura t < k := by
  intro t
  induction t using NodoArbolClasificacion.induccion with
  | h e v i hs n ih =>
    intro k
    cases k with
    | zero => simp [capa, capaDesde]
    | succ k =>
      rw [capa_mk, altura, alturaLista_lt, List.flatMap_eq_nil_iff]
      constructor
      · intro h x hx
        exact (ih x hx k).1 (h x hx)
      · intro h x hx
        exact (ih x hx k).2 (h x hx)

section Listado

variable {F : Type}

/-- The inner loop of the listing, run over a whole prefix of the queue:
it writes the line of each node of the prefix and leaves the rest of the
queue followed by the children of the nodes of the prefix. -/
theorem imprimirNivel_prefijo (xs ys : List NodoArbolClasificacion) :
    imprimirNivel (F := F) xs.length (xs ++ ys) =
      (xs.map fun nodo =>
          Salida.nodoNivel (descriptorDe nodo) nodo.indicesEstudiantes.length,
        ys ++ xs.flatMap fun nodo => nodo.hijos) := by
  induction xs generalizing ys with
  | nil => simp [imprimirNivel]
  | cons x xs ih =>
    show imprimirNivel (xs.length + 1) (x :: (xs ++ ys)) = _
    rw [imprimirNivel, List.append_assoc, ih]
    simp only [List.map_cons, List.flatMap_cons, List.append_assoc]
    rfl

theorem imprimirNivel_cola (cola : List NodoArbolClasificacion) :
    imprimirNivel (F := F) cola.length cola =
      (cola.map fun nodo =>
          Salida.nodoNivel (descriptorDe nodo) nodo.indicesEstudiantes.length,
        cola.flatMap fun nodo => nodo.hijos) := by
  have h := imprimirNivel_prefijo (F := F) cola []
  simpa using h

/-- The outer loop of the listing run at most `vueltas` times: for each
round with a non-empty queue, the heading and the lines of the queue. -/
theorem imprimirNiveles_eq (vueltas : Nat) :
    ∀ (cola : List NodoArbolClasificacion) (nivelActual : Nat),
      imprimirNiveles (F := F) vueltas cola nivelActual =
        (List.range vueltas).flatMap fun j =>
          if (capaDesde cola j).isEmpty then []
          else Salida.nivel (nivelActual + j) ::
            (capaDesde cola j).map fun nodo =>
              Salida.nodoNivel (descriptorDe nodo) nodo.indicesEstudiantes.length := by
  induction vueltas with
  | zero => intro cola nivelActual; rfl
  | succ vueltas ih =>
    intro cola nivelActual
    rw [imprimirNiveles]
    cases cola with
    | nil =>
      simp [capaDesde_nil]
    | cons x xs =>
      simp only [List.isEmpty_cons, Bool.false_eq_true, if_false]
      rw [imprimirNivel_cola, ih]
      conv_rhs => rw [List.range_succ_eq_map, List.flatMap_cons, List.flatMap_map]
      have h0 : capaDesde (x :: xs) 0 = x :: xs := rfl
      rw [h0]
      simp only [List.isEmpty_cons, Bool.false_eq_true, if_false, Nat.add_zero,
        List.cons_append]
      congr 2
      apply List.flatMap_congr
      intro j _
      show _ = if (capaDesde (x :: xs) (j + 1)).isEmpty = true then _ else _
      rw [capaDesde_hijos, Nat.add_right_comm, Nat.add_assoc]

/-- The listing of a tree, for every bound on the number of rounds that is
larger than the height: a heading and the lines of the nodes of each depth
up to the height. The loop has then ended on an empty queue. -/
theorem imprimirNiveles_arbol (t : NodoArbolClasificacion) (vueltas : Nat)
    (h : altura t + 1 ≤ vueltas) :
    imprimirNiveles (F := F) vueltas [t] 0 =
      (List.range (altura t + 1)).flatMap fun k =>
        Salida.nivel k ::
          (capa t k).map fun nodo =>
            Salida.nodoNivel (descriptorDe nodo) nodo.indicesEstudiantes.length := by
  obtain ⟨d, rfl⟩ := Nat.exists_eq_add_of_le h
  rw [imprimirNiveles_eq]
  induction d with
  | zero =>
    apply List.flatMap_congr
    intro k hk
    have hk2 : ¬ altura t < k := by
      have := List.mem_range.1 hk
      omega
    have hne : capa t k ≠ [] := fun h0 => hk2 ((capa_vacia_iff t k).1 h0)
    have he : (capaDesde [t] k).isEmpty = false := by
      cases hc : capaDesde [t] k with
      | nil => exact absurd hc hne
      | cons x xs => rfl
    simp only [he, Bool.false_eq_true, if_false, Nat.zero_add]
    rfl
  | succ d ih =>
    have hv : capaDesde [t] (altura t + 1 + d) = [] :=
      (capa_vacia_iff t (altura t + 1 + d)).2 (by omega)
    rw [show altura t + 1 + (d + 1) = (altura t + 1 + d) + 1 from rfl, List.range_succ,
      List.flatMap_append, ih (by omega)]
    simp [hv]

end Listado

/-! ## The levels of a built tree -/

section Capas

variable {F : Type} [Doble F]

/-- No node of a built tree lies above the level of its root. -/
theorem construido_nivel_nodos {perfiles : List (PerfilEstudiante F)}
    {orden : List VariableClasificacion} {t : NodoArbolClasificacion}
    (h : Construido perfiles orden t) : ∀ N ∈ nodos t, t.nivel ≤ N.nivel := by
  induction h with
  | terminal e v i n _ =>
    intro N hN
    rw [nodos_mk, List.flatMap_nil, List.mem_singleton] at hN
    rw [hN]
  | interno e v i n var hs _ _ _ hniv _ ih =>
    intro N hN
    rw [nodos_mk, List.mem_cons] at hN
    rcases hN with hN | hN
    · rw [hN]
    · obtain ⟨x, hx, hNx⟩ := List.mem_flatMap.1 hN
      have h1 := ih x hx N hNx
      have h2 := hniv x hx
      show n ≤ N.nivel
      omega

/-- In a built tree the nodes at depth `k` are the nodes whose level is `k`
more than the level of the root, in the order of the preorder listing. -/
theorem construido_capa {perfiles : List (PerfilEstudiante F)}
    {orden : List VariableClasificacion} {t : NodoArbolClasificacion}
    (h : Construido perfiles orden t) :
    ∀ k, capa t k = (nodos t).filter fun N => decide (N.nivel = t.nivel + k) := by
  induction h with
  | terminal e v i n _ =>
    intro k
    rw [nodos_mk, List.flatMap_nil]
    cases k with
    | zero => simp [capa, capaDesde, NodoArbolClasificacion.nivel]
    | succ k =>
      rw [capa_mk]
      simp [NodoArbolClasificacion.nivel]
  | interno e v i n var hs _ _ _ hniv hc ih =>
    intro k
    rw [nodos_mk]
    cases k with
    | zero =>
      have hvacio : (hs.flatMap nodos).filter
          (fun N => decide (N.nivel = (NodoArbolClasificacion.mk e v i hs n).nivel + 0)) = [] := by
        rw [List.filter_eq_nil_iff]
        intro N hN
        obtain ⟨x, hx, hNx⟩ := List.mem_flatMap.1 hN
        have h1 := construido_nivel_nodos (hc x hx) N hNx
        have h2 := hniv x hx
        simp only [decide_eq_true_eq]
        show ¬ N.nivel = n + 0
        omega
      rw [List.filter_cons, hvacio]
      simp [capa, capaDesde, NodoArbolClasificacion.nivel]
    | succ k =>
      rw [capa_mk, List.filter_cons]
      have hno : ¬ (NodoArbolClasificacion.mk e v i hs n).nivel =
          (NodoArbolClasificacion.mk e v i hs n).nivel + (k + 1) := by omega
      simp only [hno, decide_False, Bool.false_eq_true, if_false, List.filter_flatMap]
      apply List.flatMap_congr
      intro x hx
      rw [ih x hx k, hniv x hx]
      apply List.filter_congr
      intro N _
      show decide (N.nivel = n + 1 + k) = decide (N.nivel = n + (k + 1))
      rw [Nat.add_assoc, Nat.add_comm 1 k]

/-- Every index of a node of a built tree is an index of the root. -/
theorem construido_indices_sub {perfiles : List (PerfilEstudiante F)}
    {orden : List VariableClasificacion} {t : NodoArbolClasificacion}
    (h : Construido perfiles orden t) :
    ∀ N ∈ nodos t, ∀ j ∈ N.indicesEstudiantes, j ∈ t.indicesEstudiantes := by
  induction h with
  | terminal e v i n _ =>
    intro N hN j hj
    rw [nodos_mk, List.flatMap_nil, List.mem_singleton] at hN
    rw [hN] at hj
    exact hj
  | interno e v i n var hs _ hg _ _ _ ih =>
    intro N hN j hj
    rw [nodos_mk, List.mem_cons] at hN
    rcases hN with hN | hN
    · rw [hN] at hj
      exact hj
    · obtain ⟨x, hx, hNx⟩ := List.mem_flatMap.1 hN
      exact ((hijo_indices_iff hg hx j).1 (ih x hx N hNx j hj)).1

/-- Every node below the root of a built tree carries the variable that the
ordering has for the level above its own. -/
theorem construido_variable_nodos {perfiles : List (PerfilEstudiante F)}
    {orden : List VariableClasificacion} {t : NodoArbolClasificacion}
    (h : Construido perfiles orden t) :
    ∀ N ∈ nodosLista t.hijos, 1 ≤ N.nivel ∧
      ∃ var, orden[N.nivel - 1]? = some var ∧ N.variable_ = some var := by
  induction h with
  | terminal e v i n _ =>
    intro N hN
    simp [NodoArbolClasificacion.hijos, nodosLista] at hN
  | interno e v i n var hs hv _ hvar hniv _ ih =>
    intro N hN
    simp only [NodoArbolClasificacion.hijos, nodosLista_eq] at hN
    obtain ⟨x, hx, hNx⟩ := List.mem_flatMap.1 hN
    rw [nodos_eq_cons, List.mem_cons] at hNx
    rcases hNx with hNx | hNx
    · subst hNx
      rw [hniv N hx]
      exact ⟨by omega, var, hv, hvar N hx⟩
    · exact ih x hx N hNx

/-- The preorder listing of a built tree has no node twice. -/
theorem construido_nodos_nodup {perfiles : List (PerfilEstudiante F)}
    {orden : List VariableClasificacion} {t : NodoArbolClasificacion}
    (h : Construido perfiles orden t) :
    t.indicesEstudiantes.Nodup → (nodos t).Nodup := by
  induction h with
  | terminal e v i n _ =>
    intro _
    rw [nodos_mk, List.flatMap_nil]
    exact List.nodup_singleton _
  | interno e v i n var hs _ hg _ hniv hc ih =>
    intro hd
    have hdd : (hs.flatMap fun h => h.indicesEstudiantes).Nodup :=
      (hijos_perm hg).nodup_iff.2 hd
    rw [List.nodup_flatMap] at hdd
    rw [nodos_mk, List.nodup_cons]
    constructor
    · intro hmem
      obtain ⟨x, hx, hNx⟩ := List.mem_flatMap.1 hmem
      have h1 := construido_nivel_nodos (hc x hx) _ hNx
      have h2 := hniv x hx
      rw [h2] at h1
      exact absurd h1 (by simp [NodoArbolClasificacion.nivel])
    · rw [List.nodup_flatMap]
      refine ⟨fun x hx => ih x hx (hdd.1 x hx), ?_⟩
      refine List.Pairwise.imp_of_mem ?_ hdd.2
      intro a b ha hb hab N hNa hNb
      have hne : N.indicesEstudiantes ≠ [] := by
        rw [nodos_eq_cons, List.mem_cons] at hNa
        rcases hNa with hNa | hNa
        · rw [hNa]
          exact (hijos_fieles hg ha).1
        · exact construido_descendientes (hc a ha) N hNa
      obtain ⟨j, hj⟩ := List.exists_mem_of_ne_nil _ hne
      exact hab (construido_indices_sub (hc a ha) N hNa j hj)
        (construido_indices_sub (hc b hb) N hNb j hj)

end Capas

/-- C21: for the tree built from `perfiles` and `orden`,
`imprimirArbolPorNiveles` writes, for `k = 0, 1, ..., altura` in this order,
the heading of level `k` followed by one line for each node at depth `k`,
and its loop ends on an empty queue: a larger bound on the number of rounds
gives the same output. The nodes at depth 0 are the root alone, those at depth
`k + 1` are the children of the nodes at depth `k`, parent after parent and in
child order; they are exactly the nodes whose `nivel` is `k`, in the order of
the preorder listing, in which no node occurs twice; there are nodes at depth
`k` exactly for `k ≤ altura`. The line of a node shows its descriptor and the
size of its index list; the descriptor of the root is its label
"Poblacion total", that of a node at level `k ≥ 1` is the name of
`orden[k-1]`, `" = "` and the label of the node. -/
theorem C21_listado_por_niveles {F : Type} [Doble F] (perfiles : List (PerfilEstudiante F))
    (orden : List VariableClasificacion) :
    ∃ t, construirArbolClasificacion perfiles orden = some t ∧
      imprimirArbolPorNiveles (F := F) t =
        ((List.range (altura t + 1)).flatMap fun k =>
          Salida.nivel k ::
            (capa t k).map fun nodo =>
              Salida.nodoNivel (descriptorDe nodo) nodo.indicesEstudiantes.length) ∧
      (∀ vueltas, altura t + 1 ≤ vueltas →
        imprimirNiveles (F := F) vueltas [t] 0 = imprimirArbolPorNiveles t) ∧
      capa t 0 = [t] ∧
      (∀ k, capa t (k + 1) = (capa t k).flatMap fun nodo => nodo.hijos) ∧
      (∀ k, capa t k = (nodos t).filter fun N => decide (N.nivel = k)) ∧
      (nodos t).Nodup ∧
      (∀ k, capa t k ≠ [] ↔ k ≤ altura t) ∧
      descriptorDe t = "Poblacion total" ∧
      (∀ N ∈ nodos t, 1 ≤ N.nivel →
        ∃ var, orden[N.nivel - 1]? = some var ∧
          descriptorDe N = variableComoCadena var ++ " = " ++ N.etiqueta) := by
  obtain ⟨t, ht⟩ := construirArbolClasificacion_exito perfiles orden
  obtain ⟨hc, hetiqueta, hind, hvar, hniv⟩ := construirArbolClasificacion_construido ht
  have hlistado := imprimirNiveles_arbol (F := F) t
  refine ⟨t, ht, hlistado _ (Nat.le_refl _), ?_, rfl, fun k => rfl, ?_, ?_, ?_, ?_, ?_⟩
  · intro vueltas hv
    rw [hlistado vueltas hv]
    exact (hlistado _ (Nat.le_refl _)).symm
  · intro k
    rw [construido_capa hc k, hniv, Nat.zero_add]
  · apply construido_nodos_nodup hc
    rw [hind]
    exact List.nodup_range _
  · intro k
    rw [Ne, capa_vacia_iff]
    omega
  · rw [descriptorDe, hvar, hetiqueta]
  · intro N hN h1
    rw [nodos_eq_cons, List.mem_cons] at hN
    rcases hN with hN | hN
    · rw [hN, hniv] at h1
      exact absurd h1 (by decide)
    · obtain ⟨_, var, hv1, hv2⟩ := construido_variable_nodos hc N hN
      exact ⟨var, hv1, by rw [descriptorDe, hv2]⟩

/-- C21 on the example tree: the listing of the two women and the man,
grouped by gender and then by age bracket, also with the loop bounded by ten
rounds instead of three. -/
theorem C21_listado_por_niveles_witness :
    altura arbolEjemplo + 1 ≤ 10 ∧
    imprimirNiveles (F := ℚ) 10 [arbolEjemplo] 0 = imprimirArbolPorNiveles arbolEjemplo ∧
    imprimirArbolPorNiveles (F := ℚ) arbolEjemplo =
      [Salida.nivel 0, Salida.nodoNivel "Poblacion total" 3,
        Salida.nivel 1, Salida.nodoNivel "Genero = F" 2, Salida.nodoNivel "Genero = M" 1,
        Salida.nivel 2, Salida.nodoNivel "Rango de edad = 18-30" 1,
        Salida.nodoNivel "Rango de edad = Menor a 18" 1,
        Salida.nodoNivel "Rango de edad = 31-64" 1] := by
  obtain ⟨t, ht, _, hv, _⟩ :=
    C21_listado_por_niveles perfilesEjemplo [.Genero, .RangoEdad]
  rw [arbolEjemplo_eq, Option.some.injEq] at ht
  subst ht
  exact ⟨by decide, hv 10 (by decide), rfl⟩

/-! ## The leaves do not depend on the order of the levels -/

section Clases

variable {F : Type} [Doble F]

/-- Every index of a built node lies in one of the leaves below it. -/
theorem construido_indice_en_hoja {perfiles : List (PerfilEstudiante F)}
    {orden : List VariableClasificacion} {t : NodoArbolClasificacion}
    (h : Construido perfiles orden t) :
    ∀ i ∈ t.indicesEstudiantes, ∃ x ∈ recolectarHojas t, i ∈ x.indicesEstudiantes := by
  induction h with
  | terminal e v i n _ =>
    intro j hj
    exact ⟨_, by simp [recolectarHojas], hj⟩
  | interno e v i n var hs _ hg _ _ _ ih =>
    intro j hj
    have hj2 : j ∈ hs.flatMap fun h => h.indicesEstudiantes :=
      (hijos_perm hg).mem_iff.2 hj
    obtain ⟨x, hx, hjx⟩ := List.mem_flatMap.1 hj2
    obtain ⟨y, hy, hjy⟩ := ih x hx j hjx
    have hne : hs ≠ [] := List.ne_nil_of_mem hx
    rw [recolectarHojas_cons _ _ _ _ _ hne]
    exact ⟨y, List.mem_flatMap.2 ⟨x, hx, hy⟩, hjy⟩

/-- A leaf below a built node with indices holds, of the indices of the
node, those whose profile has the labels of one of its own for every
variable that the ordering applies from the level of the node on. -/
theorem construido_hoja_clase {perfiles : List (PerfilEstudiante F)}
    {orden : List VariableClasificacion} {t : NodoArbolClasificacion}
    (h : Construido perfiles orden t) :
    t.indicesEstudiantes ≠ [] →
    ∀ x ∈ recolectarHojas t, x.indicesEstudiantes ≠ [] ∧
      ∀ i ∈ x.indicesEstudiantes, ∀ j, j ∈ x.indicesEstudiantes ↔
        j ∈ t.indicesEstudiantes ∧ ∀ var ∈ orden.drop t.nivel, ∀ p q,
          perfiles[i]? = some p → perfiles[j]? = some q →
            valorClasificacion var q = valorClasificacion var p := by
  induction h with
  | terminal e v i n hlen =>
    intro hne x hx
    simp only [recolectarHojas, List.mem_singleton] at hx
    subst hx
    refine ⟨hne, fun a _ j => ?_⟩
    rw [show (NodoArbolClasificacion.mk e v i [] n).nivel = n from rfl,
      List.drop_eq_nil_of_le hlen]
    simp
  | interno e v i n var hs hv hg _ hniv hc ih =>
    intro hne x hx
    have hhs : hs ≠ [] := fun h0 => hne ((hijos_vacio_iff hg).1 h0)
    rw [recolectarHojas_cons _ _ _ _ _ hhs] at hx
    obtain ⟨c, hcm, hxc⟩ := List.mem_flatMap.1 hx
    obtain ⟨hxne, hclase⟩ := ih c hcm (hijos_fieles hg hcm).1 x hxc
    refine ⟨hxne, ?_⟩
    intro a ha j
    have hlt : n < orden.length := (List.getElem?_eq_some.1 hv).1
    have hdrop : orden.drop n = var :: orden.drop (n + 1) := by
      rw [List.drop_eq_getElem_cons hlt]
      congr 1
      have := List.getElem?_eq_getElem hlt
      rw [hv] at this
      exact (Option.some.inj this).symm
    have hac : a ∈ c.indicesEstudiantes := ((hclase a ha a).1 ha).1
    obtain ⟨_, pa, hpa, hva⟩ := (hijo_indices_iff hg hcm a).1 hac
    rw [hclase a ha j, hijo_indices_iff hg hcm j, hniv c hcm,
      show (NodoArbolClasificacion.mk e v i hs n).nivel = n from rfl, hdrop]
    show _ ↔ j ∈ i ∧ _
    constructor
    · rintro ⟨⟨hji, q, hq, hvq⟩, hresto⟩
      refine ⟨hji, ?_⟩
      intro w hw p q2 hp hq2
      rw [hpa] at hp
      rw [hq] at hq2
      cases hp
      cases hq2
      rcases List.mem_cons.1 hw with hw | hw
      · rw [hw, hvq, hva]
      · exact hresto w hw _ _ hpa hq
    · rintro ⟨hji, htodo⟩
      have hj2 : j ∈ hs.flatMap fun h => h.indicesEstudiantes :=
        (hijos_perm hg).mem_iff.2 hji
      obtain ⟨d, hd, hjd⟩ := List.mem_flatMap.1 hj2
      obtain ⟨q, hq, _⟩ := (hijos_fieles hg hd).2 j hjd
      refine ⟨⟨hji, q, hq, ?_⟩, ?_⟩
      · rw [htodo var (List.mem_cons_self _ _) pa q hpa hq, hva]
      · intro w hw p q2 hp hq2
        exact htodo w (List.mem_cons_of_mem _ hw) p q2 hp hq2

/-- For orderings with the same variables, every leaf of the tree of the
first has the indices of a leaf of the tree of the second. -/
theorem hojas_correspondientes {perfiles : List (PerfilEstudiante F)}
    {orden otro : List VariableClasificacion} {t u : NodoArbolClasificacion}
    (ht : construirArbolClasificacion perfiles orden = some t)
    (hu : construirArbolClasificacion perfiles otro = some u)
    (hvars : ∀ var, var ∈ orden ↔ var ∈ otro) :
    ∀ x ∈ recolectarHojas t, ∃ y ∈ recolectarHojas u,
      ∀ j, j ∈ x.indicesEstudiantes ↔ j ∈ y.indicesEstudiantes := by
  obtain ⟨hct, _, hit, _, hnt⟩ := construirArbolClasificacion_construido ht
  obtain ⟨hcu, _, hiu, _, hnu⟩ := construirArbolClasificacion_construido hu
  intro x hx
  by_cases hP : perfiles = []
  · obtain ⟨y, hy⟩ := List.exists_mem_of_ne_nil _ (recolectarHojas_no_vacio u)
    refine ⟨y, hy, fun j => ?_⟩
    have hxv : ¬ j ∈ x.indicesEstudiantes := by
      intro hj
      have := construido_indices_sub hct x (construido_hojas hct x hx).1 j hj
      rw [hit, hP] at this
      simp at this
    have hyv : ¬ j ∈ y.indicesEstudiantes := by
      intro hj
      have := construido_indices_sub hcu y (construido_hojas hcu y hy).1 j hj
      rw [hiu, hP] at this
      simp at this
    exact ⟨fun h => absurd h hxv, fun h => absurd h hyv⟩
  · have hraiz : List.range perfiles.length ≠ [] := by
      intro h0
      have := congrArg List.length h0
      rw [List.length_range] at this
      exact hP (List.length_eq_zero.1 this)
    obtain ⟨hxne, hxc⟩ := construido_hoja_clase hct (by rw [hit]; exact hraiz) x hx
    obtain ⟨a, ha⟩ := List.exists_mem_of_ne_nil _ hxne
    have hat : a ∈ t.indicesEstudiantes := ((hxc a ha a).1 ha).1
    have hau : a ∈ u.indicesEstudiantes := by
      rw [hiu, ← hit]
      exact hat
    obtain ⟨y, hy, hay⟩ := construido_indice_en_hoja hcu a hau
    obtain ⟨_, hyc⟩ := construido_hoja_clase hcu (by rw [hiu]; exact hraiz) y hy
    refine ⟨y, hy, fun j => ?_⟩
    rw [hxc a ha j, hyc a hay j, hnt, hnu, List.drop_zero, List.drop_zero, hit, hiu]
    constructor
    · rintro ⟨h1, h2⟩
      exact ⟨h1, fun var hv => h2 var ((hvars var).2 hv)⟩
    · rintro ⟨h1, h2⟩
      exact ⟨h1, fun var hv => h2 var ((hvars var).1 hv)⟩

end Clases

/-- C22: for every population and every two orderings that are permutations
of each other, both trees are built and they have the same family of leaf
index sets: a set of indices is the set of the indices of some leaf of one
tree exactly when it is that of some leaf of the other. The leaves that
correspond hold the same number of profiles, so the share of the population
of a full combination of labels is the same in both trees. -/
theorem C22_hojas_sin_orden {F : Type} [Doble F] (perfiles : List (PerfilEstudiante F))
    (orden otro : List VariableClasificacion) (hperm : orden.Perm otro) :
    ∃ t u, construirArbolClasificacion perfiles orden = some t ∧
      construirArbolClasificacion perfiles otro = some u ∧
      (∀ S : Finset Nat,
        (∃ x ∈ recolectarHojas t, x.indicesEstudiantes.toFinset = S) ↔
          ∃ y ∈ recolectarHojas u, y.indicesEstudiantes.toFinset = S) ∧
      (∀ x ∈ recolectarHojas t, ∃ y ∈ recolectarHojas u,
        x.indicesEstudiantes.toFinset = y.indicesEstudiantes.toFinset ∧
          x.indicesEstudiantes.length = y.indicesEstudiantes.length) ∧
      (∀ y ∈ recolectarHojas u, ∃ x ∈ recolectarHojas t,
        x.indicesEstudiantes.toFinset = y.indicesEstudiantes.toFinset ∧
          x.indicesEstudiantes.length = y.indicesEstudiantes.length) := by
  obtain ⟨t, ht⟩ := construirArbolClasificacion_exito perfiles orden
  obtain ⟨u, hu⟩ := construirArbolClasificacion_exito perfiles otro
  have hvars : ∀ var, var ∈ orden ↔ var ∈ otro := fun var => hperm.mem_iff
  have hct := (construirArbolClasificacion_construido ht).1
  have hcu := (construirArbolClasificacion_construido hu).1
  have hdt : ∀ x ∈ recolectarHojas t, x.indicesEstudiantes.Nodup := fun x hx =>
    (arbol_nodos ht x (construido_hojas hct x hx).1).2.2
  have hdu : ∀ y ∈ recolectarHojas u, y.indicesEstudiantes.Nodup := fun y hy =>
    (arbol_nodos hu y (construido_hojas hcu y hy).1).2.2
  have hida : ∀ x ∈ recolectarHojas t, ∃ y ∈ recolectarHojas u,
      x.indicesEstudiantes.toFinset = y.indicesEstudiantes.toFinset ∧
        x.indicesEstudiantes.length = y.indicesEstudiantes.length := by
    intro x hx
    obtain ⟨y, hy, hxy⟩ := hojas_correspondientes ht hu hvars x hx
    have hset : x.indicesEstudiantes.toFinset = y.indicesEstudiantes.toFinset := by
      ext j
      rw [List.mem_toFinset, List.mem_toFinset]
      exact hxy j
    refine ⟨y, hy, hset, ?_⟩
    rw [← List.toFinset_card_of_nodup (hdt x hx), ← List.toFinset_card_of_nodup (hdu y hy), hset]
  have hvuelta : ∀ y ∈ recolectarHojas u, ∃ x ∈ recolectarHojas t,
      x.indicesEstudiantes.toFinset = y.indicesEstudiantes.toFinset ∧
        x.indicesEstudiantes.length = y.indicesEstudiantes.length := by
    intro y hy
    obtain ⟨x, hx, hyx⟩ := hojas_correspondientes hu ht (fun var => (hvars var).symm) y hy
    have hset : x.indicesEstudiantes.toFinset = y.indicesEstudiantes.toFinset := by
      ext j
      rw [List.mem_toFinset, List.mem_toFinset]
      exact (hyx j).symm
    refine ⟨x, hx, hset, ?_⟩
    rw [← List.toFinset_card_of_nodup (hdt x hx), ← List.toFinset_card_of_nodup (hdu y hy), hset]
  refine ⟨t, u, ht, hu, ?_, hida, hvuelta⟩
  intro S
  constructor
  · rintro ⟨x, hx, rfl⟩
    obtain ⟨y, hy, hset, _⟩ := hida x hx
    exact ⟨y, hy, hset.symm⟩
  · rintro ⟨y, hy, rfl⟩
    obtain ⟨x, hx, hset, _⟩ := hvuelta y hy
    exact ⟨x, hx, hset⟩

/-- The example population grouped by age bracket first. -/
theorem arbolEjemploInverso_eq :
    construirArbolClasificacion perfilesEjemplo [.RangoEdad, .Genero] =
      some arbolEjemploInverso := by
  rfl

/-- C22 on the example population with the orderings gender, age bracket and
age bracket, gender: the leaves hold `{0}`, `{2}`, `{1}` in one tree and
`{0}`, `{1}`, `{2}` in the other, the same family of sets. -/
theorem C22_hojas_sin_orden_witness :
    [VariableClasificacion.Genero, .RangoEdad].Perm [.RangoEdad, .Genero] ∧
    (recolectarHojas arbolEjemplo).map (fun x => x.indicesEstudiantes) = [[0], [2], [1]] ∧
    (recolectarHojas arbolEjemploInverso).map (fun x => x.indicesEstudiantes) =
      [[0], [1], [2]] ∧
    (∀ S : Finset Nat,
      (∃ x ∈ recolectarHojas arbolEjemplo, x.indicesEstudiantes.toFinset = S) ↔
        ∃ y ∈ recolectarHojas arbolEjemploInverso, y.indicesEstudiantes.toFinset = S) := by
  obtain ⟨t, u, ht, hu, h, _⟩ :=
    C22_hojas_sin_orden perfilesEjemplo [.Genero, .RangoEdad] [.RangoEdad, .Genero]
      (List.Perm.swap _ _ _)
  rw [arbolEjemplo_eq, Option.some.injEq] at ht
  rw [arbolEjemploInverso_eq, Option.some.injEq] at hu
  subst ht
  subst hu
  exact ⟨List.Perm.swap _ _ _, rfl, rfl, h⟩

/-! ## Round trip through a binary stream -/

/-- A byte value is read back from the `char` that stores it. -/
theorem toNat_ofNat_octeto (b : Nat) (h : b < 256) : (Char.ofNat b).toNat = b := by
  have hv : b.isValidChar := Or.inl (by omega)
  unfold Char.ofNat
  rw [dif_pos hv]
  simp [Char.ofNatAux, Char.toNat, UInt32.toNat]

theorem leerUint32_escribirUint32 (x : Nat) (hx : x < 4294967296) (resto : Flujo) :
    leerUint32 (escribirUint32 x ++ resto) = some (x, resto) := by
  simp only [escribirUint32, List.cons_append, List.nil_append, leerUint32]
  rw [toNat_ofNat_octeto _ (Nat.mod_lt _ (by decide)),
    toNat_ofNat_octeto _ (Nat.mod_lt _ (by decide)),
    toNat_ofNat_octeto _ (Nat.mod_lt _ (by decide)),
    toNat_ofNat_octeto _ (Nat.mod_lt _ (by decide))]
  congr 2
  omega

theorem leerInt32_escribirInt32 (x : Int) (h1 : -2147483648 ≤ x) (h2 : x ≤ 2147483647)
    (resto : Flujo) : leerInt32 (escribirInt32 x ++ resto) = .leido x resto := by
  unfold leerInt32 escribirInt32
  rw [leerUint32_escribirUint32 _ (by omega)]
  simp only []
  congr 1
  split_ifs <;> omega

theorem leerBooleano_escribirBooleano (b : Bool) (resto : Flujo) :
    leerBooleano (escribirBooleano b ++ resto) = .leido b resto := by
  cases b <;> rfl

/-- What `leerCadena` does with what `escribirCadena` wrote for a string,
whatever follows in the stream: it throws when the length written is larger
than 10,000 and otherwise reads the characters written and leaves the stream
after them. -/
theorem leerCadena_escribirCadena (s : String) (resto : Flujo) :
    leerCadena (escribirCadena s ++ resto) =
      if 10000 < s.length % 4294967296 then .excepcion mensajeLongitudInvalida
      else .leido (cadenaLeida s) resto := by
  have hlen : s.length % 4294967296 ≤ s.toList.length := Nat.mod_le _ _
  generalize hl : s.length % 4294967296 = l at hlen
  have hl2 : l < 4294967296 := by
    rw [← hl]
    exact Nat.mod_lt _ (by decide)
  have htake : (s.toList.take l).length = l := by
    rw [List.length_take]
    omega
  simp only [escribirCadena, hl, List.append_assoc]
  unfold leerCadena
  rw [leerUint32_escribirUint32 _ hl2]
  simp only []
  by_cases h1 : 10000 < l
  · rw [if_pos h1, if_pos h1]
  · rw [if_neg h1, if_neg h1]
    by_cases h0 : l = 0
    · rw [if_pos h0]
      simp [cadenaLeida, hl, h0]
    · rw [if_neg h0, if_neg (by rw [List.length_append, htake]; omega)]
      rw [List.take_left' htake, List.drop_left' htake]
      simp only [cadenaLeida, hl]

/-- The characters written for a string whose written length is at most
10,000 are the whole string exactly when the string has at most 10,000
characters. -/
theorem cadenaLeida_eq_iff (s : String) (h : s.length % 4294967296 ≤ 10000) :
    cadenaLeida s = s ↔ s.length ≤ 10000 := by
  constructor
  · intro he
    have hlen := congrArg String.length he
    simp only [cadenaLeida, String.length, List.length_take] at hlen
    have : s.length = s.data.length := rfl
    have h3 : s.toList = s.data := rfl
    rw [h3] at hlen
    omega
  · intro hs
    have hm : s.length % 4294967296 = s.length := Nat.mod_eq_of_lt (by omega)
    simp only [cadenaLeida, hm]
    have : s.toList.take s.length = s.toList := List.take_of_length_le (Nat.le_refl _)
    rw [this]
    rfl

/-- A string comes back from the stream exactly when it has at most 10,000
characters. -/
theorem leerCadena_ida_y_vuelta (s : String) (resto : Flujo) :
    leerCadena (escribirCadena s ++ resto) = .leido s resto ↔ s.length ≤ 10000 := by
  rw [leerCadena_escribirCadena]
  by_cases h1 : 10000 < s.length % 4294967296
  · rw [if_pos h1]
    constructor
    · intro h
      cases h
    · intro h
      have hm : s.length % 4294967296 = s.length := Nat.mod_eq_of_lt (by omega)
      omega
  · rw [if_neg h1, Lectura.leido.injEq]
    rw [← cadenaLeida_eq_iff s (by omega)]
    exact ⟨fun h => h.1, fun h => ⟨h, rfl⟩⟩

/-- One step of `leerEstudiante` on a string field that ends in a value read:
the length written was at most 10,000 and the rest of the function went on
with the characters written. -/
theorem luego_leerCadena {β : Type} (s : String) (resto : Flujo)
    (f : String → Flujo → Lectura β) (v : β) (final : Flujo)
    (h : (leerCadena (escribirCadena s ++ resto)).luego f = .leido v final) :
    s.length % 4294967296 ≤ 10000 ∧ f (cadenaLeida s) resto = .leido v final := by
  rw [leerCadena_escribirCadena] at h
  by_cases h1 : 10000 < s.length % 4294967296
  · rw [if_pos h1] at h
    cases h
  · rw [if_neg h1] at h
    exact ⟨by omega, h⟩

theorem cadenaLarga_length (n : Nat) : (cadenaLarga n).length = n :=
  List.length_replicate n 'x'

/-- C23: with a binary stream modelled as the sequence of its bytes,
`leerCadena` applied to what `escribirCadena` wrote for a string `s`,
whatever follows in the stream, returns `true` with the value `s` exactly
when `s` has at most 10,000 bytes; for a longer `s` shorter than `2^32`
bytes it throws. So for a student whose `edad` is an `int`, `leerEstudiante`
applied to what `escribirEstudiante` wrote returns `true` with the same
record exactly when each of the six string fields has at most 10,000 bytes;
and if every string field is shorter than `2^32` bytes and one of them is
longer than 10,000, it throws. -/
theorem C23_ida_y_vuelta_binaria :
    (∀ (s : String) (resto : Flujo), s.length < 4294967296 →
      (leerCadena (escribirCadena s ++ resto) = .leido s resto ↔ s.length ≤ 10000) ∧
      (10000 < s.length →
        leerCadena (escribirCadena s ++ resto) = .excepcion mensajeLongitudInvalida)) ∧
    (∀ (e : Estudiante) (resto : Flujo), -2147483648 ≤ e.edad → e.edad ≤ 2147483647 →
      (leerEstudiante (escribirEstudiante e ++ resto) = .leido e resto ↔
        e.carne.length ≤ 10000 ∧ e.genero.length ≤ 10000 ∧ e.residencia.length ≤ 10000 ∧
          e.colegioProcedencia.length ≤ 10000 ∧ e.tipoColegio.length ≤ 10000 ∧
          e.estadoCivil.length ≤ 10000) ∧
      (e.carne.length < 4294967296 → e.genero.length < 4294967296 →
        e.residencia.length < 4294967296 → e.colegioProcedencia.length < 4294967296 →
        e.tipoColegio.length < 4294967296 → e.estadoCivil.length < 4294967296 →
        ¬ (e.carne.length ≤ 10000 ∧ e.genero.length ≤ 10000 ∧ e.residencia.length ≤ 10000 ∧
          e.colegioProcedencia.length ≤ 10000 ∧ e.tipoColegio.length ≤ 10000 ∧
          e.estadoCivil.length ≤ 10000) →
        leerEstudiante (escribirEstudiante e ++ resto) =
          .excepcion mensajeLongitudInvalida)) := by
  refine ⟨?_, ?_⟩
  · intro s resto hs
    refine ⟨leerCadena_ida_y_vuelta s resto, ?_⟩
    intro hlargo
    rw [leerCadena_escribirCadena, Nat.mod_eq_of_lt hs, if_pos hlargo]
  · intro e resto he1 he2
    refine ⟨⟨?_, ?_⟩, ?_⟩
    · intro h
      simp only [escribirEstudiante, List.append_assoc] at h
      unfold leerEstudiante at h
      obtain ⟨h1, h⟩ := luego_leerCadena _ _ _ _ _ h
      obtain ⟨h2, h⟩ := luego_leerCadena _ _ _ _ _ h
      obtain ⟨h3, h⟩ := luego_leerCadena _ _ _ _ _ h
      rw [leerInt32_escribirInt32 _ he1 he2] at h
      obtain ⟨h4, h⟩ := luego_leerCadena _ _ _ _ _ h
      obtain ⟨h5, h⟩ := luego_leerCadena _ _ _ _ _ h
      rw [leerBooleano_escribirBooleano] at h
      obtain ⟨h6, h⟩ := luego_leerCadena _ resto _ _ _ h
      rw [Lectura.leido.injEq] at h
      have hc := h.1
      exact ⟨(cadenaLeida_eq_iff _ h1).1 (congrArg Estudiante.carne hc),
        (cadenaLeida_eq_iff _ h2).1 (congrArg Estudiante.genero hc),
        (cadenaLeida_eq_iff _ h3).1 (congrArg Estudiante.residencia hc),
        (cadenaLeida_eq_iff _ h4).1 (congrArg Estudiante.colegioProcedencia hc),
        (cadenaLeida_eq_iff _ h5).1 (congrArg Estudiante.tipoColegio hc),
        (cadenaLeida_eq_iff _ h6).1 (congrArg Estudiante.estadoCivil hc)⟩
    · rintro ⟨h1, h2, h3, h4, h5, h6⟩
      simp only [escribirEstudiante, List.append_assoc]
      unfold leerEstudiante
      rw [(leerCadena_ida_y_vuelta _ _).2 h1]
      simp only [Lectura.luego]
      rw [(leerCadena_ida_y_vuelta _ _).2 h2]
      simp only [Lectura.luego]
      rw [(leerCadena_ida_y_vuelta _ _).2 h3]
      simp only [Lectura.luego]
      rw [leerInt32_escribirInt32 _ he1 he2]
      simp only [Lectura.luego]
      rw [(leerCadena_ida_y_vuelta _ _).2 h4]
      simp only [Lectura.luego]
      rw [(leerCadena_ida_y_vuelta _ _).2 h5]
      simp only [Lectura.luego]
      rw [leerBooleano_escribirBooleano]
      simp only [Lectura.luego]
      rw [(leerCadena_ida_y_vuelta _ resto).2 h6]
    · intro b1 b2 b3 b4 b5 b6 hno
      simp only [escribirEstudiante, List.append_assoc]
      unfold leerEstudiante
      rw [leerCadena_escribirCadena, Nat.mod_eq_of_lt b1]
      by_cases h1 : 10000 < e.carne.length
      · rw [if_pos h1]
        rfl
      rw [if_neg h1]
      simp only [Lectura.luego]
      rw [leerCadena_escribirCadena, Nat.mod_eq_of_lt b2]
      by_cases h2 : 10000 < e.genero.length
      · rw [if_pos h2]
      rw [if_neg h2]
      simp only [Lectura.luego]
      rw [leerCadena_escribirCadena, Nat.mod_eq_of_lt b3]
      by_cases h3 : 10000 < e.residencia.length
      · rw [if_pos h3]
      rw [if_neg h3]
      simp only [Lectura.luego]
      rw [leerInt32_escribirInt32 _ he1 he2]
      simp only [Lectura.luego]
      rw [leerCadena_escribirCadena, Nat.mod_eq_of_lt b4]
      by_cases h4 : 10000 < e.colegioProcedencia.length
      · rw [if_pos h4]
      rw [if_neg h4]
      simp only [Lectura.luego]
      rw [leerCadena_escribirCadena, Nat.mod_eq_of_lt b5]
      by_cases h5 : 10000 < e.tipoColegio.length
      · rw [if_pos h5]
      rw [if_neg h5]
      simp only [Lectura.luego]
      rw [leerBooleano_escribirBooleano]
      simp only [Lectura.luego]
      rw [leerCadena_escribirCadena, Nat.mod_eq_of_lt b6]
      by_cases h6 : 10000 < e.estadoCivil.length
      · rw [if_pos h6]
      exact absurd ⟨by omega, by omega, by omega, by omega, by omega, by omega⟩ hno

/-- C23 on the string "A1", on a string of 10,001 characters and on a student
of the example: what is written for "A1" is the four bytes of the length 2
and the two characters; the string and the student are read back, the long
string makes `leerCadena` throw; the `int` -2 is written as the bytes 254,
255, 255, 255. -/
theorem C23_ida_y_vuelta_binaria_witness :
    "A1".length < 4294967296 ∧
    escribirCadena "A1" =
      [Char.ofNat 2, Char.ofNat 0, Char.ofNat 0, Char.ofNat 0, 'A', '1'] ∧
    leerCadena (escribirCadena "A1" ++ []) = .leido "A1" [] ∧
    (cadenaLarga 10001).length < 4294967296 ∧ 10000 < (cadenaLarga 10001).length ∧
    leerCadena (escribirCadena (cadenaLarga 10001) ++ []) =
      .excepcion mensajeLongitudInvalida ∧
    escribirInt32 (-2) = [Char.ofNat 254, Char.ofNat 255, Char.ofNat 255, Char.ofNat 255] ∧
    -2147483648 ≤ (estudianteEjemplo "A1" "F" 20).edad ∧
    (estudianteEjemplo "A1" "F" 20).edad ≤ 2147483647 ∧
    leerEstudiante (escribirEstudiante (estudianteEjemplo "A1" "F" 20) ++ []) =
      .leido (estudianteEjemplo "A1" "F" 20) [] :=
  have hlarga : (cadenaLarga 10001).length = 10001 := cadenaLarga_length 10001
  ⟨by decide, by decide,
    ((C23_ida_y_vuelta_binaria.1 "A1" [] (by decide)).1).2 (by decide),
    by rw [hlarga]; decide, by rw [hlarga]; decide,
    (C23_ida_y_vuelta_binaria.1 (cadenaLarga 10001) [] (by rw [hlarga]; decide)).2
      (by rw [hlarga]; decide),
    by decide, by decide, by decide,
    ((C23_ida_y_vuelta_binaria.2 (estudianteEjemplo "A1" "F" 20) [] (by decide)
      (by decide)).1).2 ⟨by decide, by decide, by decide, by decide, by decide, by decide⟩⟩

/-! ## The statistics of a profile in the arithmetic of `double` -/

theorem espaciado_eq (x : ℚ) (e : Int) (hx : x ≠ 0) (h1 : (2 : ℚ) ^ e ≤ |x|)
    (h2 : |x| < (2 : ℚ) ^ (e + 1)) (he : -1022 ≤ e) : espaciado x = (2 : ℚ) ^ (e - 52) := by
  have hpos : 0 < |x| := abs_pos.2 hx
  have hlog : Int.log 2 |x| = e := by
    apply le_antisymm
    · have := (Int.lt_zpow_iff_log_lt (b := 2) (by decide) hpos).1
        (show |x| < ((2 : ℕ) : ℚ) ^ (e + 1) by exact_mod_cast h2)
      omega
    · exact (Int.zpow_le_iff_le_log (b := 2) (by decide) hpos).1
        (show ((2 : ℕ) : ℚ) ^ e ≤ |x| by exact_mod_cast h1)
  unfold espaciado
  rw [hlog, max_eq_left he]

/-- The result of an operation with exact result `x`, from the binade of `x`
and the nearest integer multiple of the spacing. -/
theorem redondear_eq (x : ℚ) (e m : Int) (hx : x ≠ 0) (h1 : (2 : ℚ) ^ e ≤ |x|)
    (h2 : |x| < (2 : ℚ) ^ (e + 1)) (he : -1022 ≤ e)
    (hm : enteroCercano (x / (2 : ℚ) ^ (e - 52)) = m)
    (hfin : |(m : ℚ) * (2 : ℚ) ^ (e - 52)| < (2 : ℚ) ^ (1024 : ℕ)) :
    redondear x = .finito ((m : ℚ) * (2 : ℚ) ^ (e - 52)) := by
  unfold redondear
  rw [if_neg hx, espaciado_eq x e hx h1 h2 he, hm, if_neg (not_le.2 hfin)]

theorem enteroCercano_entero (n : Int) : enteroCercano (n : ℚ) = n := by
  unfold enteroCercano
  simp

/-- Half way between an odd integer and the next one, the nearest integer
is the next one, which is even. -/
theorem enteroCercano_mitad_impar (n : Int) (hn : n % 2 = 1) :
    enteroCercano ((n : ℚ) + 1 / 2) = n + 1 := by
  have hpiso : ⌊(n : ℚ) + 1 / 2⌋ = n := by
    rw [Int.floor_eq_iff]
    constructor <;> norm_num
  unfold enteroCercano
  rw [hpiso]
  have hresto : (n : ℚ) + 1 / 2 - (n : ℚ) = 1 / 2 := by ring
  rw [hresto, if_neg (lt_irrefl _), if_neg (lt_irrefl _), if_neg (by omega)]

/-- A rational that is an integer multiple of the spacing of its binade, and
smaller than `2 ^ 1024` in magnitude, is a double: it is the result of an
operation of which it is the exact result. -/
theorem redondear_exacto (x : ℚ) (e m : Int) (hx : x ≠ 0) (h1 : (2 : ℚ) ^ e ≤ |x|)
    (h2 : |x| < (2 : ℚ) ^ (e + 1)) (he : -1022 ≤ e)
    (hm : x = (m : ℚ) * (2 : ℚ) ^ (e - 52)) (hfin : |x| < (2 : ℚ) ^ (1024 : ℕ)) :
    redondear x = .finito x := by
  have hpos : (0 : ℚ) < (2 : ℚ) ^ (e - 52) := zpow_pos (by norm_num) _
  have hdiv : x / (2 : ℚ) ^ (e - 52) = (m : ℚ) := by
    rw [hm]
    field_simp
  have h := redondear_eq x e m hx h1 h2 he (by rw [hdiv, enteroCercano_entero])
    (by rw [← hm]; exact hfin)
  rw [h, ← hm]

theorem redondear_exacto_pos (x : ℚ) (e m : Int) (hx : 0 < x) (h1 : (2 : ℚ) ^ e ≤ x)
    (h2 : x < (2 : ℚ) ^ (e + 1)) (he : -1022 ≤ e)
    (hm : x = (m : ℚ) * (2 : ℚ) ^ (e - 52)) (hfin : x < (2 : ℚ) ^ (1024 : ℕ)) :
    redondear x = .finito x :=
  redondear_exacto x e m (ne_of_gt hx) (by rw [abs_of_pos hx]; exact h1)
    (by rw [abs_of_pos hx]; exact h2) he hm (by rw [abs_of_pos hx]; exact hfin)

/-- The conversions and the operations on the doubles of the examples. -/
theorem dobles_ejemplo :
    (Doble.deNat 0 : Binario64) = .finito 0 ∧ (Doble.deNat 1 : Binario64) = .finito 1 ∧
    (Doble.deNat 2 : Binario64) = .finito 2 ∧ (Doble.deNat 3 : Binario64) = .finito 3 ∧
    (Doble.deNat 70 : Binario64) = .finito 70 ∧
    redondear 60 = .finito 60 ∧ redondear 70 = .finito 70 ∧ redondear 140 = .finito 140 ∧
    redondear 180 = .finito 180 ∧ redondear (1 / 2) = .finito (1 / 2) ∧
    redondear (60 - 1 / 2 ^ 47) = .finito (60 - 1 / 2 ^ 47) ∧
    redondear (60 - 1 / 2 ^ 47 + 60) = .finito 120 := by
  have h0 : (Doble.deNat 0 : Binario64) = .finito 0 := by
    show redondear ((0 : ℕ) : ℚ) = _
    simp [redondear]
  have h1 : redondear 1 = .finito 1 :=
    redondear_exacto_pos 1 0 (2 ^ 52) (by norm_num) (by norm_num) (by norm_num) (by norm_num)
      (by norm_num) (by norm_num)
  have h2 : redondear 2 = .finito 2 :=
    redondear_exacto_pos 2 1 (2 ^ 52) (by norm_num) (by norm_num) (by norm_num) (by norm_num)
      (by norm_num) (by norm_num)
  have h3 : redondear 3 = .finito 3 :=
    redondear_exacto_pos 3 1 (3 * 2 ^ 51) (by norm_num) (by norm_num) (by norm_num) (by norm_num)
      (by norm_num) (by norm_num)
  have h60 : redondear 60 = .finito 60 :=
    redondear_exacto_pos 60 5 (60 * 2 ^ 47) (by norm_num) (by norm_num) (by norm_num)
      (by norm_num) (by norm_num) (by norm_num)
  have h70 : redondear 70 = .finito 70 :=
    redondear_exacto_pos 70 6 (70 * 2 ^ 46) (by norm_num) (by norm_num) (by norm_num)
      (by norm_num) (by norm_num) (by norm_num)
  have h140 : redondear 140 = .finito 140 :=
    redondear_exacto_pos 140 7 (140 * 2 ^ 45) (by norm_num) (by norm_num) (by norm_num)
      (by norm_num) (by norm_num) (by norm_num)
  have h180 : redondear 180 = .finito 180 :=
    redondear_exacto_pos 180 7 (180 * 2 ^ 45) (by norm_num) (by norm_num) (by norm_num)
      (by norm_num) (by norm_num) (by norm_num)
  have hmedio : redondear (1 / 2) = .finito (1 / 2) :=
    redondear_exacto_pos (1 / 2) (-1) (2 ^ 52) (by norm_num) (by norm_num) (by norm_num)
      (by norm_num) (by norm_num) (by norm_num)
  have hcasi : redondear (60 - 1 / 2 ^ 47) = .finito (60 - 1 / 2 ^ 47) :=
    redondear_exacto_pos (60 - 1 / 2 ^ 47) 5 (60 * 2 ^ 47 - 1) (by norm_num) (by norm_num)
      (by norm_num) (by norm_num) (by norm_num) (by norm_num)
  have hempate : redondear (60 - 1 / 2 ^ 47 + 60) = .finito 120 := by
    have hm : enteroCercano ((60 - 1 / 2 ^ 47 + 60 : ℚ) / (2 : ℚ) ^ ((6 : ℤ) - 52)) =
        120 * 2 ^ 46 := by
      have hx : (60 - 1 / 2 ^ 47 + 60 : ℚ) / (2 : ℚ) ^ ((6 : ℤ) - 52) =
          ((120 * 2 ^ 46 - 1 : Int) : ℚ) + 1 / 2 := by norm_num
      rw [hx, enteroCercano_mitad_impar _ (by decide)]
      norm_num
    have hpos : (0 : ℚ) < 60 - 1 / 2 ^ 47 + 60 := by norm_num
    have h := redondear_eq (60 - 1 / 2 ^ 47 + 60) 6 (120 * 2 ^ 46) (ne_of_gt hpos)
      (by rw [abs_of_pos hpos]; norm_num) (by rw [abs_of_pos hpos]; norm_num) (by norm_num) hm
      (by norm_num)
    rw [h]
    norm_num
  refine ⟨h0, ?_, ?_, ?_, ?_, h60, h70, h140, h180, hmedio, hcasi, hempate⟩
  · show redondear ((1 : ℕ) : ℚ) = _
    rw [Nat.cast_one, h1]
  · show redondear ((2 : ℕ) : ℚ) = _
    rw [Nat.cast_ofNat, h2]
  · show redondear ((3 : ℕ) : ℚ) = _
    rw [Nat.cast_ofNat, h3]
  · show redondear ((70 : ℕ) : ℚ) = _
    rw [Nat.cast_ofNat, h70]

/-- The statistics of a profile with grades: the grades are added to `0.0`
in the order of the history and the sum is divided by the number of entries;
the number of entries with `nota >= 70.0` is divided by the number of
entries. The operations are those of `double`. -/
theorem estadisticas_de_perfil {F : Type} [Doble F] (estudiantes : List Estudiante)
    (registros : List (RegistroHistorial F)) (p : PerfilEstudiante F)
    (hp : p ∈ cargarPerfiles estudiantes registros) (hne : p.historial ≠ []) :
    p.promedio = some (Doble.cociente
      (p.historial.foldl (fun suma entrada => Doble.suma suma entrada.nota) (Doble.deNat 0))
      (Doble.deNat p.historial.length)) ∧
    p.tasaAprobacion = some (Doble.cociente
      (Doble.deNat (p.historial.countP
        (fun entrada => Doble.mayorIgual entrada.nota (Doble.deNat 70 : F))))
      (Doble.deNat p.historial.length)) := by
  rw [cargarPerfiles_eq] at hp
  have h := perfilesSegun_forma _ _ p hp
  have hv : p.historial.isEmpty = false := by
    cases hh : p.historial with
    | nil => exact absurd hh hne
    | cons x xs => rfl
  constructor
  · conv_lhs => rw [h]
    simp only [armarPerfil, hv, acumularNotas_eq]
    rfl
  · conv_lhs => rw [h]
    simp only [armarPerfil, hv, acumularNotas_eq]
    rfl

/-- The profile that `cargarPerfiles` returns for the student `A1` alone and
grade entries that are all of `A1`. -/
theorem perfil_de_A1 (notas : List Binario64) :
    ∃ p, cargarPerfiles [estudianteEjemplo "A1" "F" 20] (notas.map registroDoble) = [p] ∧
      p.historial = notas.map registroDoble := by
  rw [cargarPerfiles_eq]
  refine ⟨_, rfl, ?_⟩
  rw [armarPerfil_historial]
  apply List.filter_eq_self.2
  intro r hr
  obtain ⟨n, _, rfl⟩ := List.mem_map.1 hr
  simp [registroDoble, estudianteEjemplo]

/-- C9, as stated, fails: the grades `60 - 2^-47`, 60 and 60 are doubles, and
for a student with these three grades `promedio` is exactly 60, while the sum
of the three grades divided by 3 is smaller than 60. The first addition to
`0.0` is exact, the second gives 120 (the exact sum lies half way between two
doubles), the third gives 180, and the division gives 60. -/
theorem C9_contraejemplo :
    redondear (60 - 1 / 2 ^ 47) = .finito (60 - 1 / 2 ^ 47) ∧
    redondear 60 = .finito 60 ∧
    (cargarPerfiles [estudianteEjemplo "A1" "F" 20]
        [registroDoble (.finito (60 - 1 / 2 ^ 47)), registroDoble (.finito 60),
          registroDoble (.finito 60)]).map (fun p => p.promedio) = [some (.finito 60)] ∧
    ((60 - 1 / 2 ^ 47 : ℚ) + 60 + 60) / 3 ≠ 60 := by
  obtain ⟨h0, _, _, h3, _, h60, _, _, h180, _, hcasi, hempate⟩ := dobles_ejemplo
  refine ⟨hcasi, h60, ?_, by norm_num⟩
  obtain ⟨p, hp, hh⟩ := perfil_de_A1 [.finito (60 - 1 / 2 ^ 47), .finito 60, .finito 60]
  have hlista : [Binario64.finito (60 - 1 / 2 ^ 47), .finito 60, .finito 60].map
      registroDoble = [registroDoble (.finito (60 - 1 / 2 ^ 47)), registroDoble (.finito 60),
        registroDoble (.finito 60)] := rfl
  rw [hlista] at hp hh
  have hprom := (estadisticas_de_perfil _ _ p (by rw [hp]; exact List.mem_singleton.2 rfl)
    (by rw [hh]; exact List.cons_ne_nil _ _)).1
  rw [hp, List.map_cons, List.map_nil, hprom, hh]
  simp only [List.foldl_cons, List.foldl_nil, List.length_cons, List.length_nil, registroDoble]
  rw [h0, h3]
  show [some (Binario64.cociente (Binario64.suma (Binario64.suma
    (Binario64.suma (.finito 0) (.finito (60 - 1 / 2 ^ 47))) (.finito 60)) (.finito 60))
    (.finito 3))] = _
  have e1 : Binario64.suma (.finito 0) (.finito (60 - 1 / 2 ^ 47)) =
      .finito (60 - 1 / 2 ^ 47) := by
    show redondear (0 + (60 - 1 / 2 ^ 47)) = _
    rw [zero_add, hcasi]
  have e2 : Binario64.suma (.finito (60 - 1 / 2 ^ 47)) (.finito 60) = .finito 120 := hempate
  have e3 : Binario64.suma (.finito 120) (.finito 60) = .finito 180 := by
    rw [Binario64.suma]
    have hq : (120 : ℚ) + 60 = 180 := by norm_num
    rw [hq, h180]
  have e4 : Binario64.cociente (.finito 180) (.finito 3) = .finito 60 := by
    rw [Binario64.cociente, if_neg (by norm_num)]
    have hq : (180 : ℚ) / 3 = 60 := by norm_num
    rw [hq, h60]
  rw [e1, e2, e3, e4]

/-- The profile of `A1` with the grades 60 and 80: in the arithmetic of
`double` the mean is exactly 70 and the pass ratio exactly 1/2. -/
theorem cargarPerfiles_doble :
    cargarPerfiles [estudianteEjemplo "A1" "F" 20]
      [registroDoble (.finito 60), registroDoble (.finito 80)] = [perfilDoble] := by
  obtain ⟨h0, h1, h2, _, h70d, h60, h70, h140, _, hmedio, _, _⟩ := dobles_ejemplo
  obtain ⟨p, hp, hh⟩ := perfil_de_A1 [.finito 60, .finito 80]
  have hlista : [Binario64.finito 60, .finito 80].map registroDoble =
      [registroDoble (.finito 60), registroDoble (.finito 80)] := rfl
  rw [hlista] at hp hh
  have hest : p.estudiante = estudianteEjemplo "A1" "F" 20 := by
    have hm : p ∈ cargarPerfiles [estudianteEjemplo "A1" "F" 20]
        [registroDoble (.finito 60), registroDoble (.finito 80)] := by
      rw [hp]; exact List.mem_singleton.2 rfl
    rw [cargarPerfiles_eq] at hm
    simp only [perfilesSegun, List.mem_singleton] at hm
    rw [hm, armarPerfil_estudiante]
  obtain ⟨hprom, htasa⟩ := estadisticas_de_perfil _ _ p
    (by rw [hp]; exact List.mem_singleton.2 rfl) (by rw [hh]; exact List.cons_ne_nil _ _)
  rw [hh] at hprom htasa
  simp only [List.foldl_cons, List.foldl_nil, List.length_cons, List.length_nil,
    registroDoble] at hprom htasa
  have e1 : Binario64.suma (.finito 0) (.finito 60) = .finito 60 := by
    rw [Binario64.suma]
    have hq : (0 : ℚ) + 60 = 60 := by norm_num
    rw [hq, h60]
  have e2 : Binario64.suma (.finito 60) (.finito 80) = .finito 140 := by
    rw [Binario64.suma]
    have hq : (60 : ℚ) + 80 = 140 := by norm_num
    rw [hq, h140]
  have e3 : Binario64.cociente (.finito 140) (.finito 2) = .finito 70 := by
    rw [Binario64.cociente, if_neg (by norm_num)]
    have hq : (140 : ℚ) / 2 = 70 := by norm_num
    rw [hq, h70]
  have e4 : Binario64.cociente (.finito 1) (.finito 2) = .finito (1 / 2) := by
    rw [Binario64.cociente, if_neg (by norm_num), hmedio]
  have hcuenta : List.countP
      (fun entrada : RegistroHistorial Binario64 =>
        Doble.mayorIgual entrada.nota (Doble.deNat 70 : Binario64))
      [{ carneEstudiante := "A1", semestre := 1, materia := "Calculo", nota := .finito 60 },
        { carneEstudiante := "A1", semestre := 1, materia := "Calculo", nota := .finito 80 }] =
      1 := by
    rw [h70d]
    have m1 : Doble.mayorIgual (Binario64.finito 60) (Binario64.finito 70) = false := by
      show decide ((70 : ℚ) ≤ 60) = false
      norm_num
    have m2 : Doble.mayorIgual (Binario64.finito 80) (Binario64.finito 70) = true := by
      show decide ((70 : ℚ) ≤ 80) = true
      norm_num
    simp [List.countP_cons, m1, m2]
  rw [hcuenta, h1] at htasa
  rw [h0] at hprom
  have hp2 : (Doble.deNat (0 + 1 + 1) : Binario64) = .finito 2 := h2
  rw [hp2] at hprom htasa
  have hprom2 : p.promedio = some (.finito 70) := by
    rw [hprom]
    show some (Binario64.cociente (Binario64.suma (Binario64.suma (.finito 0) (.finito 60))
      (.finito 80)) (.finito 2)) = _
    rw [e1, e2, e3]
  have htasa2 : p.tasaAprobacion = some (.finito (1 / 2)) := by
    rw [htasa]
    show some (Binario64.cociente (.finito 1) (.finito 2)) = _
    rw [e4]
  rw [hp]
  congr 1
  cases p with
  | mk est hist prom tasa =>
    simp only at hest hh hprom2 htasa2
    rw [hest, hh, hprom2, htasa2]
    rfl

/-- A natural number below `2 ^ 53` is a double. -/
theorem redondear_natural (k : ℕ) (hk : k < 2 ^ 53) : redondear (k : ℚ) = .finito (k : ℚ) := by
  by_cases h0 : k = 0
  · subst h0
    simp [redondear]
  have hl : Nat.log 2 k < 53 := Nat.log_lt_of_lt_pow h0 hk
  have hpos : (0 : ℚ) < (k : ℚ) := by exact_mod_cast Nat.pos_of_ne_zero h0
  have h1 : (2 : ℚ) ^ ((Nat.log 2 k : ℕ) : ℤ) ≤ (k : ℚ) := by
    rw [zpow_natCast]
    exact_mod_cast Nat.pow_log_le_self 2 h0
  have h2 : (k : ℚ) < (2 : ℚ) ^ (((Nat.log 2 k : ℕ) : ℤ) + 1) := by
    have h := Nat.lt_pow_succ_log_self (by decide : 1 < 2) k
    have e : (((Nat.log 2 k : ℕ) : ℤ) + 1) = ((Nat.log 2 k + 1 : ℕ) : ℤ) := by push_cast; ring
    rw [e, zpow_natCast]
    exact_mod_cast h
  have hm : (k : ℚ) = (((k * 2 ^ (52 - Nat.log 2 k) : ℕ) : ℤ) : ℚ) *
      (2 : ℚ) ^ (((Nat.log 2 k : ℕ) : ℤ) - 52) := by
    have e : (((Nat.log 2 k : ℕ) : ℤ) - 52) = -((52 - Nat.log 2 k : ℕ) : ℤ) := by omega
    rw [e, zpow_neg, zpow_natCast]
    push_cast
    field_simp
  have hfin : (k : ℚ) < (2 : ℚ) ^ (1024 : ℕ) := by
    have : (k : ℚ) < (2 : ℚ) ^ (53 : ℕ) := by exact_mod_cast hk
    exact lt_trans this (by norm_num)
  exact redondear_exacto_pos (k : ℚ) _ _ hpos h1 h2 (by omega) hm hfin

theorem deNat_natural (k : ℕ) (hk : k < 2 ^ 53) :
    (Doble.deNat k : Binario64) = .finito (k : ℚ) :=
  redondear_natural k hk

/-- Whole grades between 0 and 100 are added without rounding as long as the
sum stays below `2 ^ 53`. -/
theorem suma_notas_enteras (historial : List (RegistroHistorial Binario64)) (inicio : ℕ)
    (h : ∀ r ∈ historial, ∃ g : ℕ, g ≤ 100 ∧ r.nota = .finito (g : ℚ))
    (hcota : inicio + 100 * historial.length < 2 ^ 53) :
    historial.foldl (fun suma entrada => Doble.suma suma entrada.nota)
        (Binario64.finito (inicio : ℚ)) =
      .finito ((inicio : ℚ) + (historial.map fun r => r.nota.valor).sum) := by
  induction historial generalizing inicio with
  | nil => simp
  | cons r rs ih =>
    obtain ⟨g, hg, hr⟩ := h r (List.mem_cons_self _ _)
    rw [List.length_cons] at hcota
    rw [List.foldl_cons, hr]
    have hs : Doble.suma (Binario64.finito (inicio : ℚ)) (Binario64.finito (g : ℚ)) =
        Binario64.finito (((inicio + g : ℕ) : ℕ) : ℚ) := by
      show redondear ((inicio : ℚ) + (g : ℚ)) = _
      have e : (inicio : ℚ) + (g : ℚ) = ((inicio + g : ℕ) : ℚ) := by push_cast; ring
      rw [e]
      exact redondear_natural _ (by omega)
    rw [hs, ih (inicio + g) (fun x hx => h x (List.mem_cons_of_mem _ hx)) (by omega)]
    simp only [List.map_cons, List.sum_cons, hr, Binario64.valor]
    push_cast
    ring_nf

/-- In the arithmetic of `double`, the mean of whole grades between 0 and 100,
fewer than `2 ^ 46` of them, is the double nearest to their exact mean. -/
theorem promedio_notas_enteras (estudiantes : List Estudiante)
    (registros : List (RegistroHistorial Binario64)) (p : PerfilEstudiante Binario64)
    (hp : p ∈ cargarPerfiles estudiantes registros) (hne : p.historial ≠ [])
    (h : ∀ r ∈ p.historial, ∃ g : ℕ, g ≤ 100 ∧ r.nota = .finito (g : ℚ))
    (hn : p.historial.length < 2 ^ 46) :
    p.promedio = some (redondear
      ((p.historial.map fun r => r.nota.valor).sum / (p.historial.length : ℚ))) := by
  rw [(estadisticas_de_perfil estudiantes registros p hp hne).1]
  have h0 : (Doble.deNat 0 : Binario64) = .finito ((0 : ℕ) : ℚ) := deNat_natural 0 (by norm_num)
  have hlen : (Doble.deNat p.historial.length : Binario64) =
      .finito (p.historial.length : ℚ) := deNat_natural _ (by omega)
  rw [h0, suma_notas_enteras p.historial 0 h (by omega), hlen]
  have hpos : (p.historial.length : ℚ) ≠ 0 := by
    have : p.historial.length ≠ 0 := fun h0 => hne (List.length_eq_zero.1 h0)
    exact_mod_cast this
  show some (Binario64.cociente _ _) = _
  rw [Binario64.cociente, if_neg hpos]
  simp

/-- In the arithmetic of `double`, the pass ratio of fewer than `2 ^ 53`
grades is the double nearest to the exact ratio of the number of grades with
`nota >= 70.0` to the number of grades. -/
theorem tasa_doble (estudiantes : List Estudiante)
    (registros : List (RegistroHistorial Binario64)) (p : PerfilEstudiante Binario64)
    (hp : p ∈ cargarPerfiles estudiantes registros) (hne : p.historial ≠ [])
    (hn : p.historial.length < 2 ^ 53) :
    p.tasaAprobacion = some (redondear
      (((p.historial.countP fun r => Doble.mayorIgual r.nota (Binario64.finito 70) : ℕ) : ℚ) /
        (p.historial.length : ℚ))) := by
  rw [(estadisticas_de_perfil estudiantes registros p hp hne).2]
  have h70 : (Doble.deNat 70 : Binario64) = .finito 70 := by
    have := deNat_natural 70 (by norm_num)
    simpa using this
  have hlen : (Doble.deNat p.historial.length : Binario64) =
      .finito (p.historial.length : ℚ) := deNat_natural _ hn
  have hc : List.countP (fun r : RegistroHistorial Binario64 =>
      Doble.mayorIgual r.nota (Binario64.finito 70)) p.historial < 2 ^ 53 :=
    lt_of_le_of_lt (List.countP_le_length _) hn
  rw [h70, deNat_natural _ hc, hlen]
  have hpos : (p.historial.length : ℚ) ≠ 0 := by
    have : p.historial.length ≠ 0 := fun h0 => hne (List.length_eq_zero.1 h0)
    exact_mod_cast this
  show some (Binario64.cociente _ _) = _
  rw [Binario64.cociente, if_neg hpos]

/-- C9, amended: a profile returned by `cargarPerfiles` with a non-empty
history of `n` entries has as `promedio` the quotient by `n` of the sum of
the grades and as `tasaAprobacion` the quotient by `n` of the number of
entries with `nota >= 70.0`, the additions, starting at `0.0` and in the
order of the history, and the divisions being those of `double`, each rounded
to the nearest double. An entry with the grade 70 counts as passed: alone it
gives the pass ratio 1. The grades 60 and 80 give exactly 70 and 1/2. For
`n < 2 ^ 53` the pass ratio is the double nearest to the exact ratio, and for
whole grades between 0 and 100 with `n < 2 ^ 46` the mean is the double
nearest to the sum of the grades divided by `n`. -/
theorem C9_promedio_y_tasa :
    (∀ (F : Type) [Doble F] (estudiantes : List Estudiante)
      (registros : List (RegistroHistorial F)) (p : PerfilEstudiante F),
      p ∈ cargarPerfiles estudiantes registros → p.historial ≠ [] →
        p.promedio = some (Doble.cociente
          (p.historial.foldl (fun suma entrada => Doble.suma suma entrada.nota) (Doble.deNat 0))
          (Doble.deNat p.historial.length)) ∧
        p.tasaAprobacion = some (Doble.cociente
          (Doble.deNat (p.historial.countP
            (fun entrada => Doble.mayorIgual entrada.nota (Doble.deNat 70 : F))))
          (Doble.deNat p.historial.length))) ∧
    (∀ a b : ℚ, Binario64.suma (.finito a) (.finito b) = redondear (a + b)) ∧
    (∀ a b : ℚ, b ≠ 0 → Binario64.cociente (.finito a) (.finito b) = redondear (a / b)) ∧
    (∀ a : ℚ, Doble.mayorIgual (Binario64.finito a) (Doble.deNat 70) = decide (70 ≤ a)) ∧
    (cargarPerfiles [estudianteEjemplo "A1" "F" 20] [registroDoble (.finito 70)]).map
      (fun p => p.tasaAprobacion) = [some (.finito 1)] ∧
    cargarPerfiles [estudianteEjemplo "A1" "F" 20]
      [registroDoble (.finito 60), registroDoble (.finito 80)] = [perfilDoble] ∧
    (∀ (estudiantes : List Estudiante) (registros : List (RegistroHistorial Binario64))
      (p : PerfilEstudiante Binario64),
      p ∈ cargarPerfiles estudiantes registros → p.historial ≠ [] →
      p.historial.length < 2 ^ 53 →
        p.tasaAprobacion = some (redondear
          (((p.historial.countP fun r => Doble.mayorIgual r.nota (Binario64.finito 70) : ℕ) : ℚ) /
            (p.historial.length : ℚ)))) ∧
    (∀ (estudiantes : List Estudiante) (registros : List (RegistroHistorial Binario64))
      (p : PerfilEstudiante Binario64),
      p ∈ cargarPerfiles estudiantes registros → p.historial ≠ [] →
      (∀ r ∈ p.historial, ∃ g : ℕ, g ≤ 100 ∧ r.nota = .finito (g : ℚ)) →
      p.historial.length < 2 ^ 46 →
        p.promedio = some (redondear
          ((p.historial.map fun r => r.nota.valor).sum / (p.historial.length : ℚ)))) := by
  obtain ⟨_, h1, _, _, h70d, _, _, _, _, _, _, _⟩ := dobles_ejemplo
  have hmayor : ∀ a : ℚ,
      Doble.mayorIgual (Binario64.finito a) (Doble.deNat 70) = decide (70 ≤ a) := by
    intro a
    rw [h70d]
    rfl
  refine ⟨fun F _ => estadisticas_de_perfil, fun a b => rfl, ?_, hmayor, ?_,
    cargarPerfiles_doble, tasa_doble, promedio_notas_enteras⟩
  · intro a b hb
    rw [Binario64.cociente, if_neg hb]
  · obtain ⟨p, hp, hh⟩ := perfil_de_A1 [.finito 70]
    have hlista : [Binario64.finito 70].map registroDoble = [registroDoble (.finito 70)] := rfl
    rw [hlista] at hp hh
    have htasa := (estadisticas_de_perfil _ _ p (by rw [hp]; exact List.mem_singleton.2 rfl)
      (by rw [hh]; exact List.cons_ne_nil _ _)).2
    rw [hp, List.map_cons, List.map_nil, htasa, hh]
    have hcuenta : List.countP
        (fun entrada : RegistroHistorial Binario64 =>
          Doble.mayorIgual entrada.nota (Doble.deNat 70 : Binario64))
        [registroDoble (.finito 70)] = 1 := by
      simp [List.countP_cons, registroDoble, hmayor]
    rw [hcuenta]
    simp only [List.length_cons, List.length_nil]
    rw [show (Doble.deNat (0 + 1) : Binario64) = .finito 1 from h1]
    show [some (Binario64.cociente (.finito 1) (.finito 1))] = _
    rw [Binario64.cociente, if_neg (by norm_num)]
    have hq : (1 : ℚ) / 1 = 1 := by norm_num
    rw [hq]
    have : redondear 1 = .finito 1 := h1
    rw [this]

/-- C9, amended, at the profile of `A1` with the grades 60 and 80. -/
theorem C9_promedio_y_tasa_witness :
    perfilDoble ∈ cargarPerfiles [estudianteEjemplo "A1" "F" 20]
      [registroDoble (.finito 60), registroDoble (.finito 80)] ∧
    perfilDoble.historial ≠ [] ∧
    perfilDoble.historial.length < 2 ^ 53 ∧
    (∀ r ∈ perfilDoble.historial, ∃ g : ℕ, g ≤ 100 ∧ r.nota = .finito (g : ℚ)) ∧
    perfilDoble.historial.length < 2 ^ 46 ∧
    (perfilDoble.promedio = some (Doble.cociente
        (perfilDoble.historial.foldl (fun suma entrada => Doble.suma suma entrada.nota)
          (Doble.deNat 0))
        (Doble.deNat perfilDoble.historial.length)) ∧
      perfilDoble.tasaAprobacion = some (Doble.cociente
        (Doble.deNat (perfilDoble.historial.countP
          (fun entrada => Doble.mayorIgual entrada.nota (Doble.deNat 70 : Binario64))))
        (Doble.deNat perfilDoble.historial.length))) ∧
    perfilDoble.tasaAprobacion = some (redondear
      (((perfilDoble.historial.countP
          fun r => Doble.mayorIgual r.nota (Binario64.finito 70) : ℕ) : ℚ) /
        (perfilDoble.historial.length : ℚ))) ∧
    perfilDoble.promedio = some (redondear
      ((perfilDoble.historial.map fun r => r.nota.valor).sum /
        (perfilDoble.historial.length : ℚ))) :=
  have hm : perfilDoble ∈ cargarPerfiles [estudianteEjemplo "A1" "F" 20]
      [registroDoble (.finito 60), registroDoble (.finito 80)] := by
    rw [cargarPerfiles_doble]
    exact List.mem_singleton.2 rfl
  have hn : perfilDoble.historial ≠ [] := List.cons_ne_nil _ _
  have h53 : perfilDoble.historial.length < 2 ^ 53 := by
    show 2 < 2 ^ 53
    norm_num
  have h46 : perfilDoble.historial.length < 2 ^ 46 := by
    show 2 < 2 ^ 46
    norm_num
  have hg : ∀ r ∈ perfilDoble.historial, ∃ g : ℕ, g ≤ 100 ∧ r.nota = .finito (g : ℚ) := by
    intro r hr
    have hr2 : r ∈ [registroDoble (.finito 60), registroDoble (.finito 80)] := hr
    rcases List.mem_cons.1 hr2 with h | h
    · exact ⟨60, by norm_num, by rw [h]; simp [registroDoble]⟩
    · rw [List.mem_singleton.1 h]
      exact ⟨80, by norm_num, by simp [registroDoble]⟩
  ⟨hm, hn, h53, hg, h46, C9_promedio_y_tasa.1 Binario64 _ _ perfilDoble hm hn,
    C9_promedio_y_tasa.2.2.2.2.2.2.1 _ _ perfilDoble hm hn h53,
    C9_promedio_y_tasa.2.2.2.2.2.2.2 _ _ perfilDoble hm hn hg h46⟩

/-! ## Reading a file of written records -/

theorem leerInt32_escrito (x : Int) (resto : Flujo) :
    leerInt32 (escribirInt32 x ++ resto) = .leido (envolver x) resto := by
  unfold leerInt32 escribirInt32
  rw [leerUint32_escribirUint32 _ (by omega)]
  rfl

/-- What `leerEstudiante` does with the bytes of a record followed by any
bytes. -/
theorem leerEstudiante_escrito (e : Estudiante) (resto : Flujo) :
    leerEstudiante (escribirEstudiante e ++ resto) =
      match releerEstudiante e with
      | .error mensaje => .excepcion mensaje
      | .ok leido => .leido leido resto := by
  simp only [escribirEstudiante, List.append_assoc]
  unfold leerEstudiante releerEstudiante
  rw [leerCadena_escribirCadena]
  by_cases h1 : 10000 < e.carne.length % 4294967296
  · rw [if_pos h1, if_pos (Or.inl h1)]
    rfl
  rw [if_neg h1]
  simp only [Lectura.luego]
  rw [leerCadena_escribirCadena]
  by_cases h2 : 10000 < e.genero.length % 4294967296
  · rw [if_pos h2, if_pos (Or.inr (Or.inl h2))]
  rw [if_neg h2]
  simp only [Lectura.luego]
  rw [leerCadena_escribirCadena]
  by_cases h3 : 10000 < e.residencia.length % 4294967296
  · rw [if_pos h3, if_pos (Or.inr (Or.inr (Or.inl h3)))]
  rw [if_neg h3]
  simp only [Lectura.luego]
  rw [leerInt32_escrito]
  simp only [Lectura.luego]
  rw [leerCadena_escribirCadena]
  by_cases h4 : 10000 < e.colegioProcedencia.length % 4294967296
  · rw [if_pos h4, if_pos (Or.inr (Or.inr (Or.inr (Or.inl h4))))]
  rw [if_neg h4]
  simp only [Lectura.luego]
  rw [leerCadena_escribirCadena]
  by_cases h5 : 10000 < e.tipoColegio.length % 4294967296
  · rw [if_pos h5, if_pos (Or.inr (Or.inr (Or.inr (Or.inr (Or.inl h5)))))]
  rw [if_neg h5]
  simp only [Lectura.luego]
  rw [leerBooleano_escribirBooleano]
  simp only [Lectura.luego]
  rw [leerCadena_escribirCadena]
  by_cases h6 : 10000 < e.estadoCivil.length % 4294967296
  · rw [if_pos h6, if_pos (Or.inr (Or.inr (Or.inr (Or.inr (Or.inr h6)))))]
  rw [if_neg h6, if_neg (by
    rintro (h | h | h | h | h | h)
    · exact h1 h
    · exact h2 h
    · exact h3 h
    · exact h4 h
    · exact h5 h
    · exact h6 h)]

theorem archivo_cons (e : Estudiante) (rs : List Estudiante) :
    RepositorioEstudiantes.archivo (e :: rs) =
      escribirEstudiante e ++ RepositorioEstudiantes.archivo rs := by
  simp [RepositorioEstudiantes.archivo]

theorem escribirEstudiante_length (e : Estudiante) : 1 ≤ (escribirEstudiante e).length := by
  simp only [escribirEstudiante, escribirCadena, escribirUint32, List.length_append,
    List.length_cons]
  omega

theorem archivo_length (rs : List Estudiante) :
    rs.length ≤ (RepositorioEstudiantes.archivo rs).length := by
  induction rs with
  | nil => simp
  | cons e rs ih =>
    rw [archivo_cons, List.length_append, List.length_cons]
    have := escribirEstudiante_length e
    omega

/-- The loop of `cargarTodos` on the bytes of a file of written records reads
the records one by one; as many turns as records, and one more, are enough. -/
theorem leerEstudiantes_archivo (rs : List Estudiante) (vueltas : Nat)
    (h : rs.length + 1 ≤ vueltas) :
    leerEstudiantes vueltas (RepositorioEstudiantes.archivo rs) = releerEstudiantes rs := by
  induction rs generalizing vueltas with
  | nil =>
    obtain ⟨k, rfl⟩ : ∃ k, vueltas = k + 1 := ⟨vueltas - 1, by simp at h; omega⟩
    rfl
  | cons e rs ih =>
    obtain ⟨k, rfl⟩ : ∃ k, vueltas = k + 1 := ⟨vueltas - 1, by simp at h; omega⟩
    have hk : rs.length + 1 ≤ k := by simp at h; omega
    rw [archivo_cons, leerEstudiantes, leerEstudiante_escrito, releerEstudiantes]
    cases hr : releerEstudiante e with
    | error m => rfl
    | ok leido =>
      simp only []
      rw [ih k hk]

/-- The loop of `existe` on the bytes of a file of written records. -/
theorem buscarCarne_archivo (carne : String) (rs : List Estudiante) (vueltas : Nat)
    (h : rs.length + 1 ≤ vueltas) :
    buscarCarne carne vueltas (RepositorioEstudiantes.archivo rs) = buscarEscrito carne rs := by
  induction rs generalizing vueltas with
  | nil =>
    obtain ⟨k, rfl⟩ : ∃ k, vueltas = k + 1 := ⟨vueltas - 1, by simp at h; omega⟩
    rfl
  | cons e rs ih =>
    obtain ⟨k, rfl⟩ : ∃ k, vueltas = k + 1 := ⟨vueltas - 1, by simp at h; omega⟩
    have hk : rs.length + 1 ≤ k := by simp at h; omega
    rw [archivo_cons, buscarCarne, leerEstudiante_escrito, buscarEscrito]
    cases hr : releerEstudiante e with
    | error m => rfl
    | ok leido =>
      simp only []
      rw [ih k hk]

theorem cargarTodos_escritos (rs : RepositorioEstudiantes) :
    RepositorioEstudiantes.cargarTodos rs true = releerEstudiantes rs := by
  unfold RepositorioEstudiantes.cargarTodos
  rw [if_pos rfl, leerEstudiantes_archivo rs _ (by have := archivo_length rs; omega)]

theorem existe_escritos (rs : RepositorioEstudiantes) (carne : String) :
    RepositorioEstudiantes.existe rs carne true = buscarEscrito carne rs := by
  unfold RepositorioEstudiantes.existe
  rw [if_pos rfl, buscarCarne_archivo carne rs _ (by have := archivo_length rs; omega)]

theorem cadenaLeida_corta (s : String) (h : s.length ≤ 10000) : cadenaLeida s = s :=
  (cadenaLeida_eq_iff s (by omega)).2 h

/-- A record with strings of at most 10,000 bytes is read back with the same
strings. -/
theorem releerEstudiante_legible (e : Estudiante) (h : Legible e) :
    releerEstudiante e = .ok { e with edad := envolver e.edad } := by
  obtain ⟨h1, h2, h3, h4, h5, h6⟩ := h
  unfold releerEstudiante
  rw [if_neg (by omega), cadenaLeida_corta _ h1, cadenaLeida_corta _ h2, cadenaLeida_corta _ h3,
    cadenaLeida_corta _ h4, cadenaLeida_corta _ h5, cadenaLeida_corta _ h6]

/-- On a file of records with strings of at most 10,000 bytes `existe`
answers whether a record has the `carne`. -/
theorem buscarEscrito_legibles (carne : String) (rs : List Estudiante)
    (h : ∀ r ∈ rs, Legible r) :
    buscarEscrito carne rs = .ok (decide (∃ r ∈ rs, r.carne = carne)) := by
  induction rs with
  | nil => simp [buscarEscrito]
  | cons e rs ih =>
    rw [buscarEscrito, releerEstudiante_legible e (h e (List.mem_cons_self _ _))]
    simp only []
    by_cases hc : e.carne = carne
    · rw [if_pos hc]
      simp [hc]
    · rw [if_neg hc, ih (fun r hr => h r (List.mem_cons_of_mem _ hr))]
      simp [hc]

theorem releerEstudiantes_legibles (rs : List Estudiante) (h : ∀ r ∈ rs, Legible r) :
    releerEstudiantes rs = .ok (rs.map fun e => { e with edad := envolver e.edad }) := by
  induction rs with
  | nil => rfl
  | cons e rs ih =>
    rw [releerEstudiantes, releerEstudiante_legible e (h e (List.mem_cons_self _ _))]
    simp only []
    rw [ih (fun r hr => h r (List.mem_cons_of_mem _ hr))]
    rfl

/-- A record with a `genero` of 10,001 bytes makes `leerEstudiante` throw. -/
theorem releerEstudiante_largo : releerEstudiante estudianteLargo =
    .error mensajeLongitudInvalida := by
  have hl : estudianteLargo.genero.length = 10001 := cadenaLarga_length 10001
  unfold releerEstudiante
  rw [if_pos (Or.inr (Or.inl (by rw [hl]; omega)))]

/-- On a file of records with strings of at most 10,000 bytes `existe`
answers whether the file can be read and a record has the `carne`. -/
theorem existe_legibles (repositorio : RepositorioEstudiantes) (carne : String)
    (lectura : Bool) (h : ∀ r ∈ repositorio, Legible r) :
    RepositorioEstudiantes.existe repositorio carne lectura =
      .ok (lectura && decide (∃ r ∈ repositorio, r.carne = carne)) := by
  cases lectura with
  | false => rfl
  | true => rw [existe_escritos, buscarEscrito_legibles _ _ h, Bool.true_and]

/-- The three outcomes of `agregar` on a file of records with strings of at
most 10,000 bytes. -/
theorem agregar_legibles (repositorio : RepositorioEstudiantes) (e : Estudiante)
    (lectura escritura : Bool) (h : ∀ r ∈ repositorio, Legible r) :
    RepositorioEstudiantes.agregar repositorio e lectura escritura =
      if lectura = true ∧ ∃ r ∈ repositorio, r.carne = e.carne then
        (some "El carne ingresado ya esta registrado.", repositorio)
      else if escritura = true then (none, repositorio ++ [e])
      else (some "No se pudo abrir el archivo de estudiantes para escritura.", repositorio) := by
  unfold RepositorioEstudiantes.agregar
  rw [existe_legibles _ _ _ h]
  by_cases hd : lectura = true ∧ ∃ r ∈ repositorio, r.carne = e.carne
  · rw [if_pos hd]
    have : (lectura && decide (∃ r ∈ repositorio, r.carne = e.carne)) = true := by
      simp [hd.1, hd.2]
    rw [this]
  · rw [if_neg hd]
    have : (lectura && decide (∃ r ∈ repositorio, r.carne = e.carne)) = false := by
      cases lectura with
      | false => rfl
      | true =>
        have hn : ¬ ∃ r ∈ repositorio, r.carne = e.carne := fun hx => hd ⟨rfl, hx⟩
        simp only [Bool.true_and, decide_eq_false_iff_not]
        exact hn
    rw [this]

theorem legible_ejemplo (carne genero : String) (edad : Int) (h1 : carne.length ≤ 10000)
    (h2 : genero.length ≤ 10000) : Legible (estudianteEjemplo carne genero edad) := by
  refine ⟨h1, h2, ?_, ?_, ?_, ?_⟩
  · show "Cartago".length ≤ 10000
    decide
  · show "Liceo".length ≤ 10000
    decide
  · show "Publico".length ≤ 10000
    decide
  · show "Soltero".length ≤ 10000
    decide

/-- After a record that cannot be read back, `existe` throws for every
`carne` that no record before it has. -/
theorem buscarEscrito_tras_ilegible (carne : String) (rs : List Estudiante) (e : Estudiante)
    (cola : List Estudiante) (m : String) (h : ∀ r ∈ rs, Legible r)
    (hc : ∀ r ∈ rs, r.carne ≠ carne) (he : releerEstudiante e = .error m) :
    buscarEscrito carne (rs ++ e :: cola) = .error m := by
  induction rs with
  | nil =>
    rw [List.nil_append, buscarEscrito, he]
  | cons r rs ih =>
    rw [List.cons_append, buscarEscrito, releerEstudiante_legible r (h r (List.mem_cons_self _ _))]
    simp only []
    rw [if_neg (hc r (List.mem_cons_self _ _)),
      ih (fun x hx => h x (List.mem_cons_of_mem _ hx))
        (fun x hx => hc x (List.mem_cons_of_mem _ hx))]

/-- A file with a record that cannot be read back, after records that can,
makes `cargarTodos` throw. -/
theorem releerEstudiantes_tras_ilegible (rs : List Estudiante) (e : Estudiante)
    (cola : List Estudiante) (m : String) (h : ∀ r ∈ rs, Legible r)
    (he : releerEstudiante e = .error m) :
    releerEstudiantes (rs ++ e :: cola) = .error m := by
  induction rs with
  | nil =>
    rw [List.nil_append, releerEstudiantes, he]
  | cons r rs ih =>
    rw [List.cons_append, releerEstudiantes,
      releerEstudiante_legible r (h r (List.mem_cons_self _ _))]
    simp only []
    rw [ih (fun x hx => h x (List.mem_cons_of_mem _ hx))]

section Registro

variable {F : Type} [Doble F]

/-- Option 6 with a student whose record cannot be read back, on a file of
records that can and that do not have the `carne`: the record is appended to
the file, the reload throws, and the state keeps its profiles and its tree. -/
theorem opcionAgregarEstudiante_ilegible (app : Aplicacion F) (e : Estudiante) (m : String)
    (h : ∀ r ∈ app.repositorioEstudiantes_, Legible r)
    (hc : ∀ r ∈ app.repositorioEstudiantes_, r.carne ≠ e.carne)
    (he : releerEstudiante e = .error m) :
    app.opcionAgregarEstudiante e todasAbiertas =
      ⟨{ app with repositorioEstudiantes_ := app.repositorioEstudiantes_ ++ [e] },
        [Salida.texto "=== Registro de estudiante ===",
          Salida.texto ("No se pudo registrar el estudiante: " ++ m)], false⟩ := by
  have hno : ¬ (true = true ∧ ∃ r ∈ app.repositorioEstudiantes_, r.carne = e.carne) := by
    rintro ⟨_, r, hr, hrc⟩
    exact hc r hr hrc
  have hex : RepositorioEstudiantes.existe app.repositorioEstudiantes_ e.carne true =
      .ok false := by
    rw [existe_legibles _ _ _ h, Bool.true_and]
    congr 1
    simp only [decide_eq_false_iff_not]
    exact fun hx => hno ⟨rfl, hx⟩
  have hag : RepositorioEstudiantes.agregar app.repositorioEstudiantes_ e true true =
      (none, app.repositorioEstudiantes_ ++ [e]) := by
    rw [agregar_legibles _ _ _ _ h, if_neg hno, if_pos rfl]
  have hact : Aplicacion.actualizarPerfiles
      { app with repositorioEstudiantes_ := app.repositorioEstudiantes_ ++ [e] } true true =
      ({ app with repositorioEstudiantes_ := app.repositorioEstudiantes_ ++ [e] }, some m) := by
    unfold Aplicacion.actualizarPerfiles cargarPerfilesDeRepositorios
    simp only []
    rw [cargarTodos_escritos, releerEstudiantes_tras_ilegible _ e [] m h he]
  unfold Aplicacion.opcionAgregarEstudiante
  simp only [todasAbiertas]
  rw [hex]
  simp only []
  rw [hag]
  simp only []
  rw [hact]

/-- Once a record that cannot be read back is in the file, after records that
can, option 6 lets the exception of `existe` escape for every `carne` that no
record before it has. -/
theorem opcionAgregarEstudiante_escapa (app : Aplicacion F) (rs : List Estudiante)
    (e : Estudiante) (cola : List Estudiante) (m : String) (nuevo : Estudiante)
    (aperturas : Aperturas)
    (hrepo : app.repositorioEstudiantes_ = rs ++ e :: cola) (h : ∀ r ∈ rs, Legible r)
    (hc : ∀ r ∈ rs, r.carne ≠ nuevo.carne) (he : releerEstudiante e = .error m)
    (ha : aperturas.consulta = true) :
    app.opcionAgregarEstudiante nuevo aperturas =
      ⟨app, [Salida.texto "=== Registro de estudiante ==="], true⟩ := by
  unfold Aplicacion.opcionAgregarEstudiante
  rw [ha, existe_escritos, hrepo, buscarEscrito_tras_ilegible _ rs e cola m h hc he]

/-- The same for option 7. -/
theorem opcionAgregarNota_escapa (app : Aplicacion F) (rs : List Estudiante)
    (e : Estudiante) (cola : List Estudiante) (m : String) (registro : RegistroHistorial F)
    (aperturas : Aperturas)
    (hrepo : app.repositorioEstudiantes_ = rs ++ e :: cola) (h : ∀ r ∈ rs, Legible r)
    (hc : ∀ r ∈ rs, r.carne ≠ registro.carneEstudiante)
    (he : releerEstudiante e = .error m) (ha : aperturas.consulta = true) :
    app.opcionAgregarNota registro aperturas =
      ⟨app, [Salida.texto "=== Registro de nota ==="], true⟩ := by
  unfold Aplicacion.opcionAgregarNota
  rw [ha, existe_escritos, hrepo, buscarEscrito_tras_ilegible _ rs e cola m h hc he]

/-- Option 6 while the student file can be appended to but not read and an
ordering is active: the record is appended, no profile is loaded, and the tree
is rebuilt from no profile. -/
theorem opcionAgregarEstudiante_sin_lectura (app : Aplicacion F) (e : Estudiante)
    (registros : List (RegistroHistorial F))
    (hh : leerRegistros app.repositorioHistorial_ = .ok registros)
    (ho : app.ordenActivo_ ≠ []) :
    app.opcionAgregarEstudiante e soloEscritura =
      ⟨{ app with
          repositorioEstudiantes_ := app.repositorioEstudiantes_ ++ [e]
          perfiles_ := []
          arbolActual_ := construirArbolClasificacion ([] : List (PerfilEstudiante F))
            app.ordenActivo_ },
        [Salida.texto "=== Registro de estudiante ===",
          Salida.texto "Estudiante registrado correctamente."], false⟩ := by
  obtain ⟨t, ht⟩ :=
    construirArbolClasificacion_exito ([] : List (PerfilEstudiante F)) app.ordenActivo_
  have hvacio : app.ordenActivo_.isEmpty = false := by
    cases hl : app.ordenActivo_ with
    | nil => exact absurd hl ho
    | cons v vs => rfl
  have hcp : cargarPerfiles ([] : List Estudiante) registros = ([] : List (PerfilEstudiante F)) := by
    rw [cargarPerfiles_eq]
    rfl
  have hact : Aplicacion.actualizarPerfiles
      { app with repositorioEstudiantes_ := app.repositorioEstudiantes_ ++ [e] } false true =
      ({ app with
          repositorioEstudiantes_ := app.repositorioEstudiantes_ ++ [e]
          perfiles_ := []
          arbolActual_ := some t }, none) := by
    unfold Aplicacion.actualizarPerfiles cargarPerfilesDeRepositorios
      RepositorioEstudiantes.cargarTodos RepositorioHistorial.cargarTodos
    simp only [Bool.false_eq_true, if_false, if_true]
    rw [hh]
    simp only [hcp, hvacio, Bool.false_eq_true, if_false]
    rw [ht]
  unfold Aplicacion.opcionAgregarEstudiante
  simp only [soloEscritura]
  rw [show RepositorioEstudiantes.existe app.repositorioEstudiantes_ e.carne false = .ok false
    from rfl]
  simp only []
  rw [show RepositorioEstudiantes.agregar app.repositorioEstudiantes_ e false true =
    (none, app.repositorioEstudiantes_ ++ [e]) from rfl]
  simp only []
  rw [hact, ht]

end Registro
/-- A history file whose last record cannot be read back, after records that
can, makes `cargarTodos` throw. -/
theorem leerRegistros_tras_ilegible {F : Type} (rs : List (RegistroHistorial F))
    (leidos : List (RegistroHistorial F)) (r : RegistroHistorial F) (m : String)
    (h : leerRegistros rs = .ok leidos) (hr : releerRegistro r = .error m) :
    leerRegistros (rs ++ [r]) = .error m := by
  induction rs generalizing leidos with
  | nil => rw [List.nil_append, leerRegistros, hr]
  | cons x xs ih =>
    rw [leerRegistros] at h
    rw [List.cons_append, leerRegistros]
    cases hx : releerRegistro x with
    | error e =>
      rw [hx] at h
      cases h
    | ok leido =>
      rw [hx] at h
      simp only [] at h ⊢
      cases hxs : leerRegistros xs with
      | error e =>
        rw [hxs] at h
        cases h
      | ok resto => rw [ih resto hxs]

/-- Option 7 with a grade entry that cannot be read back (a `materia` of more
than 10,000 bytes), for a student of a readable file and a readable history:
the entry is appended to the history file, the reload throws, and the state
keeps its profiles and its tree. -/
theorem opcionAgregarNota_ilegible {F : Type} [Doble F] (app : Aplicacion F)
    (registro : RegistroHistorial F) (m : String) (estudiantes : List Estudiante)
    (leidos : List (RegistroHistorial F))
    (hex : RepositorioEstudiantes.existe app.repositorioEstudiantes_ registro.carneEstudiante
      true = .ok true)
    (hes : RepositorioEstudiantes.cargarTodos app.repositorioEstudiantes_ true =
      .ok estudiantes)
    (hh : leerRegistros app.repositorioHistorial_ = .ok leidos)
    (hr : releerRegistro registro = .error m) :
    app.opcionAgregarNota registro todasAbiertas =
      ⟨{ app with repositorioHistorial_ := app.repositorioHistorial_ ++ [registro] },
        [Salida.texto "=== Registro de nota ===",
          Salida.texto ("No se pudo registrar la nota: " ++ m)], false⟩ := by
  have hact : Aplicacion.actualizarPerfiles
      { app with repositorioHistorial_ := app.repositorioHistorial_ ++ [registro] } true true =
      ({ app with repositorioHistorial_ := app.repositorioHistorial_ ++ [registro] },
        some m) := by
    unfold Aplicacion.actualizarPerfiles cargarPerfilesDeRepositorios
      RepositorioHistorial.cargarTodos
    simp only []
    rw [hes]
    simp only [if_true]
    rw [leerRegistros_tras_ilegible _ leidos registro m hh hr]
  unfold Aplicacion.opcionAgregarNota
  simp only [todasAbiertas]
  rw [hex]
  simp only []
  rw [show RepositorioHistorial.agregar app.repositorioHistorial_ registro true =
    (none, app.repositorioHistorial_ ++ [registro]) from rfl]
  simp only []
  rw [hact]

/-! ## The student store and the reload of the profiles -/

theorem legible_A1 : ∀ r ∈ [estudianteEjemplo "A1" "F" 20], Legible r := by
  intro r hr
  rw [List.mem_singleton.1 hr]
  exact legible_ejemplo _ _ _ (by decide) (by decide)

theorem leerRegistros_deA1 :
    leerRegistros [registroDoble (.finito 60), registroDoble (.finito 80)] =
      .ok [registroDoble (.finito 60), registroDoble (.finito 80)] := rfl

theorem cargarPerfiles_deA1 :
    cargarPerfilesDeRepositorios [estudianteEjemplo "A1" "F" 20]
      [registroDoble (.finito 60), registroDoble (.finito 80)] true true = .ok [perfilDoble] := by
  unfold cargarPerfilesDeRepositorios RepositorioHistorial.cargarTodos
  rw [cargarTodos_escritos, releerEstudiantes_legibles _ legible_A1, if_pos rfl,
    leerRegistros_deA1]
  simp only []
  rw [show List.map (fun e : Estudiante => { e with edad := envolver e.edad })
      [estudianteEjemplo "A1" "F" 20] = [estudianteEjemplo "A1" "F" 20] from by decide,
    cargarPerfiles_doble]

theorem inicial_deA1 :
    Aplicacion.inicial [estudianteEjemplo "A1" "F" 20]
      [registroDoble (.finito 60), registroDoble (.finito 80)] = .ok aplicacionDeA1 := by
  unfold Aplicacion.inicial
  rw [cargarPerfiles_deA1]
  rfl

theorem paso_construir_deA1 :
    aplicacionDeA1.paso (.construirArbol [.Genero]) =
      ⟨aplicacionConArbol, [Salida.arbolConstruido 1], false⟩ := rfl

theorem paso_agregarEstudiante {F : Type} [Doble F] (app : Aplicacion F) (e : Estudiante)
    (aperturas : Aperturas) :
    app.paso (.agregarEstudiante e aperturas) = app.opcionAgregarEstudiante e aperturas := rfl

theorem carne_A1_nuevo (carne genero : String) (edad : Int) (h : "A1" ≠ carne) :
    ∀ r ∈ [estudianteEjemplo "A1" "F" 20], r.carne ≠ (estudianteEjemplo carne genero edad).carne := by
  intro r hr
  rw [List.mem_singleton.1 hr]
  exact h

theorem paso_sin_lectura :
    aplicacionConArbol.paso (.agregarEstudiante (estudianteEjemplo "Z9" "M" 30) soloEscritura) =
      ⟨aplicacionSinPerfiles, [Salida.texto "=== Registro de estudiante ===",
        Salida.texto "Estudiante registrado correctamente."], false⟩ := by
  rw [paso_agregarEstudiante,
    opcionAgregarEstudiante_sin_lectura aplicacionConArbol _ _ leerRegistros_deA1 (by decide)]
  rfl

theorem paso_largo :
    aplicacionConArbol.paso (.agregarEstudiante estudianteLargo todasAbiertas) =
      ⟨aplicacionDesfasada, [Salida.texto "=== Registro de estudiante ===",
        Salida.texto ("No se pudo registrar el estudiante: " ++ mensajeLongitudInvalida)],
        false⟩ := by
  have hc : ∀ r ∈ aplicacionConArbol.repositorioEstudiantes_, r.carne ≠ estudianteLargo.carne := by
    intro r hr
    rw [List.mem_singleton.1 hr]
    show "A1" ≠ "L1"
    decide
  rw [paso_agregarEstudiante, opcionAgregarEstudiante_ilegible aplicacionConArbol estudianteLargo
    mensajeLongitudInvalida legible_A1 hc releerEstudiante_largo]
  rfl

theorem porcentaje_sin_estudiantes :
    Doble.producto (Doble.cociente (Doble.deNat 0 : Binario64) (Doble.deNat 0))
      (Doble.deNat 100) = Binario64.nan := by
  have h0 : (Doble.deNat 0 : Binario64) = .finito 0 := by
    show redondear ((0 : ℕ) : ℚ) = _
    simp [redondear]
  rw [h0]
  show Binario64.producto (Binario64.cociente (.finito 0) (.finito 0)) _ = _
  rw [Binario64.cociente, if_pos rfl, if_pos rfl]
  rfl

/-- C16 fails on a run of the program. The files hold the student `A1` and
two grades; option 1 builds the tree for the ordering gender; option 6 then
registers a student `Z9` while the student file can be appended to but not
read: the record is appended, `cargarPerfiles` returns no profile and
`actualizarPerfiles` rebuilds the tree from no profile, so that its root has
no index. Option 4 then writes the heading of the leaf report and the line of
the root as a leaf with the percentage `(0 / 0) * 100`, a NaN; the message
that no student is registered is not written. -/
theorem C16_reporte_divide_por_cero :
    Aplicacion.inicial [estudianteEjemplo "A1" "F" 20]
      [registroDoble (.finito 60), registroDoble (.finito 80)] = .ok aplicacionDeA1 ∧
    aplicacionDeA1.ejecutar
        [.construirArbol [.Genero],
          .agregarEstudiante (estudianteEjemplo "Z9" "M" 30) soloEscritura, .reporteHojas] =
      ⟨aplicacionSinPerfiles,
        [Salida.arbolConstruido 1, Salida.texto "=== Registro de estudiante ===",
          Salida.texto "Estudiante registrado correctamente.",
          Salida.texto "Reporte por hojas:", Salida.lineaHoja "" 0 Binario64.nan], false⟩ ∧
    aplicacionSinPerfiles.arbolActual_ =
      construirArbolClasificacion aplicacionSinPerfiles.perfiles_
        aplicacionSinPerfiles.ordenActivo_ ∧
    aplicacionSinPerfiles.arbolActual_ = some raizVacia ∧
    raizVacia.indicesEstudiantes = [] ∧
    opcionReporteHojas (some raizVacia) =
      some [Salida.texto "Reporte por hojas:",
        Salida.lineaHoja "" 0
          (Doble.producto (Doble.cociente (Doble.deNat 0 : Binario64)
            (Doble.deNat raizVacia.indicesEstudiantes.length)) (Doble.deNat 100))] ∧
    Doble.producto (Doble.cociente (Doble.deNat 0 : Binario64)
      (Doble.deNat raizVacia.indicesEstudiantes.length)) (Doble.deNat 100) = Binario64.nan ∧
    Salida.texto mensajeSinEstudiantes ∉
      [Salida.arbolConstruido 1, Salida.texto "=== Registro de estudiante ===",
        Salida.texto "Estudiante registrado correctamente.",
        Salida.texto "Reporte por hojas:", Salida.lineaHoja "" 0 Binario64.nan] := by
  have hrep : aplicacionSinPerfiles.paso .reporteHojas =
      ⟨aplicacionSinPerfiles, [Salida.texto "Reporte por hojas:",
        Salida.lineaHoja "" 0 Binario64.nan], false⟩ := by
    show (match opcionReporteHojas aplicacionSinPerfiles.arbolActual_ with
      | none => (⟨aplicacionSinPerfiles, [], true⟩ : Efecto Binario64)
      | some salida => ⟨aplicacionSinPerfiles, salida, false⟩) = _
    rw [show opcionReporteHojas aplicacionSinPerfiles.arbolActual_ =
      some [Salida.texto "Reporte por hojas:",
        Salida.lineaHoja "" 0
          (Doble.producto (Doble.cociente (Doble.deNat 0 : Binario64) (Doble.deNat 0))
            (Doble.deNat 100))] from rfl, porcentaje_sin_estudiantes]
  refine ⟨inicial_deA1, ?_, rfl, rfl, rfl, rfl, porcentaje_sin_estudiantes, ?_⟩
  · simp only [Aplicacion.ejecutar, paso_construir_deA1, paso_sin_lectura, hrep,
      Bool.false_eq_true, if_false, List.append_nil, List.cons_append, List.nil_append]
  · simp [mensajeSinEstudiantes]

/-- C20 fails on a run of the program. The files hold the student `A1` and
two grades; option 1 builds the tree for the ordering gender; option 6 then
registers the student `L1`, whose `genero` has 10,001 bytes, with every file
opening: the record is appended to the file, the reload of the profiles
throws the exception of `leerCadena`, which is caught and reported as a failed
registration, and `perfiles_` and the tree stay as they were. In the state
reached a tree exists, `perfiles_` is what `cargarPerfiles` gave for the
former contents of the file, `cargarPerfiles` of the contents as they are
throws, the leaf report is written from the tree without `L1`, and option 6
for a new `carne` ends the program with the exception of `existe`. -/
theorem C20_datos_desfasados :
    Aplicacion.inicial [estudianteEjemplo "A1" "F" 20]
      [registroDoble (.finito 60), registroDoble (.finito 80)] = .ok aplicacionDeA1 ∧
    aplicacionDeA1.ejecutar
        [.construirArbol [.Genero], .agregarEstudiante estudianteLargo todasAbiertas] =
      ⟨aplicacionDesfasada,
        [Salida.arbolConstruido 1, Salida.texto "=== Registro de estudiante ===",
          Salida.texto ("No se pudo registrar el estudiante: " ++ mensajeLongitudInvalida)],
        false⟩ ∧
    aplicacionDesfasada.repositorioEstudiantes_ =
      [estudianteEjemplo "A1" "F" 20, estudianteLargo] ∧
    aplicacionDesfasada.perfiles_ = [perfilDoble] ∧
    aplicacionDesfasada.arbolActual_ = some arbolDeA1 ∧
    cargarPerfilesDeRepositorios [estudianteEjemplo "A1" "F" 20]
      aplicacionDesfasada.repositorioHistorial_ true true = .ok aplicacionDesfasada.perfiles_ ∧
    cargarPerfilesDeRepositorios aplicacionDesfasada.repositorioEstudiantes_
      aplicacionDesfasada.repositorioHistorial_ true true = .error mensajeLongitudInvalida ∧
    aplicacionDesfasada.paso .reporteHojas =
      ⟨aplicacionDesfasada,
        [Salida.texto "Reporte por hojas:",
          Salida.lineaHoja "Genero=F" 1
            (Doble.producto (Doble.cociente (Doble.deNat 1 : Binario64) (Doble.deNat 1))
              (Doble.deNat 100))], false⟩ ∧
    aplicacionDesfasada.paso
        (.agregarEstudiante (estudianteEjemplo "Z9" "M" 30) todasAbiertas) =
      ⟨aplicacionDesfasada, [Salida.texto "=== Registro de estudiante ==="], true⟩ := by
  refine ⟨inicial_deA1, ?_, rfl, rfl, rfl, cargarPerfiles_deA1, ?_, rfl, ?_⟩
  · simp only [Aplicacion.ejecutar, paso_construir_deA1, paso_largo,
      Bool.false_eq_true, if_false, List.append_nil, List.cons_append, List.nil_append]
  · unfold cargarPerfilesDeRepositorios
    rw [cargarTodos_escritos]
    have hr : releerEstudiantes aplicacionDesfasada.repositorioEstudiantes_ =
        .error mensajeLongitudInvalida :=
      releerEstudiantes_tras_ilegible [estudianteEjemplo "A1" "F" 20] estudianteLargo []
        mensajeLongitudInvalida legible_A1 releerEstudiante_largo
    rw [hr]
  · rw [paso_agregarEstudiante]
    exact opcionAgregarEstudiante_escapa aplicacionDesfasada [estudianteEjemplo "A1" "F" 20]
      estudianteLargo [] mensajeLongitudInvalida (estudianteEjemplo "Z9" "M" 30) todasAbiertas
      rfl legible_A1 (carne_A1_nuevo "Z9" "M" 30 (by decide)) releerEstudiante_largo rfl

end Clasificacion
